import Mathlib

/-!
# Chess server rules engine (`src/server.js`, class `ChessGame`)

A shallow embedding of the authoritative game object held by the server.

Modelling conventions.

* JavaScript numbers that index the board are integers (`Int`).
* `this.board` is an array of eight row arrays.  Reading or writing
  `this.board[r][c]` with `r` outside `0..7` dereferences `undefined` and throws
  a `TypeError`; a column outside `0..7` is an ordinary (absent) property of the
  row array, so reading it gives `undefined` and writing it stores the value.
  A board is therefore a function of two integers together with the row guard
  of `getCell`.  `null` and `undefined` cells are both `none`: the source only
  ever tests cells for truthiness or through `?.`.
* A thrown `TypeError` is `Err.typeError`.  The check detection of the source is
  a recursion (`wouldKingBeInCheck -> isPieceMovementValid -> isKingMoveValid ->
  isCastlingValid -> isKingInCheck -> wouldKingBeInCheck`); the model carries a
  recursion budget `fuel` that is consumed at the call of `isCastlingValid`, and
  `Err.diverge` is the result when the budget is exhausted.  The source returns
  the value `v` exactly when the model returns `Except.ok v` for some budget.
* Pieces are values.  The places where the source keeps a second reference to
  an object that it mutates afterwards are written out in `makeMove`.
* The ids of seated players and spectators are strings, made by `uuidv4()` in
  the two routes that call `addPlayer`.  A `playerId` that a handler takes from
  a request and passes to `isValidMove` or `handleDrawOffer` is an `IdValue`:
  `undefined` when the field is missing, a string, or another value.
* The clocks are Numbers that hold integers (`Int`); the one arithmetic step,
  the decrement of a tick, is rounded as a Number is (`toNumber`).
-/

namespace Chess

inductive Color where
  | white
  | black
  deriving DecidableEq, Repr

/-- Value of `color === 'white' ? 'black' : 'white'`. -/
def Color.opponent : Color → Color
  | .white => .black
  | .black => .white

/-- Value of the `type` field of a piece.  `other` stands for any truthy value
that is none of the six names (the field is overwritten with the unvalidated
`promotionPiece` argument on promotion). -/
inductive PieceType where
  | pawn
  | knight
  | bishop
  | rook
  | queen
  | king
  | other (tag : String)
  deriving DecidableEq, Repr

structure Piece where
  type : PieceType
  color : Color
  hasMoved : Bool
  deriving DecidableEq, Repr

inductive Err where
  | typeError
  | diverge
  deriving DecidableEq, Repr

deriving instance DecidableEq for Except

abbrev Board := Int → Int → Option Piece

/-- The row indices for which `this.board[r]` is an array. -/
def rowOk (r : Int) : Bool := decide (0 ≤ r) && decide (r ≤ 7)

/-- Read of `this.board[r][c]`. -/
def getCell (b : Board) (r c : Int) : Except Err (Option Piece) :=
  if rowOk r then .ok (b r c) else .error .typeError

/-- Board after the assignment `this.board[r][c] = v` (for an existing row `r`). -/
def setCell (b : Board) (r c : Int) (v : Option Piece) : Board :=
  fun r' c' => if r' = r ∧ c' = c then v else b r' c'

/-- Board given by its eight rows, as a row-major table. -/
def boardOfRows (rows : List (List (Option Piece))) : Board :=
  fun r c =>
    if 0 ≤ r ∧ 0 ≤ c then
      match rows.get? r.toNat with
      | some row => (row.get? c.toNat).join
      | none => none
    else none

structure Player where
  id : String
  name : String
  deriving DecidableEq, Repr

structure Seats where
  white : Option Player
  black : Option Player
  deriving DecidableEq, Repr

structure Rights where
  kingside : Bool
  queenside : Bool
  deriving DecidableEq, Repr

structure CastlingRights where
  white : Rights
  black : Rights
  deriving DecidableEq, Repr

/-- Value of `this.castlingRights[color]`. -/
def CastlingRights.get (cr : CastlingRights) : Color → Rights
  | .white => cr.white
  | .black => cr.black

structure Square where
  row : Int
  col : Int
  deriving DecidableEq, Repr

structure CastlingInfo where
  isKingside : Bool
  rookFrom : Int
  rookTo : Int
  deriving DecidableEq, Repr

/-- The record pushed on `moveHistory` by `makeMove` (without its timestamp). -/
structure MoveRecord where
  fromSq : Square
  toSq : Square
  piece : Piece
  capturedPiece : Option Piece
  enPassantTarget : Option Square
  castlingRights : CastlingRights
  promotion : Option PieceType
  enPassantCapture : Option Piece
  castling : Option CastlingInfo
  deriving DecidableEq, Repr

structure Captured where
  white : List Piece
  black : List Piece
  deriving DecidableEq, Repr

/-- Source: `this.timeLeft`.  The clocks are Numbers; the model covers the
Numbers that hold an integer, and `decrement` gives what `--` stores. -/
structure TimeLeft where
  white : Int
  black : Int
  deriving DecidableEq, Repr

/-- A value received as `playerId`.  The handlers pass this field of a request
on without a test, so it may be missing (`undefined`), a string, or any other
value (`null`, a number, a boolean, an object).  The ids of the seats are
strings made by `uuidv4()`, so under `===` a value of the third kind equals
neither the id of a seat nor the `undefined` of an empty seat. -/
inductive IdValue where
  | undefined
  | str (id : String)
  | other
  deriving DecidableEq, Repr

instance : Coe String IdValue := ⟨IdValue.str⟩

/-- Source: `this.drawOffer`.  `none` is `null`; `offeredBy` holds the
`playerId` argument of `handleDrawOffer` as it was passed, `offeredTo` the id of
a seated player. -/
structure DrawOffer where
  active : Bool
  offeredBy : Option IdValue
  offeredTo : Option String
  deriving DecidableEq, Repr

/-- Non-null values of `gameEndReason`. -/
inductive EndReason where
  | timeout
  | draw
  deriving DecidableEq, Repr

/-- The fields of a `ChessGame` that the rules engine, the clock and the draw
system read or write. -/
structure Game where
  players : Seats
  spectators : List Player
  currentPlayer : Color
  gameOver : Bool
  board : Board
  moveHistory : List MoveRecord
  capturedPieces : Captured
  enPassantTarget : Option Square
  castlingRights : CastlingRights
  timerDuration : Int
  timeLeft : TimeLeft
  timerActive : Bool
  timerPaused : Bool
  gameStarted : Bool
  gameEndReason : Option EndReason
  drawOffer : DrawOffer

/-- The loop range `0, 1, ..., 7` of the board scans. -/
def idx8 : List Int := [0, 1, 2, 3, 4, 5, 6, 7]

/-- A scan that returns `true` at the first element for which the body does,
`false` when the list is exhausted, and stops at the first exception. -/
def anyE {α : Type} (p : α → Except Err Bool) : List α → Except Err Bool
  | [] => .ok false
  | x :: xs =>
    match p x with
    | .ok true => .ok true
    | .ok false => anyE p xs
    | .error e => .error e

/-- Source: `seat?.id` for a seat of `this.players`: `undefined` when the seat
is empty. -/
def seatId : Option Player → IdValue
  | none => .undefined
  | some p => .str p.id

/-- Source: `getPlayerColor(playerId)`; `none` is `null`.  The two tests are
`this.players.white?.id === playerId` and `this.players.black?.id === playerId`,
so a missing `playerId` is equal to the id of an empty seat. -/
def getPlayerColor (s : Game) (playerId : IdValue) : Option Color :=
  if seatId s.players.white = playerId then some .white
  else if seatId s.players.black = playerId then some .black
  else none

/-- The `while` loop of `isPathClear`; `n` bounds the number of iterations. -/
def isPathClearLoop (b : Board) (toRow toCol rowDir colDir : Int) :
    Nat → Int → Int → Except Err Bool
  | 0, row, col =>
    if row ≠ toRow ∨ col ≠ toCol then .error .diverge else .ok true
  | n + 1, row, col =>
    if row ≠ toRow ∨ col ≠ toCol then
      match getCell b row col with
      | .error e => .error e
      | .ok (some _) => .ok false
      | .ok none => isPathClearLoop b toRow toCol rowDir colDir n (row + rowDir) (col + colDir)
    else .ok true

/-- Value of `a > b ? 1 : a < b ? -1 : 0`. -/
def dirOf (a b : Int) : Int := if a > b then 1 else if a < b then -1 else 0

/-- Source: `isPathClear(fromRow, fromCol, toRow, toCol)`.  The loop either
reaches the target square or walks off the board rows and throws, so the
iteration bound is never the reason it stops. -/
def isPathClear (b : Board) (fromRow fromCol toRow toCol : Int) : Except Err Bool :=
  let rowDir := dirOf toRow fromRow
  let colDir := dirOf toCol fromCol
  isPathClearLoop b toRow toCol rowDir colDir
    ((toRow - fromRow).natAbs + (toCol - fromCol).natAbs + 9)
    (fromRow + rowDir) (fromCol + colDir)

/-- Source: `isPawnMoveValid(piece, fromRow, fromCol, toRow, toCol)`. -/
def isPawnMoveValid (s : Game) (piece : Piece) (fromRow fromCol toRow toCol : Int) :
    Except Err Bool :=
  let direction : Int := if piece.color = .white then -1 else 1
  let startRow : Int := if piece.color = .white then 6 else 1
  let rowDiff := toRow - fromRow
  let colDiff := (toCol - fromCol).natAbs
  if colDiff = 0 then
    match getCell s.board toRow toCol with
    | .error e => .error e
    | .ok (some _) => .ok false
    | .ok none =>
      if rowDiff = direction then .ok true
      else if fromRow = startRow ∧ rowDiff = 2 * direction then
        match getCell s.board (fromRow + direction) fromCol with
        | .error e => .error e
        | .ok mid => .ok mid.isNone
      else .ok false
  else if colDiff = 1 ∧ rowDiff = direction then
    match getCell s.board toRow toCol with
    | .error e => .error e
    | .ok target =>
      if target.isSome ∧ target.map (·.color) ≠ some piece.color then .ok true
      else if s.enPassantTarget.map (·.row) = some toRow ∧
          s.enPassantTarget.map (·.col) = some toCol then .ok true
      else .ok false
  else .ok false

/-- Source: `findKing(color)`, the first king of that colour in row-major order. -/
def findKing (b : Board) (color : Color) : Option Square :=
  idx8.findSome? fun row => idx8.findSome? fun col =>
    match b row col with
    | some p => if p.type = .king ∧ p.color = color then some (⟨row, col⟩ : Square) else none
    | none => none

/-- The type of the recursive reference to `isPieceMovementValid` inside check
detection. -/
abbrev MoveTest := Piece → Int → Int → Int → Int → Except Err Bool

/-- Source: `wouldKingBeInCheck(color, row, col)`, with the call of
`isPieceMovementValid` taken as `pmv`. -/
def wouldKingBeInCheckWith (pmv : MoveTest) (b : Board) (color : Color) (row col : Int) :
    Except Err Bool :=
  anyE (fun r => anyE (fun c =>
    match b r c with
    | some piece => if piece.color = color.opponent then pmv piece r c row col else .ok false
    | none => .ok false) idx8) idx8

/-- Source: `isKingInCheck(color)`, with `isPieceMovementValid` taken as `pmv`. -/
def isKingInCheckWith (pmv : MoveTest) (b : Board) (color : Color) : Except Err Bool :=
  match findKing b color with
  | none => .ok false
  | some kingPos => wouldKingBeInCheckWith pmv b color kingPos.row kingPos.col

/-- The `for` loop of `isCastlingValid`: `col` runs from `fromCol + step` until
it equals `toCol + step`; `n` bounds the number of iterations.  The row
`fromRow` has already been read when the loop starts. -/
def castlingLoopWith (pmv : MoveTest) (b : Board) (color : Color) (fromRow toCol step : Int) :
    Nat → Int → Except Err Bool
  | 0, col => if col ≠ toCol + step then .error .diverge else .ok true
  | n + 1, col =>
    if col ≠ toCol + step then
      if (b fromRow col).isSome then .ok false
      else
        match wouldKingBeInCheckWith pmv b color fromRow col with
        | .error e => .error e
        | .ok true => .ok false
        | .ok false => castlingLoopWith pmv b color fromRow toCol step n (col + step)
    else .ok true

/-- Source: `isCastlingValid(piece, fromRow, fromCol, toRow, toCol)`, with
`isPieceMovementValid` taken as `pmv`. -/
def isCastlingValidWith (pmv : MoveTest) (s : Game) (piece : Piece)
    (fromRow fromCol _toRow toCol : Int) : Except Err Bool :=
  let isKingside : Bool := decide (toCol > fromCol)
  let rookCol : Int := if isKingside then 7 else 0
  match getCell s.board fromRow rookCol with
  | .error e => .error e
  | .ok none => .ok false
  | .ok (some rook) =>
    if rook.type ≠ .rook ∨ rook.hasMoved = true then .ok false
    else if isKingside = true ∧ (s.castlingRights.get piece.color).kingside = false then .ok false
    else if isKingside = false ∧ (s.castlingRights.get piece.color).queenside = false then
      .ok false
    else
      match isKingInCheckWith pmv s.board piece.color with
      | .error e => .error e
      | .ok true => .ok false
      | .ok false =>
        let step : Int := if isKingside then 1 else -1
        castlingLoopWith pmv s.board piece.color fromRow toCol step
          (toCol - fromCol).natAbs (fromCol + step)

/-- Source: `isKingMoveValid(piece, fromRow, fromCol, toRow, toCol)`, with
`isPieceMovementValid` taken as `pmv`. -/
def isKingMoveValidWith (pmv : MoveTest) (s : Game) (piece : Piece)
    (fromRow fromCol toRow toCol : Int) : Except Err Bool :=
  let rowDiff := (toRow - fromRow).natAbs
  let colDiff := (toCol - fromCol).natAbs
  if rowDiff ≤ 1 ∧ colDiff ≤ 1 then .ok true
  else if rowDiff = 0 ∧ colDiff = 2 ∧ piece.hasMoved = false then
    isCastlingValidWith pmv s piece fromRow fromCol toRow toCol
  else .ok false

/-- Source: `isPieceMovementValid(piece, fromRow, fromCol, toRow, toCol)`.
`fuel` is the number of nested activations of this function that are allowed;
a castling test of a king is the only place that starts a nested one. -/
def isPieceMovementValid : Nat → Game → MoveTest
  | 0, _, _, _, _, _, _ => .error .diverge
  | fuel + 1, s, piece, fromRow, fromCol, toRow, toCol =>
    let rowDiff := (toRow - fromRow).natAbs
    let colDiff := (toCol - fromCol).natAbs
    match piece.type with
    | .pawn => isPawnMoveValid s piece fromRow fromCol toRow toCol
    | .rook =>
      if rowDiff = 0 ∨ colDiff = 0 then isPathClear s.board fromRow fromCol toRow toCol
      else .ok false
    | .bishop =>
      if rowDiff = colDiff then isPathClear s.board fromRow fromCol toRow toCol
      else .ok false
    | .queen =>
      if rowDiff = 0 ∨ colDiff = 0 ∨ rowDiff = colDiff then
        isPathClear s.board fromRow fromCol toRow toCol
      else .ok false
    | .king =>
      isKingMoveValidWith (isPieceMovementValid fuel s) s piece fromRow fromCol toRow toCol
    | .knight => .ok (decide ((rowDiff = 2 ∧ colDiff = 1) ∨ (rowDiff = 1 ∧ colDiff = 2)))
    | .other _ => .ok false

/-- Source: `isKingMoveValid`, called from an activation of
`isPieceMovementValid` with budget `fuel + 1`. -/
def isKingMoveValid (fuel : Nat) (s : Game) : MoveTest :=
  isKingMoveValidWith (isPieceMovementValid fuel s) s

/-- Source: `isCastlingValid`, called from an activation of
`isPieceMovementValid` with budget `fuel + 1`. -/
def isCastlingValid (fuel : Nat) (s : Game) : MoveTest :=
  isCastlingValidWith (isPieceMovementValid fuel s) s

/-- Source: `wouldKingBeInCheck(color, row, col)`. -/
def wouldKingBeInCheck (fuel : Nat) (s : Game) (color : Color) (row col : Int) :
    Except Err Bool :=
  wouldKingBeInCheckWith (isPieceMovementValid fuel s) s.board color row col

/-- Source: `isKingInCheck(color)`. -/
def isKingInCheck (fuel : Nat) (s : Game) (color : Color) : Except Err Bool :=
  isKingInCheckWith (isPieceMovementValid fuel s) s.board color

/-- Board during the simulation of `wouldMoveResultInCheck`, after
`this.board[toRow][toCol] = piece; this.board[fromRow][fromCol] = null`. -/
def simulateMove (b : Board) (fromRow fromCol toRow toCol : Int) : Board :=
  setCell (setCell b toRow toCol (b fromRow fromCol)) fromRow fromCol none

/-- Board after the two restoring assignments of `wouldMoveResultInCheck`,
`this.board[fromRow][fromCol] = piece; this.board[toRow][toCol] = capturedPiece`,
applied to the simulation board `sim` of the board `b`. -/
def restoreMove (b sim : Board) (fromRow fromCol toRow toCol : Int) : Board :=
  setCell (setCell sim fromRow fromCol (b fromRow fromCol)) toRow toCol (b toRow toCol)

/-- Source: `wouldMoveResultInCheck(fromRow, fromCol, toRow, toCol)`: the
returned flag.  The board is put back by `restoreMove` before the return (see
`restoreMove_simulateMove`), so the state after the call is the state before. -/
def wouldMoveResultInCheck (fuel : Nat) (s : Game) (fromRow fromCol toRow toCol : Int) :
    Except Err Bool :=
  match getCell s.board fromRow fromCol with
  | .error e => .error e
  | .ok piece? =>
    match getCell s.board toRow toCol with
    | .error e => .error e
    | .ok _ =>
      match piece? with
      | none => .error .typeError
      | some piece =>
        isKingInCheck fuel { s with board := simulateMove s.board fromRow fromCol toRow toCol }
          piece.color

/-- Source: `isValidMove(fromRow, fromCol, toRow, toCol, playerId)`. -/
def isValidMove (fuel : Nat) (s : Game) (fromRow fromCol toRow toCol : Int)
    (playerId : IdValue) : Except Err Bool :=
  let playerColor := getPlayerColor s playerId
  if playerColor ≠ some s.currentPlayer ∨ s.gameOver = true then .ok false
  else
    match getCell s.board fromRow fromCol with
    | .error e => .error e
    | .ok none => .ok false
    | .ok (some piece) =>
      if some piece.color ≠ playerColor then .ok false
      else
        match getCell s.board toRow toCol with
        | .error e => .error e
        | .ok targetPiece =>
          if targetPiece.map (·.color) = some piece.color then .ok false
          else
            match isPieceMovementValid fuel s piece fromRow fromCol toRow toCol with
            | .error e => .error e
            | .ok false => .ok false
            | .ok true =>
              match wouldMoveResultInCheck fuel s fromRow fromCol toRow toCol with
              | .error e => .error e
              | .ok inCheck => .ok (!inCheck)

/-- Source: `hasValidMoves(color)`. -/
def hasValidMoves (fuel : Nat) (s : Game) (color : Color) : Except Err Bool :=
  anyE (fun fromRow => anyE (fun fromCol =>
    match s.board fromRow fromCol with
    | none => .ok false
    | some piece =>
      if piece.color = color then
        anyE (fun toRow => anyE (fun toCol =>
          match isPieceMovementValid fuel s piece fromRow fromCol toRow toCol with
          | .error e => .error e
          | .ok false => .ok false
          | .ok true =>
            match wouldMoveResultInCheck fuel s fromRow fromCol toRow toCol with
            | .error e => .error e
            | .ok inCheck => .ok (!inCheck)) idx8) idx8
      else .ok false) idx8) idx8

/-- Source: `isPromotionRank(row, color)`. -/
def isPromotionRank (row : Int) (color : Color) : Bool :=
  (decide (color = .white) && decide (row = 0)) || (decide (color = .black) && decide (row = 7))

/-- Source: `this.capturedPieces[color].push(p)`. -/
def Captured.push (cp : Captured) (color : Color) (p : Piece) : Captured :=
  match color with
  | .white => { cp with white := cp.white ++ [p] }
  | .black => { cp with black := cp.black ++ [p] }

/-- Source: `this.capturedPieces[color].pop()`. -/
def Captured.pop (cp : Captured) (color : Color) : Captured :=
  match color with
  | .white => { cp with white := cp.white.dropLast }
  | .black => { cp with black := cp.black.dropLast }

/-- Source: `this.castlingRights[color].kingside = false`. -/
def CastlingRights.clearKingside (cr : CastlingRights) : Color → CastlingRights
  | .white => { cr with white := { cr.white with kingside := false } }
  | .black => { cr with black := { cr.black with kingside := false } }

/-- Source: `this.castlingRights[color].queenside = false`. -/
def CastlingRights.clearQueenside (cr : CastlingRights) : Color → CastlingRights
  | .white => { cr with white := { cr.white with queenside := false } }
  | .black => { cr with black := { cr.black with queenside := false } }

/-- Source: `updateCastlingRights(piece, fromRow, fromCol, toRow, toCol)`; `b` is
the board at the time of the call, on which the moved piece already stands on
the destination square. -/
def updateCastlingRights (cr : CastlingRights) (b : Board) (piece : Piece)
    (_fromRow fromCol toRow toCol : Int) : CastlingRights :=
  let cr1 :=
    if piece.type = .king then (cr.clearKingside piece.color).clearQueenside piece.color
    else cr
  let cr2 :=
    if piece.type = .rook then
      let a := if fromCol = 0 then cr1.clearQueenside piece.color else cr1
      if fromCol = 7 then a.clearKingside piece.color else a
    else cr1
  match b toRow toCol with
  | some q =>
    if q.type = .rook then
      let a := if toCol = 0 then cr2.clearQueenside q.color else cr2
      if toCol = 7 then a.clearKingside q.color else a
    else cr2
  | none => cr2

/-- Source: `makeMove(fromRow, fromCol, toRow, toCol, promotionPiece)`.
`promotionPiece` is `none` for `null`, `undefined` and the other falsy values.
The result is the returned record and the state after the call; an exception
(a missing piece, row or castling rook) is an error.

Second references that the source mutates after storing them: the object
pushed on a captured list is the moved piece itself when the en-passant victim
square or the destination is the origin square, and it is the castling rook
when the destination is the rook's square; the pushed value is then the final
value of that object. -/
def makeMove (s : Game) (fromRow fromCol toRow toCol : Int) (promotionPiece : Option PieceType) :
    Except Err (MoveRecord × Game) :=
  match getCell s.board fromRow fromCol with
  | .error e => .error e
  | .ok piece? =>
  match getCell s.board toRow toCol with
  | .error e => .error e
  | .ok capturedPiece =>
  match piece? with
  | none => .error .typeError
  | some piece =>
    let promotes : Bool := decide (piece.type = .pawn) && isPromotionRank toRow piece.color
    let finalType : PieceType := if promotes then promotionPiece.getD .queen else piece.type
    let finalPiece : Piece := { type := finalType, color := piece.color, hasMoved := true }
    let record0 : MoveRecord :=
      { fromSq := ⟨fromRow, fromCol⟩, toSq := ⟨toRow, toCol⟩, piece := piece,
        capturedPiece := capturedPiece, enPassantTarget := s.enPassantTarget,
        castlingRights := s.castlingRights, promotion := promotionPiece,
        enPassantCapture := none, castling := none }
    -- Handle en passant capture
    let isEnPassant : Bool := decide (piece.type = .pawn) &&
      decide (s.enPassantTarget.map (·.row) = some toRow) &&
      decide (s.enPassantTarget.map (·.col) = some toCol)
    let capturedPawnRow : Int := if piece.color = .white then toRow + 1 else toRow - 1
    match (if isEnPassant then getCell s.board capturedPawnRow toCol else .ok none) with
    | .error e => .error e
    | .ok capturedPawn =>
    let pushedPawn : Option Piece :=
      if capturedPawnRow = fromRow ∧ toCol = fromCol then capturedPawn.map fun _ => finalPiece
      else capturedPawn
    let captured1 : Captured :=
      match pushedPawn with
      | some q => s.capturedPieces.push q.color q
      | none => s.capturedPieces
    let board1 : Board :=
      if capturedPawn.isSome then setCell s.board capturedPawnRow toCol none else s.board
    let record1 : MoveRecord := { record0 with enPassantCapture := capturedPawn }
    -- Handle castling
    let isCastle : Bool := decide (piece.type = .king) && decide ((toCol - fromCol).natAbs = 2)
    let isKingside : Bool := decide (toCol > fromCol)
    let rookFromCol : Int := if isKingside then 7 else 0
    let rookToCol : Int := if isKingside then 5 else 3
    match (if isCastle then
        match board1 fromRow rookFromCol with
        | none => (.error .typeError : Except Err Board)
        | some rook =>
          .ok (setCell (setCell board1 fromRow rookToCol (some { rook with hasMoved := true }))
            fromRow rookFromCol none)
      else .ok board1) with
    | .error e => .error e
    | .ok board2 =>
    let record2 : MoveRecord :=
      if isCastle then
        { record1 with castling := some ⟨isKingside, rookFromCol, rookToCol⟩ }
      else record1
    let pushedCapture : Option Piece :=
      if fromRow = toRow ∧ fromCol = toCol then capturedPiece.map fun _ => finalPiece
      else if isCastle = true ∧ toRow = fromRow ∧ toCol = rookFromCol then
        capturedPiece.map fun q => { q with hasMoved := true }
      else capturedPiece
    let captured2 : Captured :=
      match pushedCapture with
      | some q => captured1.push q.color q
      | none => captured1
    let board3 : Board :=
      setCell (setCell board2 toRow toCol (some { piece with hasMoved := true }))
        fromRow fromCol none
    -- Set up en passant target
    let enPassantTarget : Option Square :=
      if piece.type = .pawn ∧ (toRow - fromRow).natAbs = 2 then
        some ⟨(fromRow + toRow) / 2, fromCol⟩
      else none
    let rights := updateCastlingRights s.castlingRights board3 piece fromRow fromCol toRow toCol
    -- Handle promotion
    let board4 : Board :=
      if promotes = true ∧ ¬ (fromRow = toRow ∧ fromCol = toCol) then
        setCell board3 toRow toCol (some finalPiece)
      else board3
    let record3 : MoveRecord :=
      if promotes then { record2 with promotion := some finalType } else record2
    .ok (record3,
      { s with
        board := board4
        moveHistory := s.moveHistory ++ [record3]
        capturedPieces := captured2
        enPassantTarget := enPassantTarget
        castlingRights := rights
        currentPlayer := s.currentPlayer.opponent })

/-- Source: `undoMove()`.  The result is the returned flag and the state after
the call.  `lastMove.piece` has its `type` overwritten with `'pawn'` at the end
when `lastMove.promotion` is truthy; the model writes that final value from the
start, every later write to a square replacing it as in the source. -/
def undoMove (s : Game) : Except Err (Bool × Game) :=
  match s.moveHistory.getLast? with
  | none => .ok (false, s)
  | some lastMove =>
    let piece : Piece :=
      if lastMove.promotion.isSome then { lastMove.piece with type := .pawn } else lastMove.piece
    if rowOk lastMove.fromSq.row = false ∨ rowOk lastMove.toSq.row = false then .error .typeError
    else
    -- Restore board state
    let board1 : Board :=
      setCell (setCell s.board lastMove.fromSq.row lastMove.fromSq.col (some piece))
        lastMove.toSq.row lastMove.toSq.col lastMove.capturedPiece
    -- Restore captured pieces
    let captured1 : Captured :=
      match lastMove.capturedPiece with
      | some q => s.capturedPieces.pop q.color
      | none => s.capturedPieces
    -- Handle en passant undo
    let capturedPawnRow : Int :=
      if lastMove.piece.color = .white then lastMove.toSq.row + 1 else lastMove.toSq.row - 1
    match (match lastMove.enPassantCapture with
      | some q =>
        if rowOk capturedPawnRow then
          (.ok (setCell board1 capturedPawnRow lastMove.toSq.col (some q), captured1.pop q.color) :
            Except Err (Board × Captured))
        else .error .typeError
      | none => .ok (board1, captured1)) with
    | .error e => .error e
    | .ok (board2, captured2) =>
    -- Handle castling undo
    match (match lastMove.castling with
      | some c =>
        match board2 lastMove.fromSq.row c.rookTo with
        | none => (.error .typeError : Except Err Board)
        | some rook =>
          .ok (setCell (setCell board2 lastMove.fromSq.row c.rookFrom
            (some { rook with hasMoved := false })) lastMove.fromSq.row c.rookTo none)
      | none => .ok board2) with
    | .error e => .error e
    | .ok board3 =>
    .ok (true,
      { s with
        board := board3
        moveHistory := s.moveHistory.dropLast
        capturedPieces := captured2
        enPassantTarget := lastMove.enPassantTarget
        castlingRights := lastMove.castlingRights
        currentPlayer := s.currentPlayer.opponent
        gameOver := false })

/-- Values returned by `updateGameStatus`. -/
inductive Status where
  | normal
  | check
  | checkmate
  | stalemate
  | draw
  | timeout
  deriving DecidableEq, Repr

/-- Source: `stopTimer()`. -/
def stopTimer (s : Game) : Game := { s with timerActive := false }

/-- Source: `updateGameStatus()`: the returned status and the state after the
call. -/
def updateGameStatus (fuel : Nat) (s : Game) : Except Err (Status × Game) :=
  if s.gameOver = true ∧ s.gameEndReason = some .timeout then .ok (.timeout, s)
  else if s.gameOver = true ∧ s.gameEndReason = some .draw then .ok (.draw, s)
  else
    match isKingInCheck fuel s s.currentPlayer with
    | .error e => .error e
    | .ok true =>
      match hasValidMoves fuel s s.currentPlayer with
      | .error e => .error e
      | .ok false => .ok (.checkmate, stopTimer { s with gameOver := true })
      | .ok true => .ok (.check, s)
    | .ok false =>
      match hasValidMoves fuel s s.currentPlayer with
      | .error e => .error e
      | .ok false => .ok (.stalemate, stopTimer { s with gameOver := true })
      | .ok true => .ok (.normal, s)

/-- One row of `initialSetup` in `initializeBoard`, for the given colour. -/
def backRank (color : Color) : List (Option Piece) :=
  [PieceType.rook, .knight, .bishop, .queen, .king, .bishop, .knight, .rook].map
    fun t => some { type := t, color := color, hasMoved := false }

/-- A row of eight unmoved pawns of the given colour. -/
def pawnRank (color : Color) : List (Option Piece) :=
  List.replicate 8 (some { type := .pawn, color := color, hasMoved := false })

/-- Source: the board built by `initializeBoard()`: rows 0 and 1 are black,
rows 6 and 7 are white. -/
def initializeBoard : Board :=
  boardOfRows [backRank .black, pawnRank .black, [], [], [], [], pawnRank .white, backRank .white]

/-- Source: the state built by `constructor(gameId)`. -/
def newGame : Game :=
  { players := ⟨none, none⟩
    spectators := []
    currentPlayer := .white
    gameOver := false
    board := initializeBoard
    moveHistory := []
    capturedPieces := ⟨[], []⟩
    enPassantTarget := none
    castlingRights := ⟨⟨true, true⟩, ⟨true, true⟩⟩
    timerDuration := 0
    timeLeft := ⟨0, 0⟩
    timerActive := false
    timerPaused := false
    gameStarted := false
    gameEndReason := none
    drawOffer := ⟨false, none, none⟩ }

/-- Source: `startTimer()`, the synchronous part. -/
def startTimer (s : Game) : Game := { s with timerActive := true, timerPaused := false }

/-- Source: `startGame()`. -/
def startGame (s : Game) : Game :=
  if s.players.white.isSome ∧ s.players.black.isSome ∧ s.gameStarted = false then
    startTimer { s with gameStarted := true }
  else s

/-- Value of `this.players[color]`. -/
def Seats.get (p : Seats) : Color → Option Player
  | .white => p.white
  | .black => p.black

/-- Source: `this.players[color] = player`. -/
def Seats.set (p : Seats) (color : Color) (player : Option Player) : Seats :=
  match color with
  | .white => { p with white := player }
  | .black => { p with black := player }

/-- Source: `addPlayer(playerId, playerName, color, timerDuration)` for a
requested `color` that is `null` (`none`), `'white'` or `'black'`.  The result
is the returned colour, `none` standing for `'spectator'`, and the state after
the call. -/
def addPlayer (s : Game) (playerId playerName : String) (color : Option Color)
    (timerDuration : Int) : Option Color × Game :=
  let color : Option Color :=
    match color with
    | some c => some c
    | none =>
      if s.players.white.isNone then some .white
      else if s.players.black.isNone then some .black
      else none
  match (match color with
    | some c => if (s.players.get c).isNone then some c else none
    | none => none) with
  | some c =>
    let s1 : Game := { s with players := s.players.set c (some ⟨playerId, playerName⟩) }
    let s2 : Game :=
      if s1.timerDuration = 0 then
        { s1 with timerDuration := timerDuration, timeLeft := ⟨timerDuration, timerDuration⟩ }
      else s1
    let s3 : Game :=
      if s2.players.white.isSome ∧ s2.players.black.isSome ∧ s2.gameStarted = false then
        startGame s2
      else s2
    (some c, s3)
  | none =>
    if (s.spectators.find? fun p => p.id = playerId).isNone then
      (none, { s with spectators := s.spectators ++ [⟨playerId, playerName⟩] })
    else (none, s)

/-- A move request as received by the `make-move` handlers. -/
structure MoveReq where
  playerId : IdValue
  fromRow : Int
  fromCol : Int
  toRow : Int
  toCol : Int
  promotionPiece : Option PieceType

/-- A sequence of move requests handled one after the other as the `make-move`
handlers do: each request must be accepted by `isValidMove` and is then applied
by `makeMove`.  The result is `none` as soon as a request is rejected. -/
def applyAccepted (fuel : Nat) : Game → List MoveReq → Except Err (Option Game)
  | s, [] => .ok (some s)
  | s, m :: ms =>
    match isValidMove fuel s m.fromRow m.fromCol m.toRow m.toCol m.playerId with
    | .error e => .error e
    | .ok false => .ok none
    | .ok true =>
      match makeMove s m.fromRow m.fromCol m.toRow m.toCol m.promotionPiece with
      | .error e => .error e
      | .ok (_, s') => applyAccepted fuel s' ms

/-- The game after `addPlayer('w', 'White')` and `addPlayer('b', 'Black')` on a
new game, with the default clock of 300 seconds. -/
def startedGame : Game :=
  (addPlayer (addPlayer newGame "w" "White" none 300).2 "b" "Black" none 300).2

/-- Number of squares of the 8x8 board that hold a king of the given colour. -/
def countKings (b : Board) (color : Color) : Nat :=
  ((idx8.map fun r => (idx8.filter fun c =>
    match b r c with
    | some p => decide (p.type = .king) && decide (p.color = color)
    | none => false).length).sum)

/-- White request with no promotion choice. -/
def wMove (fromRow fromCol toRow toCol : Int) : MoveReq :=
  ⟨"w", fromRow, fromCol, toRow, toCol, none⟩

/-- Black request with no promotion choice. -/
def bMove (fromRow fromCol toRow toCol : Int) : MoveReq :=
  ⟨"b", fromRow, fromCol, toRow, toCol, none⟩

/-- The requests 1. h4 g5 2. hxg5 h6 3. gxh6 a6 4. h7 a5 followed by the white
request h7xg8 with `promotionPiece = 'king'`. -/
def promoteToKingMoves : List MoveReq :=
  [wMove 6 7 4 7, bMove 1 6 3 6, wMove 4 7 3 6, bMove 1 7 2 7, wMove 3 6 2 7, bMove 1 0 2 0,
   wMove 2 7 1 7, bMove 2 0 3 0, ⟨"w", 1, 7, 0, 6, some .king⟩]

/-- The requests 1. g4 a5 2. g5 Ra6 3. f3 Rb6 4. Kf2 Rb5 5. Kg3 Na6 6. Kh4 Nb8
7. Kh5 f5: the white king stands on h5, a white pawn on g5, the black pawn that
just advanced two rows on f5 and a black rook on b5, all on row 3. -/
def enPassantPrelude : List MoveReq :=
  [wMove 6 6 4 6, bMove 1 0 3 0, wMove 4 6 3 6, bMove 0 0 2 0, wMove 6 5 5 5, bMove 2 0 2 1,
   wMove 7 4 6 5, bMove 2 1 3 1, wMove 6 5 5 6, bMove 0 1 2 0, wMove 5 6 4 7, bMove 2 0 0 1,
   wMove 4 7 3 7, bMove 1 5 3 5]

/-- The requests 1. e4 d5 2. Nf3 dxe4 3. Bc4 e3 4. a3 e2: a black pawn stands on
e2 next to the unmoved white king on e1, with f1 and g1 empty. -/
def pawnAttackPrelude : List MoveReq :=
  [wMove 6 4 4 4, bMove 1 3 3 3, wMove 7 6 5 5, bMove 3 3 4 4, wMove 7 5 4 2, bMove 4 4 5 4,
   wMove 6 0 5 0, bMove 5 4 6 4]

/-- The requests 1. d4 d5 2. Bf4 e6 3. Qd3 a6: c1 and d1 are empty and the white
knight still stands on b1. -/
def queensidePrelude : List MoveReq :=
  [wMove 6 3 4 3, bMove 1 3 3 3, wMove 7 2 4 5, bMove 1 4 2 4, wMove 7 3 5 3, bMove 1 0 2 0]

/-- The requests 1. e4 e5 2. Nf3 Nc6 3. Bc4 Bc5: f1 and g1 are empty. -/
def kingsidePrelude : List MoveReq :=
  [wMove 6 4 4 4, bMove 1 4 3 4, wMove 7 6 5 5, bMove 0 1 2 2, wMove 7 5 4 2, bMove 0 5 3 2]

/-- The state reached from `startedGame` by a list of accepted requests
(`startedGame` itself if one of them is rejected). -/
def reached (fuel : Nat) (moves : List MoveReq) : Game :=
  match applyAccepted fuel startedGame moves with
  | .ok (some s) => s
  | _ => startedGame

/-- The state after `makeMove` (the state itself if the call throws). -/
def afterMakeMove (s : Game) (fromRow fromCol toRow toCol : Int)
    (promotionPiece : Option PieceType) : Game :=
  match makeMove s fromRow fromCol toRow toCol promotionPiece with
  | .ok (_, s') => s'
  | .error _ => s

/-- The state after `undoMove` (the state itself if the call throws). -/
def afterUndoMove (s : Game) : Game :=
  match undoMove s with
  | .ok (_, s') => s'
  | .error _ => s

/-- A piece that has already moved. -/
def moved (t : PieceType) (color : Color) : Option Piece :=
  some { type := t, color := color, hasMoved := true }

/-- Black to move with a lone king on g8, the white rook on a8 and the white
king on g6. -/
def rookMateGame : Game :=
  { startedGame with
    board := boardOfRows
      [[moved .rook .white, none, none, none, none, none, moved .king .black, none],
       [],
       [none, none, none, none, none, none, moved .king .white, none]]
    currentPlayer := .black
    castlingRights := ⟨⟨false, false⟩, ⟨false, false⟩⟩ }

/-- Black to move with a lone king on h8, the white king on f7 and the white
queen on g6. -/
def stalemateGame : Game :=
  { startedGame with
    board := boardOfRows
      [[none, none, none, none, none, none, none, moved .king .black],
       [none, none, none, none, none, moved .king .white, none, none],
       [none, none, none, none, none, none, moved .queen .white, none]]
    currentPlayer := .black
    castlingRights := ⟨⟨false, false⟩, ⟨false, false⟩⟩ }

/-- Whether the square holds a king of the given colour. -/
def isKingOf (b : Board) (color : Color) (r c : Int) : Bool :=
  match b r c with
  | some p => decide (p.type = .king) && decide (p.color = color)
  | none => false

/-- Pointwise order on move tests: every value returned by `o1` is returned by
`o2`. -/
def MoveTest.le (o1 o2 : MoveTest) : Prop :=
  ∀ p a b c d v, o1 p a b c d = .ok v → o2 p a b c d = .ok v

/-- Source: `pauseTimer()`. -/
def pauseTimer (s : Game) : Game := { s with timerPaused := true }

/-- Source: `resumeTimer()`. -/
def resumeTimer (s : Game) : Game :=
  if s.players.white.isSome ∧ s.players.black.isSome then { s with timerPaused := false } else s

/-- Source: `this.timeLeft[color]`. -/
def TimeLeft.get (t : TimeLeft) : Color → Int
  | .white => t.white
  | .black => t.black

/-- Source: `this.timeLeft[color] = v`. -/
def TimeLeft.set (t : TimeLeft) (color : Color) (v : Int) : TimeLeft :=
  match color with
  | .white => { t with white := v }
  | .black => { t with black := v }

/-- Source: `handleTimeout()`: the winner announced in the `game-timeout` event
and the state after the call. -/
def handleTimeout (s : Game) : Color × Game :=
  (s.currentPlayer.opponent,
    stopTimer { s with gameOver := true, gameEndReason := some .timeout })

/-- Two to the power 53: every integer up to this magnitude is a Number. -/
def maxExactInt : Nat := 9007199254740992

/-- The exponent of the spacing of the Numbers at magnitude `m`: the least `e`
with `m / 2 ^ e < 2 ^ 53`.  The first argument bounds the search. -/
def spacingExp : Nat → Nat → Nat
  | 0, _ => 0
  | fuel + 1, m => if m < maxExactInt then 0 else spacingExp fuel (m / 2) + 1

/-- The Number that stands for an integer `y` of magnitude below `2 ^ 1024`:
the nearest multiple of the spacing at that magnitude, the one with the even
quotient when two are equally near (IEEE 754 binary64, round to nearest, ties
to even). -/
def toNumber (y : Int) : Int :=
  let m := y.natAbs
  let q := 2 ^ spacingExp 1024 m
  let k := m / q
  let r := m % q
  let k1 := if 2 * r < q then k else if q < 2 * r then k + 1 else if k % 2 = 0 then k else k + 1
  y.sign * ((k1 * q : Nat) : Int)

/-- Source: `this.timeLeft[this.currentPlayer]--`, the value stored by the
decrement of a Number that holds the integer `x`. -/
def decrement (x : Int) : Int := toNumber (x - 1)

/-- Source: the body of the interval callback installed by `startTimer()`, one
clock tick.  The result is the winner announced by `handleTimeout` if the tick
ends the game, and the state after the tick.  The clocks are Numbers that hold
integers. -/
def tick (s : Game) : Option Color × Game :=
  if s.timerActive = false ∨ s.timerPaused = true ∨ s.gameOver = true then (none, s)
  else
    let s1 : Game :=
      { s with
        timeLeft := s.timeLeft.set s.currentPlayer (decrement (s.timeLeft.get s.currentPlayer)) }
    if s1.timeLeft.get s1.currentPlayer ≤ 0 then
      let s2 : Game := { s1 with timeLeft := s1.timeLeft.set s1.currentPlayer 0 }
      let r := handleTimeout s2
      (some r.1, r.2)
    else (none, s1)

/-- The state after `n` clock ticks. -/
def ticks : Nat → Game → Game
  | 0, s => s
  | n + 1, s => ticks n (tick s).2

/-- Source: `clearDrawOffer()`. -/
def clearDrawOffer (s : Game) : Game := { s with drawOffer := ⟨false, none, none⟩ }

/-- Source: `cancelDrawOffer(playerId)`: the returned flag and the state.  The
one caller is `removePlayer`. -/
def cancelDrawOffer (s : Game) (playerId : String) : Bool × Game :=
  if s.drawOffer.active = true ∧
      (s.drawOffer.offeredBy = some (.str playerId) ∨
        s.drawOffer.offeredTo = some playerId) then
    (true, clearDrawOffer s)
  else (false, s)

/-- Source: `removePlayer(playerId)`: the returned `removedColor` and
`drawCancelled`, and the state after the call, for a `playerId` that is a
string.  The one caller, the `disconnect` handler, calls it only with a
`socket.playerId` that is truthy, so the argument is never `undefined`. -/
def removePlayer (s : Game) (playerId : String) : (Option Color × Bool) × Game :=
  let r : Option Color × Game :=
    if s.players.white.map (·.id) = some playerId then
      (some .white, { s with players := { s.players with white := none } })
    else if s.players.black.map (·.id) = some playerId then
      (some .black, { s with players := { s.players with black := none } })
    else (none, { s with spectators := s.spectators.filter fun p => p.id ≠ playerId })
  let c := cancelDrawOffer r.2 playerId
  let s2 : Game :=
    if r.1.isSome ∧ c.2.timerActive = true ∧ c.2.gameOver = false then pauseTimer c.2 else c.2
  ((r.1, c.1), s2)

/-- Source: `handleDrawOffer(playerId)`: the `success` field of the result and
the state after the call. -/
def handleDrawOffer (s : Game) (playerId : IdValue) : Bool × Game :=
  match getPlayerColor s playerId with
  | none => (false, s)
  | some playerColor =>
    if s.gameOver = true then (false, s)
    else if s.drawOffer.active = true then (false, s)
    else
      match s.players.get playerColor.opponent with
      | none => (false, s)
      | some opponent =>
        (true, { s with drawOffer := ⟨true, some playerId, some opponent.id⟩ })

/-- Source: `handleDrawResponse(playerId, accepted)`: the `success` field of the
result and the state after the call, for a `playerId` that is a string.  The
one test of `playerId` is `this.drawOffer.offeredTo !== playerId`, and an
active offer made by `handleDrawOffer` has the string id of a seat as
`offeredTo`. -/
def handleDrawResponse (s : Game) (playerId : String) (accepted : Bool) : Bool × Game :=
  if s.drawOffer.active = false ∨ s.drawOffer.offeredTo ≠ some playerId then (false, s)
  else
    let s1 : Game :=
      if accepted then stopTimer { s with gameOver := true, gameEndReason := some .draw } else s
    (true, clearDrawOffer s1)

/-- Source: `resetGame()`: the state after the call (the call returns `true`). -/
def resetGame (s : Game) : Game :=
  let s1 : Game :=
    { s with
      currentPlayer := .white
      gameOver := false
      moveHistory := []
      capturedPieces := ⟨[], []⟩
      enPassantTarget := none
      castlingRights := ⟨⟨true, true⟩, ⟨true, true⟩⟩
      gameEndReason := none }
  let s2 := clearDrawOffer s1
  let s3 : Game := stopTimer { s2 with timeLeft := ⟨s2.timerDuration, s2.timerDuration⟩ }
  let s4 : Game := { s3 with board := initializeBoard }
  if s4.players.white.isSome ∧ s4.players.black.isSome then startGame s4 else s4

/-- Source: `wouldMoveResultInCheck`, with the state it leaves: the board after
the two restoring assignments. -/
def wouldMoveResultInCheckRun (fuel : Nat) (s : Game) (fromRow fromCol toRow toCol : Int) :
    Except Err (Bool × Game) :=
  match getCell s.board fromRow fromCol with
  | .error e => .error e
  | .ok piece? =>
    match getCell s.board toRow toCol with
    | .error e => .error e
    | .ok _ =>
      match piece? with
      | none => .error .typeError
      | some piece =>
        let sim := simulateMove s.board fromRow fromCol toRow toCol
        match isKingInCheck fuel { s with board := sim } piece.color with
        | .error e => .error e
        | .ok inCheck =>
          .ok (inCheck, { s with board := restoreMove s.board sim fromRow fromCol toRow toCol })

/-- Source: `isValidMove`, with the state it leaves. -/
def isValidMoveRun (fuel : Nat) (s : Game) (fromRow fromCol toRow toCol : Int)
    (playerId : IdValue) : Except Err (Bool × Game) :=
  let playerColor := getPlayerColor s playerId
  if playerColor ≠ some s.currentPlayer ∨ s.gameOver = true then .ok (false, s)
  else
    match getCell s.board fromRow fromCol with
    | .error e => .error e
    | .ok none => .ok (false, s)
    | .ok (some piece) =>
      if some piece.color ≠ playerColor then .ok (false, s)
      else
        match getCell s.board toRow toCol with
        | .error e => .error e
        | .ok targetPiece =>
          if targetPiece.map (·.color) = some piece.color then .ok (false, s)
          else
            match isPieceMovementValid fuel s piece fromRow fromCol toRow toCol with
            | .error e => .error e
            | .ok false => .ok (false, s)
            | .ok true =>
              match wouldMoveResultInCheckRun fuel s fromRow fromCol toRow toCol with
              | .error e => .error e
              | .ok (inCheck, s') => .ok (!inCheck, s')

/-- The game after `addPlayer('w', 'White')` only: the black seat is empty. -/
def setupGame : Game := (addPlayer newGame "w" "White" none 300).2

/-- The requests 1. b3 g5 2. Bb2 a6: the white bishop on b2 attacks the black
rook on h8 along the long diagonal. -/
def rookCapturePrelude : List MoveReq :=
  [wMove 6 1 5 1, bMove 1 6 3 6, wMove 7 2 6 1, bMove 1 0 2 0]

/-- The requests 1. h4 h5 2. Rh3 a6: the white rook that started on h1 stands on
h3, the white king and the rook on a1 have not moved. -/
def rookSwingPrelude : List MoveReq :=
  [wMove 6 7 4 7, bMove 1 7 3 7, wMove 7 7 5 7, bMove 1 0 2 0]

/-- Spec wording of the pawn rule (section 4.1): one step forward onto an empty
square; two steps forward from the home rank with the intermediate and the
destination square empty; or one step forward into an adjacent column onto an
enemy piece or onto the en-passant target.  Forward is decreasing row for
white and increasing row for black. -/
def pawnMoveSpec (s : Game) (piece : Piece) (fromRow fromCol toRow toCol : Int) : Prop :=
  let forward : Int := if piece.color = .white then -1 else 1
  let home : Int := if piece.color = .white then 6 else 1
  (toCol = fromCol ∧ toRow = fromRow + forward ∧ s.board toRow toCol = none) ∨
  (toCol = fromCol ∧ fromRow = home ∧ toRow = fromRow + 2 * forward ∧
    s.board (fromRow + forward) fromCol = none ∧ s.board toRow toCol = none) ∨
  ((toCol - fromCol).natAbs = 1 ∧ toRow = fromRow + forward ∧
    ((∃ q, s.board toRow toCol = some q ∧ q.color ≠ piece.color) ∨
      s.enPassantTarget = some ⟨toRow, toCol⟩))

/-- The squares strictly between two squares of a common row, column or
diagonal, from the first towards the second. -/
def squaresBetween (fromRow fromCol toRow toCol : Int) : List (Int × Int) :=
  (List.range (max (toRow - fromRow).natAbs (toCol - fromCol).natAbs - 1)).map fun (j : Nat) =>
    (fromRow + ((j : Int) + 1) * dirOf toRow fromRow, fromCol + ((j : Int) + 1) * dirOf toCol fromCol)

/-- Spec wording of the geometry of a sliding piece: along a row or column for a
rook, along a diagonal for a bishop, either for a queen. -/
def sliderGeometry (t : PieceType) (fromRow fromCol toRow toCol : Int) : Prop :=
  match t with
  | .rook => toRow = fromRow ∨ toCol = fromCol
  | .bishop => (toRow - fromRow).natAbs = (toCol - fromCol).natAbs
  | .queen => toRow = fromRow ∨ toCol = fromCol ∨
      (toRow - fromRow).natAbs = (toCol - fromCol).natAbs
  | _ => False

/-- The requests 1. h4 g5 2. hxg5 h6 3. gxh6 a6 4. h7 a5: the white pawn on h7
attacks the black knight on g8. -/
def promotionPrelude : List MoveReq :=
  [wMove 6 7 4 7, bMove 1 6 3 6, wMove 4 7 3 6, bMove 1 7 2 7, wMove 3 6 2 7, bMove 1 0 2 0,
   wMove 2 7 1 7, bMove 2 0 3 0]

/-! ### Client rules engine (`src/script.js`)

The client keeps `board`, `castlingRights` and `enPassantTarget` in global
variables that mirror the fields of the same names of the server state; the
client functions below read them from a `Game`. -/

/-- Client: read `board[r]?.[c]`. -/
def clientCell (b : Board) (r c : Int) : Option Piece := if rowOk r then b r c else none

/-- Client: the `while` loop of `isPathClear`; `n` bounds the number of
iterations (the loop does not end when the target is not on the line). -/
def clientIsPathClearLoop (b : Board) (toRow toCol rowDir colDir : Int) :
    Nat → Int → Int → Except Err Bool
  | 0, row, col =>
    if row ≠ toRow ∨ col ≠ toCol then .error .diverge else .ok true
  | n + 1, row, col =>
    if row ≠ toRow ∨ col ≠ toCol then
      if (clientCell b row col).isSome then .ok false
      else clientIsPathClearLoop b toRow toCol rowDir colDir n (row + rowDir) (col + colDir)
    else .ok true

/-- Client: `isPathClear(fromRow, fromCol, toRow, toCol)`. -/
def clientIsPathClear (b : Board) (fromRow fromCol toRow toCol : Int) : Except Err Bool :=
  let rowDir := dirOf toRow fromRow
  let colDir := dirOf toCol fromCol
  clientIsPathClearLoop b toRow toCol rowDir colDir
    ((toRow - fromRow).natAbs + (toCol - fromCol).natAbs + 9)
    (fromRow + rowDir) (fromCol + colDir)

/-- Client: `isPawnMoveValid(piece, fromRow, fromCol, toRow, toCol)`. -/
def clientIsPawnMoveValid (s : Game) (piece : Piece) (fromRow fromCol toRow toCol : Int) : Bool :=
  let direction : Int := if piece.color = .white then -1 else 1
  let startRow : Int := if piece.color = .white then 6 else 1
  let rowDiff := toRow - fromRow
  let colDiff := (toCol - fromCol).natAbs
  if colDiff = 0 then
    if (clientCell s.board toRow toCol).isSome then false
    else if rowDiff = direction then true
    else if fromRow = startRow ∧ rowDiff = 2 * direction then
      (clientCell s.board (fromRow + direction) fromCol).isNone
    else false
  else if colDiff = 1 ∧ rowDiff = direction then
    match clientCell s.board toRow toCol with
    | some target =>
      if target.color ≠ piece.color then true
      else decide (s.enPassantTarget = some ⟨toRow, toCol⟩)
    | none => decide (s.enPassantTarget = some ⟨toRow, toCol⟩)
  else false

/-- Client: the `for` loop of `isCastlingValid`. -/
def clientCastlingLoop (b : Board) (fromRow toCol step : Int) : Nat → Int → Except Err Bool
  | 0, col => if col ≠ toCol + step then .error .diverge else .ok true
  | n + 1, col =>
    if col ≠ toCol + step then
      if (clientCell b fromRow col).isSome then .ok false
      else clientCastlingLoop b fromRow toCol step n (col + step)
    else .ok true

/-- Client: `isCastlingValid(piece, fromRow, fromCol, toRow, toCol)`. -/
def clientIsCastlingValid (s : Game) (piece : Piece) (fromRow fromCol _toRow toCol : Int) :
    Except Err Bool :=
  let isKingside : Bool := decide (toCol > fromCol)
  let rookCol : Int := if isKingside then 7 else 0
  match clientCell s.board fromRow rookCol with
  | none => .ok false
  | some rook =>
    if rook.type ≠ .rook ∨ rook.hasMoved = true then .ok false
    else if isKingside = true ∧ (s.castlingRights.get piece.color).kingside = false then .ok false
    else if isKingside = false ∧ (s.castlingRights.get piece.color).queenside = false then
      .ok false
    else
      let step : Int := if isKingside then 1 else -1
      clientCastlingLoop s.board fromRow toCol step (toCol - fromCol).natAbs (fromCol + step)

/-- Client: `isKingMoveValid(piece, fromRow, fromCol, toRow, toCol)`. -/
def clientIsKingMoveValid (s : Game) (piece : Piece) (fromRow fromCol toRow toCol : Int) :
    Except Err Bool :=
  let rowDiff := (toRow - fromRow).natAbs
  let colDiff := (toCol - fromCol).natAbs
  if rowDiff ≤ 1 ∧ colDiff ≤ 1 then .ok true
  else if rowDiff = 0 ∧ colDiff = 2 ∧ piece.hasMoved = false then
    clientIsCastlingValid s piece fromRow fromCol toRow toCol
  else .ok false

/-- Client: `isPieceMovementValid(piece, fromRow, fromCol, toRow, toCol)`. -/
def clientIsPieceMovementValid (s : Game) (piece : Piece) (fromRow fromCol toRow toCol : Int) :
    Except Err Bool :=
  let rowDiff := (toRow - fromRow).natAbs
  let colDiff := (toCol - fromCol).natAbs
  match piece.type with
  | .pawn => .ok (clientIsPawnMoveValid s piece fromRow fromCol toRow toCol)
  | .rook =>
    if rowDiff = 0 ∨ colDiff = 0 then clientIsPathClear s.board fromRow fromCol toRow toCol
    else .ok false
  | .bishop =>
    if rowDiff = colDiff then clientIsPathClear s.board fromRow fromCol toRow toCol
    else .ok false
  | .queen =>
    if rowDiff = 0 ∨ colDiff = 0 ∨ rowDiff = colDiff then
      clientIsPathClear s.board fromRow fromCol toRow toCol
    else .ok false
  | .king => clientIsKingMoveValid s piece fromRow fromCol toRow toCol
  | .knight => .ok (decide ((rowDiff = 2 ∧ colDiff = 1) ∨ (rowDiff = 1 ∧ colDiff = 2)))
  | .other _ => .ok false

/-- Client: `isValidMove(fromRow, fromCol, toRow, toCol, true)`, the call with
`ignoreCheck` set that check detection makes. -/
def clientIsValidMoveIgnoreCheck (s : Game) (fromRow fromCol toRow toCol : Int) :
    Except Err Bool :=
  if fromRow < 0 ∨ fromRow > 7 ∨ fromCol < 0 ∨ fromCol > 7 then .ok false
  else if toRow < 0 ∨ toRow > 7 ∨ toCol < 0 ∨ toCol > 7 then .ok false
  else
    match clientCell s.board fromRow fromCol with
    | none => .ok false
    | some piece =>
      if fromRow = toRow ∧ fromCol = toCol then .ok false
      else if (clientCell s.board toRow toCol).map (·.color) = some piece.color then .ok false
      else clientIsPieceMovementValid s piece fromRow fromCol toRow toCol

/-- Client: `isInCheck(color)`. -/
def clientIsInCheck (s : Game) (color : Color) : Except Err Bool :=
  match findKing s.board color with
  | none => .ok false
  | some kingPos =>
    anyE (fun row => anyE (fun col =>
      if (clientCell s.board row col).map (·.color) ≠ some color then
        clientIsValidMoveIgnoreCheck s row col kingPos.row kingPos.col
      else .ok false) idx8) idx8

/-- Client: `isValidMove(fromRow, fromCol, toRow, toCol, ignoreCheck)`.  The
board is restored before the return. -/
def clientIsValidMove (s : Game) (fromRow fromCol toRow toCol : Int) (ignoreCheck : Bool) :
    Except Err Bool :=
  match clientIsValidMoveIgnoreCheck s fromRow fromCol toRow toCol with
  | .error e => .error e
  | .ok false => .ok false
  | .ok true =>
    if ignoreCheck then .ok true
    else
      match s.board fromRow fromCol with
      | none => .ok false
      | some piece =>
        match clientIsInCheck { s with board := simulateMove s.board fromRow fromCol toRow toCol }
            piece.color with
        | .error e => .error e
        | .ok wouldBeInCheck => .ok (!wouldBeInCheck)

/-- Client: `kingCanMove(kingPos, color)`. -/
def clientKingCanMove (s : Game) (kingPos : Square) (color : Color) : Except Err Bool :=
  anyE (fun (d : Int × Int) =>
    let newRow := kingPos.row + d.1
    let newCol := kingPos.col + d.2
    if newRow ≥ 0 ∧ newRow < 8 ∧ newCol ≥ 0 ∧ newCol < 8 then
      if (s.board newRow newCol).map (·.color) ≠ some color then
        match clientIsInCheck
            { s with board := simulateMove s.board kingPos.row kingPos.col newRow newCol }
            color with
        | .error e => .error e
        | .ok stillInCheck => .ok (!stillInCheck)
      else .ok false
    else .ok false)
    [(-1, -1), (-1, 0), (-1, 1), (0, -1), (0, 1), (1, -1), (1, 0), (1, 1)]

/-- Client: an entry of the list built by `findCheckingPieces`. -/
structure CheckingPiece where
  row : Int
  col : Int
  type : PieceType
  color : Color

/-- The row-major list of the 64 squares, the order of the client's scans. -/
def squares64 : List (Int × Int) := idx8.flatMap fun r => idx8.map fun c => (r, c)

/-- Client: `findCheckingPieces(color, kingPos)`. -/
def clientFindCheckingPieces (s : Game) (color : Color) (kingPos : Square) :
    Except Err (List CheckingPiece) :=
  squares64.foldr (fun sq rest =>
    match s.board sq.1 sq.2 with
    | none => rest
    | some piece =>
      if piece.color ≠ color then
        match clientIsValidMoveIgnoreCheck s sq.1 sq.2 kingPos.row kingPos.col with
        | .error e => .error e
        | .ok true => rest.map fun l => ⟨sq.1, sq.2, piece.type, piece.color⟩ :: l
        | .ok false => rest
      else rest) (.ok [])

/-- Client: the scan of `canPieceBeCaptured(checkingPiece, color)` over the
squares `sqs`, with the board it leaves.  The restoring assignment writes the
descriptor `checkingPiece` (which has no `hasMoved` field) on the checking
piece's square, so that square holds a piece with a falsy `hasMoved`
afterwards. -/
def clientCanPieceBeCapturedLoop (color : Color) (cp : CheckingPiece) :
    List (Int × Int) → Game → Except Err (Bool × Game)
  | [], s => .ok (false, s)
  | sq :: sqs, s =>
    match s.board sq.1 sq.2 with
    | none => clientCanPieceBeCapturedLoop color cp sqs s
    | some piece =>
      if piece.color = color ∧ piece.type ≠ .king then
        match clientIsValidMoveIgnoreCheck s sq.1 sq.2 cp.row cp.col with
        | .error e => .error e
        | .ok false => clientCanPieceBeCapturedLoop color cp sqs s
        | .ok true =>
          let sim := setCell (setCell s.board cp.row cp.col (some piece)) sq.1 sq.2 none
          match clientIsInCheck { s with board := sim } color with
          | .error e => .error e
          | .ok stillInCheck =>
            let restored : Game :=
              { s with board := setCell (setCell sim cp.row cp.col
                  (some ⟨cp.type, cp.color, false⟩)) sq.1 sq.2 (some piece) }
            if stillInCheck then clientCanPieceBeCapturedLoop color cp sqs restored
            else .ok (true, restored)
      else clientCanPieceBeCapturedLoop color cp sqs s

/-- Client: `canPieceBeCaptured(checkingPiece, color)` with the state it
leaves. -/
def clientCanPieceBeCaptured (s : Game) (cp : CheckingPiece) (color : Color) :
    Except Err (Bool × Game) :=
  clientCanPieceBeCapturedLoop color cp squares64 s

/-- Client: `getPathBetweenPieces(kingPos, piecePos)`. -/
def clientGetPathBetweenPieces (kingPos : Square) (cp : CheckingPiece) : List Square :=
  let rowDiff := cp.row - kingPos.row
  let colDiff := cp.col - kingPos.col
  if rowDiff ≠ 0 ∧ colDiff ≠ 0 ∧ rowDiff.natAbs ≠ colDiff.natAbs then []
  else
    (List.range (max rowDiff.natAbs colDiff.natAbs - 1)).map fun (j : Nat) =>
      ⟨kingPos.row + ((j : Int) + 1) * dirOf cp.row kingPos.row,
        kingPos.col + ((j : Int) + 1) * dirOf cp.col kingPos.col⟩

/-- Client: `canPieceBeBlocked(blockSquare, color)`. -/
def clientCanPieceBeBlocked (s : Game) (blockSquare : Square) (color : Color) :
    Except Err Bool :=
  anyE (fun (sq : Int × Int) =>
    match s.board sq.1 sq.2 with
    | none => .ok false
    | some piece =>
      if piece.color = color ∧ piece.type ≠ .king then
        match clientIsValidMoveIgnoreCheck s sq.1 sq.2 blockSquare.row blockSquare.col with
        | .error e => .error e
        | .ok false => .ok false
        | .ok true =>
          match clientIsInCheck
              { s with board := setCell (setCell s.board blockSquare.row blockSquare.col
                  (some piece)) sq.1 sq.2 none } color with
          | .error e => .error e
          | .ok stillInCheck => .ok (!stillInCheck)
      else .ok false) squares64

/-- Client: `canBlockOrCaptureCheck(color)`. -/
def clientCanBlockOrCaptureCheck (s : Game) (color : Color) : Except Err Bool :=
  match findKing s.board color with
  | none => .error .typeError
  | some kingPos =>
    match clientFindCheckingPieces s color kingPos with
    | .error e => .error e
    | .ok [] => .error .typeError
    | .ok [checkingPiece] =>
      match clientCanPieceBeCaptured s checkingPiece color with
      | .error e => .error e
      | .ok (true, _) => .ok true
      | .ok (false, s1) =>
        if checkingPiece.type ≠ .knight ∧ checkingPiece.type ≠ .pawn then
          anyE (fun square => clientCanPieceBeBlocked s1 square color)
            (clientGetPathBetweenPieces kingPos checkingPiece)
        else .ok false
    | .ok (_ :: _ :: _) => .ok false

/-- Client: `isCheckmate(color)`. -/
def clientIsCheckmate (s : Game) (color : Color) : Except Err Bool :=
  match clientIsInCheck s color with
  | .error e => .error e
  | .ok false => .ok false
  | .ok true =>
    match (match findKing s.board color with
      | some kingPos => clientKingCanMove s kingPos color
      | none => .ok false) with
    | .error e => .error e
    | .ok true => .ok false
    | .ok false =>
      match clientCanBlockOrCaptureCheck s color with
      | .error e => .error e
      | .ok true => .ok false
      | .ok false => .ok true

/-- The requests 1. e4 e6 2. Nf3 a6 3. Bc4 a5 4. d3 Bb4+: the white king on e1
is in check from the bishop on b4, with f1 and g1 empty. -/
def checkPrelude : List MoveReq :=
  [wMove 6 4 4 4, bMove 1 4 2 4, wMove 7 6 5 5, bMove 1 0 2 0, wMove 7 5 4 2, bMove 2 0 3 0,
   wMove 6 3 5 3, bMove 0 5 4 1]

/-- A piece that has not moved. -/
def unmoved (t : PieceType) (color : Color) : Option Piece :=
  some { type := t, color := color, hasMoved := false }

/-- White to move: king e1 and rooks a1, h1 unmoved, b1, c1, d1 empty, white
bishop f1, pawns a2, d2, f2, h2, white knight e2; the black knight on f3 gives
check, the black bishop on a4 covers d1, the black king stands on e8. -/
def knightCheckGame : Game :=
  { startedGame with
    board := boardOfRows
      [[none, none, none, none, moved .king .black, none, none, none],
       [], [], [],
       [moved .bishop .black, none, none, none, none, none, none, none],
       [none, none, none, none, none, moved .knight .black, none, none],
       [unmoved .pawn .white, none, none, unmoved .pawn .white, moved .knight .white,
        unmoved .pawn .white, none, unmoved .pawn .white],
       [unmoved .rook .white, none, none, none, unmoved .king .white, unmoved .bishop .white,
        none, unmoved .rook .white]]
    currentPlayer := .white
    castlingRights := ⟨⟨true, true⟩, ⟨false, false⟩⟩ }

/-- Whether a cell holds a piece of the given colour. -/
def hasColor (o : Option Piece) (color : Color) : Bool :=
  match o with
  | some p => decide (p.color = color)
  | none => false

/-- Number of squares of the 8x8 board that hold a piece of the given colour. -/
def countPieces (b : Board) (color : Color) : Nat :=
  squares64.countP fun sq => hasColor (b sq.1 sq.2) color

/-- White to move with a white pawn on e5 and a white knight beside it on f5,
and `enPassantTarget` on f6 (no black pawn has just advanced). -/
def ownPieceBesideGame : Game :=
  { startedGame with
    board := boardOfRows
      [[none, none, none, none, moved .king .black, none, none, none],
       [], [],
       [none, none, none, none, moved .pawn .white, moved .knight .white, none, none],
       [], [], [],
       [none, none, none, none, moved .king .white, none, none, none]]
    currentPlayer := .white
    enPassantTarget := some ⟨2, 5⟩
    castlingRights := ⟨⟨false, false⟩, ⟨false, false⟩⟩ }


/-- White to move with an unmoved white king on f1 (not on its home square e1),
an unmoved white rook on a1 and the queenside castling right still set. -/
def kingOffHomeGame : Game :=
  { startedGame with
    board := boardOfRows
      [[none, none, none, none, moved .king .black, none, none, none],
       [], [], [], [], [], [],
       [unmoved .rook .white, none, none, none, none, unmoved .king .white, none, none]]
    currentPlayer := .white
    enPassantTarget := none
    castlingRights := ⟨⟨false, true⟩, ⟨false, false⟩⟩ }

/-- The game created with `timerDuration = 1` (`POST /api/games`) and joined by
a second player. -/
def shortClockGame : Game :=
  (addPlayer (addPlayer newGame "w" "White" none 1).2 "b" "Black" none 300).2

/-- The game after `addPlayer('w', 'White', null, 1e16)` and
`addPlayer('b', 'Black')` on a new game: both clocks hold ten to the power 16
seconds. -/
def longClockGame : Game :=
  (addPlayer (addPlayer newGame "w" "White" none 10000000000000000).2 "b" "Black" none 300).2

/-- A game that is not over, with `gameEndReason` still `'timeout'`, white to
move, and no white piece on the board. -/
def staleReasonGame : Game :=
  { startedGame with
    board := boardOfRows
      [[none, none, none, none, moved .king .black, none, none, none],
       [], [], [], [], [], [], []]
    currentPlayer := .white
    gameOver := false
    gameEndReason := some .timeout }

/-- An unmoved white king on e1 and an unmoved black king on g1, unmoved white
rooks on a1 and h1, white's kingside right and black's queenside right set. -/
def facingKingsGame : Game :=
  { startedGame with
    board := boardOfRows
      [[], [], [], [], [], [], [],
       [unmoved .rook .white, none, none, none, unmoved .king .white, none,
        unmoved .king .black, unmoved .rook .white]]
    currentPlayer := .white
    castlingRights := ⟨⟨true, false⟩, ⟨false, true⟩⟩ }

/-- The position of `facingKingsGame` with the unmoved white king on e2 instead
of e1: no row holds two unmoved kings, the rows of the two kings are next to
each other. -/
def adjacentKingsGame : Game :=
  { startedGame with
    board := boardOfRows
      [[], [], [], [], [], [],
       [none, none, none, none, unmoved .king .white, none, none, none],
       [unmoved .rook .white, none, none, none, none, none,
        unmoved .king .black, unmoved .rook .white]]
    currentPlayer := .white
    castlingRights := ⟨⟨true, false⟩, ⟨false, true⟩⟩ }

/-- The state of `adjacentKingsGame` during the simulation of the king step
e2-e1 by `wouldMoveResultInCheck`. -/
def adjacentKingsStepped : Game :=
  { adjacentKingsGame with board := simulateMove adjacentKingsGame.board 6 4 7 4 }

/-- Value of `this.capturedPieces[color]`. -/
def Captured.get (cp : Captured) : Color → List Piece
  | .white => cp.white
  | .black => cp.black

/-! ### Move notation of the client (`src/move.js`) -/

/-- The string that is the `type` of a piece. -/
def PieceType.name : PieceType → String
  | .pawn => "pawn"
  | .knight => "knight"
  | .bishop => "bishop"
  | .rook => "rook"
  | .queen => "queen"
  | .king => "king"
  | .other tag => tag

/-- The members that an object literal inherits from `Object.prototype`: a
lookup by one of these names does not give `undefined` but the inherited
member, a function or (for `__proto__`) the prototype object, which is truthy.
`formatMoveNotation` uses the value of a lookup only for its truth value, as a
property name and in a concatenation, and the last two see its conversion to a
string, so the member is given by that text, as V8 prints it.  `none` when
`Object.prototype` has no member of the name. -/
def inheritedMember (key : String) : Option String :=
  if key = "constructor" then some "function Object() \x7b [native code] \x7d"
  else if key = "__proto__" then some "[object Object]"
  else if key ∈ ["hasOwnProperty", "isPrototypeOf", "propertyIsEnumerable", "toLocaleString",
      "toString", "valueOf", "__defineGetter__", "__defineSetter__", "__lookupGetter__",
      "__lookupSetter__"] then
    some ("function " ++ key ++ "() \x7b [native code] \x7d")
  else none

/-- Source: the table `PIECE_NOTATION`, as the lookup `PIECE_NOTATION[key]`;
`none` is `undefined`. -/
def PIECE_NOTATION (key : String) : Option String :=
  if key = "king" then some "K"
  else if key = "queen" then some "Q"
  else if key = "rook" then some "R"
  else if key = "bishop" then some "B"
  else if key = "knight" then some "N"
  else if key = "pawn" then some ""
  else inheritedMember key

/-- Source: the table `PIECE_SYMBOLS`, as the lookup `PIECE_SYMBOLS[key]`;
`none` is `undefined`. -/
def PIECE_SYMBOLS (key : String) : Option String :=
  if key = "K" then some "♔"
  else if key = "Q" then some "♕"
  else if key = "R" then some "♖"
  else if key = "B" then some "♗"
  else if key = "N" then some "♘"
  else if key = "P" then some "♙"
  else inheritedMember key

/-- Source: the table `COLUMN_LETTERS`. -/
def COLUMN_LETTERS : List String := ["a", "b", "c", "d", "e", "f", "g", "h"]

/-- Value of `COLUMN_LETTERS[col]`; `none` is `undefined`. -/
def columnLetter (col : Int) : Option String :=
  if 0 ≤ col then COLUMN_LETTERS.get? col.toNat else none

/-- Value of `a || ''` for a string or `undefined`. -/
def orEmpty (a : Option String) : String :=
  match a with
  | some x => x
  | none => ""

/-- Value of `a || b` for two strings or `undefined`: the first truthy one. -/
def truthy (a : Option String) : Option String :=
  match a with
  | some x => if x = "" then none else some x
  | none => none

/-- The value of a move's `castling` field as the client receives it: the
object `{ isKingside, rookFrom, rookTo }` written by the server's `makeMove`,
or a string. -/
inductive CastlingValue where
  | info (c : CastlingInfo)
  | text (s : String)
  deriving DecidableEq, Repr

/-- The fields of a move object that `formatMoveNotation` reads.  `capture`
stands for `move.capture || move.captured`, `checkmate` for
`move.checkmate || move.mate`, `castling` for `move.castling || move.castle`
and `promotion` for `move.promotion || move.promoteTo`. -/
structure ClientMove where
  piece : Option Piece
  fromSq : Option Square
  toSq : Option Square
  capture : Bool
  check : Bool
  checkmate : Bool
  castling : Option CastlingValue
  promotion : Option String

/-- A `MoveRecord` of the server as the client reads it from
`gameState.moveHistory`.  The record has no field named `capture`, `captured`,
`check`, `checkmate`, `mate`, `castle` or `promoteTo`. -/
def MoveRecord.toClient (r : MoveRecord) : ClientMove :=
  { piece := some r.piece
    fromSq := some r.fromSq
    toSq := some r.toSq
    capture := false
    check := false
    checkmate := false
    castling := r.castling.map CastlingValue.info
    promotion := r.promotion.map PieceType.name }

/-- Source: `getSquareName(coords)` of `src/move.js`.  The sum of `undefined`
and a number is `NaN`. -/
def getSquareName (coords : Option Square) : String :=
  match coords with
  | none => "??"
  | some sq =>
    match columnLetter sq.col with
    | some l => l ++ toString (8 - sq.row)
    | none => "NaN"

/-- Source: `formatMoveNotation(move)` of `src/move.js`, for a move object. -/
def formatMoveNotation (move : ClientMove) : String :=
  let castlingResult : Option String :=
    match move.castling with
    | some (.text t) =>
      if t = "kingside" ∨ t = "short" then some "O-O"
      else if t = "queenside" ∨ t = "long" then some "O-O-O"
      else none
    | some (.info _) => none
    | none => none
  match castlingResult with
  | some r => r
  | none =>
    let pieceType : Option String := move.piece.map fun p => p.type.name
    let pieceSymbol : String := orEmpty (truthy (pieceType.bind PIECE_NOTATION))
    let n1 : String :=
      if pieceSymbol ≠ "" then
        match truthy (PIECE_SYMBOLS pieceSymbol) with
        | some u => u
        | none => pieceSymbol
      else ""
    let n2 : String :=
      if move.capture = true ∧ pieceType = some "pawn" then
        n1 ++ orEmpty (truthy ((move.fromSq.map (·.col)).bind columnLetter))
      else n1
    let n3 : String := if move.capture then n2 ++ "x" else n2
    let toSquare := getSquareName move.toSq
    let n4 : String := n3 ++ toSquare
    let n5 : String :=
      match truthy move.promotion with
      | some p =>
        let promotionSymbol : String :=
          match truthy (PIECE_NOTATION p) with
          | some x => x
          | none => p.toUpper
        let promotionUnicode : String :=
          match truthy (PIECE_SYMBOLS promotionSymbol) with
          | some x => x
          | none => promotionSymbol
        n4 ++ "=" ++ promotionUnicode
      | none => n4
    let n6 : String :=
      if move.checkmate then n5 ++ "#" else if move.check then n5 ++ "+" else n5
    if n6 = "" then toSquare else n6

/-- The record returned by `makeMove` (`none` if the call throws). -/
def recordOfMakeMove (s : Game) (fromRow fromCol toRow toCol : Int)
    (promotionPiece : Option PieceType) : Option MoveRecord :=
  match makeMove s fromRow fromCol toRow toCol promotionPiece with
  | .ok (r, _) => some r
  | .error _ => none

/-! ### Move navigation of the client (`src/move2.js`) -/

/-- The navigation state: `navigationHistory.length`, `currentNavigationIndex`
(`-1` is the live game) and `isNavigating`. -/
structure NavState where
  historyLength : Nat
  currentNavigationIndex : Int
  isNavigating : Bool
  deriving DecidableEq, Repr

/-- The object returned by `getNavigationInfo()`. -/
structure NavigationInfo where
  totalMoves : Nat
  currentIndex : Int
  isNavigating : Bool
  isAtLive : Bool
  canGoBack : Bool
  canGoForward : Bool
  deriving DecidableEq, Repr

/-- Source: `getNavigationInfo()` of `src/move2.js`. -/
def getNavigationInfo (st : NavState) : NavigationInfo :=
  { totalMoves := st.historyLength
    currentIndex := st.currentNavigationIndex
    isNavigating := st.isNavigating
    isAtLive := decide (st.currentNavigationIndex = -1)
    canGoBack := decide (st.historyLength > 0) &&
      !(decide (st.currentNavigationIndex = 0) && decide (st.historyLength = 1))
    canGoForward := decide (st.currentNavigationIndex ≠ -1) }

/-- Source: `goBackOneMove()` of `src/move2.js`: the returned flag and the
navigation state after the call.  The display calls that follow the index
update (`loadNavigationState`, `updateNavigationButtons`,
`showNavigationMessage`) catch their own exceptions. -/
def goBackOneMove (st : NavState) : Bool × NavState :=
  if st.historyLength = 0 then (false, st)
  else if st.currentNavigationIndex = -1 then
    (true, { st with currentNavigationIndex := (st.historyLength : Int) - 1, isNavigating := true })
  else if st.currentNavigationIndex > 0 then
    (true, { st with currentNavigationIndex := st.currentNavigationIndex - 1,
                     isNavigating := true })
  else (false, st)

/-- Whether the square holds a king of the given colour with `hasMoved` false. -/
def isUnmovedKingOf (b : Board) (color : Color) (r c : Int) : Bool :=
  match b r c with
  | some p => decide (p.type = .king) && decide (p.color = color) && !p.hasMoved
  | none => false

/-- No unmoved white king stands on the row of an unmoved black king or on a
row next to it. -/
def unmovedKingsApart (b : Board) : Prop :=
  ∀ r ∈ idx8, ∀ c ∈ idx8, isUnmovedKingOf b .white r c = true →
    ∀ r' ∈ idx8, ∀ c' ∈ idx8, isUnmovedKingOf b .black r' c' = true → 2 ≤ (r - r').natAbs

/-- No row of the board holds both a white and a black king that have not
moved. -/
def noFacingUnmovedKings (b : Board) : Prop :=
  ∀ r ∈ idx8, ∀ c ∈ idx8, ∀ c' ∈ idx8,
    ¬ (isUnmovedKingOf b .white r c = true ∧ isUnmovedKingOf b .black r c' = true)

/-! ### Reachable states and conservation of material -/

/-- For each colour, the pieces on the board and the captured pieces of that
colour are sixteen. -/
def materialOK (s : Game) : Prop :=
  ∀ color, countPieces s.board color + (s.capturedPieces.get color).length = 16

/-- The en-passant target, when set, is an empty square, and the square behind
it (seen from the side to move) holds no piece of the side to move. -/
def enPassantOK (s : Game) : Prop :=
  ∀ t, s.enPassantTarget = some t →
    s.board t.row t.col = none ∧
    hasColor (s.board (if s.currentPlayer = .white then t.row + 1 else t.row - 1) t.col)
      s.currentPlayer = false

/-- Every king on the board that has not moved stands on column 4. -/
def kingsHome (b : Board) : Prop :=
  ∀ r ∈ idx8, ∀ c ∈ idx8, ∀ p, b r c = some p → p.type = .king → p.hasMoved = false → c = 4

/-- The three facts about a state that `makeMove` relies on. -/
def Basic (s : Game) : Prop := materialOK s ∧ enPassantOK s ∧ kingsHome s.board

/-- A state in which `undoMove` returns, and every state that repeated calls of
`undoMove` lead to, satisfy `Basic`. -/
inductive Sound : Game → Prop where
  | mk (s : Game) (hb : Basic s) (hu : ∃ x, undoMove s = .ok x)
      (hprev : ∀ s', undoMove s = .ok (true, s') → Sound s') : Sound s

/-- Two cells that are both empty, or hold pieces of the same colour and
`hasMoved` flag of which the second is a king only if the first is. -/
def cellRel : Option Piece → Option Piece → Prop
  | none, none => True
  | some p, some q => q.color = p.color ∧ q.hasMoved = p.hasMoved ∧ (q.type = .king → p.type = .king)
  | _, _ => False

/-- The second state has the history, captured pieces, en-passant target and
side to move of the first, and its board differs at most in the types of
pieces (`undoMove` rewrites a type to `'pawn'`). -/
def Retyped (s t : Game) : Prop :=
  t.moveHistory = s.moveHistory ∧ t.capturedPieces = s.capturedPieces ∧
    t.enPassantTarget = s.enPassantTarget ∧ t.currentPlayer = s.currentPlayer ∧
    ∀ r c, cellRel (s.board r c) (t.board r c)

/-- The states that the server reaches from a new game: players join and
leave, accepted in-bounds moves are applied by `makeMove`, the status is
recomputed, moves are undone, the game is reset, the clock ticks, is paused and
resumed, and draws are offered and answered. -/
inductive Reachable : Game → Prop where
  | init : Reachable newGame
  | join (s : Game) (playerId playerName : String) (color : Option Color) (timerDuration : Int) :
      Reachable s → Reachable (addPlayer s playerId playerName color timerDuration).2
  | leave (s : Game) (playerId : String) : Reachable s → Reachable (removePlayer s playerId).2
  | move (s s' : Game) (fuel : Nat) (m : MoveReq) (r : MoveRecord) :
      Reachable s → m.fromRow ∈ idx8 → m.fromCol ∈ idx8 → m.toRow ∈ idx8 → m.toCol ∈ idx8 →
      isValidMove fuel s m.fromRow m.fromCol m.toRow m.toCol m.playerId = .ok true →
      makeMove s m.fromRow m.fromCol m.toRow m.toCol m.promotionPiece = .ok (r, s') →
      Reachable s'
  | status (s s' : Game) (fuel : Nat) (st : Status) :
      Reachable s → updateGameStatus fuel s = .ok (st, s') → Reachable s'
  | undo (s s' : Game) : Reachable s → undoMove s = .ok (true, s') → Reachable s'
  | reset (s : Game) : Reachable s → Reachable (resetGame s)
  | clock (s : Game) : Reachable s → Reachable (tick s).2
  | pause (s : Game) : Reachable s → Reachable (pauseTimer s)
  | resume (s : Game) : Reachable s → Reachable (resumeTimer s)
  | offer (s : Game) (playerId : IdValue) : Reachable s → Reachable (handleDrawOffer s playerId).2
  | respond (s : Game) (playerId : String) (accepted : Bool) :
      Reachable s → Reachable (handleDrawResponse s playerId accepted).2
/-! ## Scans -/

theorem anyE_eq_false_iff {α : Type} (p : α → Except Err Bool) (l : List α) :
    anyE p l = .ok false ↔ ∀ x ∈ l, p x = .ok false := by
  induction l with
  | nil => simp [anyE]
  | cons x xs ih =>
    cases hp : p x with
    | error e => simp [anyE, hp]
    | ok v => cases v <;> simp [anyE, hp, ih]

theorem anyE_mono {α : Type} {p q : α → Except Err Bool} (l : List α)
    (h : ∀ x ∈ l, ∀ v, p x = .ok v → q x = .ok v) (v : Bool) (hv : anyE p l = .ok v) :
    anyE q l = .ok v := by
  induction l with
  | nil => simpa [anyE] using hv
  | cons x xs ih =>
    cases hp : p x with
    | error e => simp [anyE, hp] at hv
    | ok w =>
      have hq := h x (List.mem_cons_self x xs) w hp
      cases w with
      | true => simpa [anyE, hp, hq] using hv
      | false =>
        simp only [anyE, hp] at hv
        simp only [anyE, hq]
        exact ih (fun y hy => h y (List.mem_cons_of_mem x hy)) hv

theorem wouldKingBeInCheckWith_eq_false_iff (pmv : MoveTest) (b : Board) (color : Color)
    (row col : Int) :
    wouldKingBeInCheckWith pmv b color row col = .ok false ↔
      ∀ r ∈ idx8, ∀ c ∈ idx8, ∀ piece, b r c = some piece → piece.color = color.opponent →
        pmv piece r c row col = .ok false := by
  unfold wouldKingBeInCheckWith
  rw [anyE_eq_false_iff]
  constructor
  · intro h r hr c hc piece hcell hcolor
    have h1 := (anyE_eq_false_iff _ _).1 (h r hr) c hc
    simpa [hcell, hcolor] using h1
  · intro h r hr
    rw [anyE_eq_false_iff]
    intro c hc
    cases hcell : b r c with
    | none => rfl
    | some piece =>
      by_cases hcolor : piece.color = color.opponent
      · simpa [hcolor] using h r hr c hc piece hcell hcolor
      · simp [hcolor]

theorem findKing_eq_of_unique (b : Board) (color : Color) (r0 c0 : Int)
    (hr : r0 ∈ idx8) (hc : c0 ∈ idx8) (hk : isKingOf b color r0 c0 = true)
    (huniq : ∀ r ∈ idx8, ∀ c ∈ idx8, isKingOf b color r c = true → r = r0 ∧ c = c0) :
    findKing b color = some ⟨r0, c0⟩ := by
  cases h : findKing b color with
  | none =>
    unfold findKing at h
    rw [List.findSome?_eq_none_iff] at h
    have h1 := h r0 hr
    rw [List.findSome?_eq_none_iff] at h1
    have h2 := h1 c0 hc
    unfold isKingOf at hk
    cases hcell : b r0 c0 with
    | none => simp [hcell] at hk
    | some p => simp [hcell] at hk h2; exact absurd hk.2 (h2 hk.1)
  | some sq =>
    unfold findKing at h
    obtain ⟨r, hr', h1⟩ := List.exists_of_findSome?_eq_some h
    obtain ⟨c, hc', h2⟩ := List.exists_of_findSome?_eq_some h1
    cases hcell : b r c with
    | none => simp [hcell] at h2
    | some p =>
      simp only [hcell] at h2
      by_cases hp : p.type = .king ∧ p.color = color
      · simp only [hp, and_self, if_true, Option.some.injEq] at h2
        have := huniq r hr' c hc' (by simp [isKingOf, hcell, hp])
        rw [← h2, this.1, this.2]
      · simp [hp] at h2

/-! ## A larger recursion budget returns the same values -/

theorem wouldKingBeInCheckWith_mono {o1 o2 : MoveTest} (h : MoveTest.le o1 o2) (b : Board)
    (color : Color) (row col : Int) (v : Bool)
    (hv : wouldKingBeInCheckWith o1 b color row col = .ok v) :
    wouldKingBeInCheckWith o2 b color row col = .ok v := by
  unfold wouldKingBeInCheckWith at hv ⊢
  refine anyE_mono _ (fun r _ w hw => ?_) v hv
  refine anyE_mono _ (fun c _ u hu => ?_) w hw
  cases hcell : b r c with
  | none => simpa [hcell] using hu
  | some piece =>
    simp only [hcell] at hu ⊢
    by_cases hc : piece.color = color.opponent
    · simp only [hc, if_true] at hu ⊢
      exact h _ _ _ _ _ _ hu
    · simpa [hc] using hu

theorem isKingInCheckWith_mono {o1 o2 : MoveTest} (h : MoveTest.le o1 o2) (b : Board)
    (color : Color) (v : Bool) (hv : isKingInCheckWith o1 b color = .ok v) :
    isKingInCheckWith o2 b color = .ok v := by
  unfold isKingInCheckWith at hv ⊢
  cases hk : findKing b color with
  | none => simpa [hk] using hv
  | some k =>
    simp only [hk] at hv ⊢
    exact wouldKingBeInCheckWith_mono h _ _ _ _ _ hv

theorem castlingLoopWith_mono {o1 o2 : MoveTest} (h : MoveTest.le o1 o2) (b : Board)
    (color : Color) (fromRow toCol step : Int) (n : Nat) (col : Int) (v : Bool)
    (hv : castlingLoopWith o1 b color fromRow toCol step n col = .ok v) :
    castlingLoopWith o2 b color fromRow toCol step n col = .ok v := by
  induction n generalizing col with
  | zero => simpa [castlingLoopWith] using hv
  | succ n ih =>
    unfold castlingLoopWith at hv ⊢
    by_cases hcol : col ≠ toCol + step
    · rw [if_pos hcol] at hv ⊢
      by_cases hocc : (b fromRow col).isSome = true
      · simpa [hocc] using hv
      · simp only [hocc, if_false] at hv ⊢
        cases hw : wouldKingBeInCheckWith o1 b color fromRow col with
        | error e => simp [hw] at hv
        | ok w =>
          rw [wouldKingBeInCheckWith_mono h _ _ _ _ _ hw]
          rw [hw] at hv
          cases w with
          | true => exact hv
          | false => exact ih _ hv
    · rw [if_neg hcol] at hv ⊢
      exact hv

theorem isCastlingValidWith_mono {o1 o2 : MoveTest} (h : MoveTest.le o1 o2) (s : Game)
    (piece : Piece) (fromRow fromCol toRow toCol : Int) (v : Bool)
    (hv : isCastlingValidWith o1 s piece fromRow fromCol toRow toCol = .ok v) :
    isCastlingValidWith o2 s piece fromRow fromCol toRow toCol = .ok v := by
  unfold isCastlingValidWith at hv ⊢
  simp only at hv ⊢
  generalize getCell s.board fromRow _ = g at hv ⊢
  match g with
  | .error e => exact hv
  | .ok none => exact hv
  | .ok (some rook) =>
    simp only at hv ⊢
    generalize (if decide (toCol > fromCol) = true then (1 : Int) else -1) = step at hv ⊢
    split_ifs at hv ⊢ with h1 h2 h3
    · exact hv
    · exact hv
    · exact hv
    · cases hk : isKingInCheckWith o1 s.board piece.color with
      | error e => simp [hk] at hv
      | ok w =>
        rw [isKingInCheckWith_mono h _ _ _ hk]
        rw [hk] at hv
        cases w with
        | true => exact hv
        | false => exact castlingLoopWith_mono h _ _ _ _ _ _ _ _ hv

theorem isKingMoveValidWith_mono {o1 o2 : MoveTest} (h : MoveTest.le o1 o2) (s : Game)
    (piece : Piece) (fromRow fromCol toRow toCol : Int) (v : Bool)
    (hv : isKingMoveValidWith o1 s piece fromRow fromCol toRow toCol = .ok v) :
    isKingMoveValidWith o2 s piece fromRow fromCol toRow toCol = .ok v := by
  unfold isKingMoveValidWith at hv ⊢
  simp only at hv ⊢
  split_ifs at hv ⊢ with h1 h2
  · exact hv
  · exact isCastlingValidWith_mono h _ _ _ _ _ _ _ hv
  · exact hv

theorem isPieceMovementValid_succ (n : Nat) (s : Game) :
    MoveTest.le (isPieceMovementValid n s) (isPieceMovementValid (n + 1) s) := by
  induction n with
  | zero => intro p a b c d v hv; simp [isPieceMovementValid] at hv
  | succ n ih =>
    intro p a b c d v hv
    unfold isPieceMovementValid at hv ⊢
    simp only at hv ⊢
    cases ht : p.type with
    | king =>
      simp only [ht] at hv ⊢
      exact isKingMoveValidWith_mono ih _ _ _ _ _ _ _ hv
    | pawn => simpa [ht] using hv
    | knight => simpa [ht] using hv
    | bishop => simpa [ht] using hv
    | rook => simpa [ht] using hv
    | queen => simpa [ht] using hv
    | other tag => simpa [ht] using hv

theorem isKingInCheck_succ (n : Nat) (s : Game) (color : Color) (v : Bool)
    (hv : isKingInCheck n s color = .ok v) : isKingInCheck (n + 1) s color = .ok v :=
  isKingInCheckWith_mono (isPieceMovementValid_succ n s) _ _ _ hv

theorem wouldMoveResultInCheck_succ (n : Nat) (s : Game) (fromRow fromCol toRow toCol : Int)
    (v : Bool) (hv : wouldMoveResultInCheck n s fromRow fromCol toRow toCol = .ok v) :
    wouldMoveResultInCheck (n + 1) s fromRow fromCol toRow toCol = .ok v := by
  unfold wouldMoveResultInCheck at hv ⊢
  cases h1 : getCell s.board fromRow fromCol with
  | error e => simp [h1] at hv
  | ok piece? =>
    cases h2 : getCell s.board toRow toCol with
    | error e => simp [h1, h2] at hv
    | ok t =>
      cases piece? with
      | none => simp [h1, h2] at hv
      | some piece =>
        simp only [h1, h2] at hv ⊢
        exact isKingInCheck_succ _ _ _ _ hv

/-! ## Kingside castling of the white king from e1 -/

theorem mem_idx8 (r : Int) : r ∈ idx8 ↔ 0 ≤ r ∧ r ≤ 7 := by
  simp only [idx8, List.mem_cons, List.mem_singleton, List.not_mem_nil, or_false]
  omega

theorem isPathClearLoop_blocked (b b' : Board) (toRow toCol rowDir colDir : Int)
    (hb : ∀ r c, ¬ (r = toRow ∧ c = toCol) → (b' r c).isSome = true → (b r c).isSome = true)
    (n : Nat) (row col : Int)
    (h : isPathClearLoop b' toRow toCol rowDir colDir n row col = .ok false) :
    isPathClearLoop b toRow toCol rowDir colDir n row col = .ok false := by
  induction n generalizing row col with
  | zero =>
    unfold isPathClearLoop at h
    split_ifs at h
    simp at h
  | succ n ih =>
    unfold isPathClearLoop at h ⊢
    by_cases hc : row ≠ toRow ∨ col ≠ toCol
    · rw [if_pos hc] at h ⊢
      unfold getCell at h ⊢
      by_cases hrow : rowOk row = true
      · simp only [hrow, if_true] at h ⊢
        cases hcell' : b' row col with
        | some q =>
          have hsome := hb row col (by tauto) (by simp [hcell'])
          obtain ⟨q', hq'⟩ := Option.isSome_iff_exists.1 hsome
          simp [hq']
        | none =>
          simp only [hcell'] at h
          cases hcell : b row col with
          | some q => rfl
          | none => exact ih _ _ h
      · simp [hrow] at h
    · rw [if_neg hc] at h
      simp at h

theorem isPathClear_blocked (b b' : Board) (fromRow fromCol toRow toCol : Int)
    (hb : ∀ r c, ¬ (r = toRow ∧ c = toCol) → (b' r c).isSome = true → (b r c).isSome = true)
    (h : isPathClear b' fromRow fromCol toRow toCol = .ok false) :
    isPathClear b fromRow fromCol toRow toCol = .ok false :=
  isPathClearLoop_blocked b b' _ _ _ _ hb _ _ _ h

theorem simulateMove_apply (b : Board) (t r c : Int) :
    simulateMove b 7 4 7 t r c =
      if r = 7 ∧ c = 4 then none else if r = 7 ∧ c = t then b 7 4 else b r c := by
  simp [simulateMove, setCell]

/-- A black piece that does not reach the square `(7, t)` when the white king
stands on it does not reach it either while the square is empty and the king
is still on e1, provided it is neither a pawn directly in front of the square
nor a king two columns away on the same row. -/
theorem pieceMove_transfer (n : Nat) (s : Game) (t : Int) (piece : Piece) (r c : Int)
    (hking : s.board 7 4 = some ⟨.king, .white, false⟩) (hempty : s.board 7 t = none)
    (hcolor : piece.color = .black)
    (hnoPawn : r = 6 → c = t → piece.type ≠ .pawn)
    (hnoKing : r = 7 → (t - c).natAbs = 2 → piece.type ≠ .king)
    (h : isPieceMovementValid n { s with board := simulateMove s.board 7 4 7 t } piece r c 7 t
      = .ok false) :
    isPieceMovementValid n s piece r c 7 t = .ok false := by
  have ht4 : t ≠ 4 := by
    rintro rfl
    rw [hking] at hempty
    exact absurd hempty (by simp)
  have hb : ∀ r' c', ¬ (r' = 7 ∧ c' = t) → (simulateMove s.board 7 4 7 t r' c').isSome = true →
      (s.board r' c').isSome = true := by
    intro r' c' hne hs
    rw [simulateMove_apply] at hs
    split_ifs at hs with h1
    · simp at hs
    · exact hs
  have htarget : simulateMove s.board 7 4 7 t 7 t = some ⟨.king, .white, false⟩ := by
    rw [simulateMove_apply]
    simp [ht4, hking]
  cases n with
  | zero => simp [isPieceMovementValid] at h
  | succ n =>
    obtain ⟨ty, color, hm⟩ := piece
    simp only at hcolor hnoPawn hnoKing
    subst hcolor
    unfold isPieceMovementValid at h ⊢
    cases ty with
    | pawn =>
      simp only [isPawnMoveValid, getCell, rowOk, htarget, hempty] at h ⊢
      by_cases h0 : (t - c).natAbs = 0
      · have hct : c = t := by omega
        simp only [h0, if_true] at h ⊢
        by_cases hr6 : r = 6
        · exact absurd rfl (hnoPawn hr6 hct)
        · have h1 : ¬ (7 - r = 1) := by omega
          simp [h1]
          intro hr1 hr2
          omega
      · by_cases h1 : (t - c).natAbs = 1 ∧ 7 - r = 1
        · simp [h0, h1] at h
        · simp [h0, h1]
    | knight => exact h
    | bishop =>
      simp only at h ⊢
      split_ifs at h ⊢ with hg
      · exact isPathClear_blocked _ _ _ _ _ _ hb h
      · rfl
    | rook =>
      simp only at h ⊢
      split_ifs at h ⊢ with hg
      · exact isPathClear_blocked _ _ _ _ _ _ hb h
      · rfl
    | queen =>
      simp only at h ⊢
      split_ifs at h ⊢ with hg
      · exact isPathClear_blocked _ _ _ _ _ _ hb h
      · rfl
    | king =>
      simp only [isKingMoveValidWith] at h ⊢
      by_cases h1 : (7 - r).natAbs ≤ 1 ∧ (t - c).natAbs ≤ 1
      · simp [h1] at h
      · rw [if_neg h1] at h ⊢
        by_cases h2 : (7 - r).natAbs = 0 ∧ (t - c).natAbs = 2 ∧ hm = false
        · have hr7 : r = 7 := by omega
          exact absurd rfl (hnoKing hr7 h2.2.1)
        · rw [if_neg h2]
    | other tag => rfl

theorem black_pawn_captures (n : Nat) (s : Game) (p q : Piece) (c t : Int)
    (hp : p.type = .pawn) (hpc : p.color = .black) (hq : s.board 7 t = some q)
    (hqc : q.color = .white) (hct : (t - c).natAbs = 1) :
    isPieceMovementValid n s p 6 c 7 t ≠ .ok false := by
  obtain ⟨ty, color, hm⟩ := p
  simp only at hp hpc
  subst hp hpc
  cases n with
  | zero => simp [isPieceMovementValid]
  | succ m => simp [isPieceMovementValid, isPawnMoveValid, getCell, rowOk, hq, hqc, hct]

theorem king_steps (n : Nat) (s : Game) (p : Piece) (r c r' c' : Int) (hp : p.type = .king)
    (h : (r' - r).natAbs ≤ 1 ∧ (c' - c).natAbs ≤ 1) :
    isPieceMovementValid n s p r c r' c' ≠ .ok false := by
  obtain ⟨ty, color, hm⟩ := p
  simp only at hp
  subst hp
  cases n with
  | zero => simp [isPieceMovementValid]
  | succ m => simp [isPieceMovementValid, isKingMoveValidWith, h]

theorem transit_safe (n : Nat) (s : Game) (t : Int)
    (hking : s.board 7 4 = some ⟨.king, .white, false⟩) (hempty : s.board 7 t = none)
    (hnoPawn : ∀ p, s.board 6 t = some p → p.color = .black → p.type ≠ .pawn)
    (hnoKing : ∀ c ∈ idx8, ∀ p, s.board 7 c = some p → p.color = .black →
      (t - c).natAbs = 2 → p.type ≠ .king)
    (hsafe : wouldKingBeInCheckWith
      (isPieceMovementValid n { s with board := simulateMove s.board 7 4 7 t })
      (simulateMove s.board 7 4 7 t) .white 7 t = .ok false) :
    wouldKingBeInCheckWith (isPieceMovementValid n s) s.board .white 7 t = .ok false := by
  rw [wouldKingBeInCheckWith_eq_false_iff] at hsafe ⊢
  intro r hr c hc piece hcell hcolor
  have hcolor' : piece.color = .black := hcolor
  apply pieceMove_transfer n s t piece r c hking hempty hcolor'
  · intro h6 hct
    subst h6 hct
    exact hnoPawn piece hcell hcolor'
  · intro h7 h2
    subst h7
    exact hnoKing c hc piece hcell hcolor' h2
  · apply hsafe r hr c hc piece _ hcolor
    rw [simulateMove_apply]
    have h1 : ¬ (r = 7 ∧ c = 4) := by
      rintro ⟨rfl, rfl⟩
      rw [hking] at hcell
      cases hcell
      cases hcolor'
    have h2 : ¬ (r = 7 ∧ c = t) := by
      rintro ⟨rfl, rfl⟩
      rw [hempty] at hcell
      cases hcell
    simp [h1, h2, hcell]

theorem kingOnTransit_check (n : Nat) (s : Game) (t : Int) (ht : t ∈ idx8)
    (hking : s.board 7 4 = some ⟨.king, .white, false⟩) (hempty : s.board 7 t = none)
    (honly : ∀ r ∈ idx8, ∀ c ∈ idx8, isKingOf s.board .white r c = true → r = 7 ∧ c = 4)
    (h : wouldMoveResultInCheck n s 7 4 7 t = .ok false) :
    wouldKingBeInCheckWith
      (isPieceMovementValid n { s with board := simulateMove s.board 7 4 7 t })
      (simulateMove s.board 7 4 7 t) .white 7 t = .ok false := by
  have ht4 : t ≠ 4 := by
    rintro rfl
    rw [hking] at hempty
    exact absurd hempty (by simp)
  have hfind : findKing (simulateMove s.board 7 4 7 t) .white = some ⟨7, t⟩ := by
    apply findKing_eq_of_unique _ _ 7 t (by decide) ht
    · simp [isKingOf, simulateMove_apply, ht4, hking]
    · intro r hr c hc hk
      by_cases h1 : r = 7 ∧ c = 4
      · simp [isKingOf, simulateMove_apply, h1] at hk
      · by_cases h2 : r = 7 ∧ c = t
        · exact h2
        · have hk' : isKingOf s.board .white r c = true := by
            simpa [isKingOf, simulateMove_apply, h1, h2] using hk
          exact absurd (honly r hr c hc hk') h1
  unfold wouldMoveResultInCheck at h
  simp only [getCell, rowOk, hking, hempty] at h
  have h' : isKingInCheckWith
      (isPieceMovementValid n { s with board := simulateMove s.board 7 4 7 t })
      (simulateMove s.board 7 4 7 t) .white = .ok false := by
    simpa [isKingInCheck] using h
  unfold isKingInCheckWith at h'
  rw [hfind] at h'
  exact h'

theorem kingOnE1_check (n : Nat) (s : Game)
    (hking : s.board 7 4 = some ⟨.king, .white, false⟩)
    (honly : ∀ r ∈ idx8, ∀ c ∈ idx8, isKingOf s.board .white r c = true → r = 7 ∧ c = 4)
    (h : isKingInCheck n s .white = .ok false) :
    wouldKingBeInCheckWith (isPieceMovementValid n s) s.board .white 7 4 = .ok false := by
  have hfind : findKing s.board .white = some ⟨7, 4⟩ :=
    findKing_eq_of_unique _ _ 7 4 (by decide) (by decide) (by simp [isKingOf, hking]) honly
  have h' : isKingInCheckWith (isPieceMovementValid n s) s.board .white = .ok false := h
  unfold isKingInCheckWith at h'
  rw [hfind] at h'
  exact h'

theorem kingside_transit_squares_safe (fuel : Nat) (s : Game)
    (hking : s.board 7 4 = some ⟨.king, .white, false⟩)
    (hrook : s.board 7 7 = some ⟨.rook, .white, false⟩)
    (honly : ∀ r ∈ idx8, ∀ c ∈ idx8, isKingOf s.board .white r c = true → r = 7 ∧ c = 4)
    (hf1 : s.board 7 5 = none) (hg1 : s.board 7 6 = none)
    (hcheck : isKingInCheck fuel s .white = .ok false)
    (hsafe_f1 : wouldMoveResultInCheck fuel s 7 4 7 5 = .ok false)
    (hsafe_g1 : wouldMoveResultInCheck fuel s 7 4 7 6 = .ok false) :
    wouldKingBeInCheckWith (isPieceMovementValid fuel s) s.board .white 7 5 = .ok false ∧
      wouldKingBeInCheckWith (isPieceMovementValid fuel s) s.board .white 7 6 = .ok false := by
  have hE1 := (wouldKingBeInCheckWith_eq_false_iff _ _ _ _ _).1
    (kingOnE1_check fuel s hking honly hcheck)
  have hF1 := kingOnTransit_check fuel s 5 (by decide) hking hf1 honly hsafe_f1
  have hG1 := kingOnTransit_check fuel s 6 (by decide) hking hg1 honly hsafe_g1
  have hF1' := (wouldKingBeInCheckWith_eq_false_iff _ _ _ _ _).1 hF1
  have hnoPawn5 : ∀ p, s.board 6 5 = some p → p.color = .black → p.type ≠ .pawn := by
    intro p hp hc ht
    exact black_pawn_captures fuel s p _ 5 4 ht hc hking rfl (by decide)
      (hE1 6 (by decide) 5 (by decide) p hp hc)
  have hnoKing5 : ∀ c ∈ idx8, ∀ p, s.board 7 c = some p → p.color = .black →
      (5 - c).natAbs = 2 → p.type ≠ .king := by
    intro c hc p hp hcol h2 ht
    have hc37 : c = 3 ∨ c = 7 := by omega
    rcases hc37 with rfl | rfl
    · exact king_steps fuel s p 7 3 7 4 ht (by decide) (hE1 7 (by decide) 3 (by decide) p hp hcol)
    · rw [hrook] at hp
      cases hp
      cases hcol
  have hnoPawn6 : ∀ p, s.board 6 6 = some p → p.color = .black → p.type ≠ .pawn := by
    intro p hp hc ht
    have hp' : simulateMove s.board 7 4 7 5 6 6 = some p := by
      rw [simulateMove_apply]
      simpa using hp
    have hk' : ({ s with board := simulateMove s.board 7 4 7 5 } : Game).board 7 5 =
        some ⟨.king, .white, false⟩ := by
      show simulateMove s.board 7 4 7 5 7 5 = _
      rw [simulateMove_apply]
      simpa using hking
    exact black_pawn_captures fuel _ p _ 6 5 ht hc hk' rfl (by decide)
      (hF1' 6 (by decide) 6 (by decide) p hp' hc)
  have hnoKing6 : ∀ c ∈ idx8, ∀ p, s.board 7 c = some p → p.color = .black →
      (6 - c).natAbs = 2 → p.type ≠ .king := by
    intro c hc p hp hcol h2 _
    have hc7 := ((mem_idx8 c).1 hc).2
    have hc4 : c = 4 := by omega
    subst hc4
    rw [hking] at hp
    cases hp
    cases hcol
  exact ⟨transit_safe fuel s 5 hking hf1 hnoPawn5 hnoKing5 hF1,
    transit_safe fuel s 6 hking hg1 hnoPawn6 hnoKing6 hG1⟩

theorem kingside_castling_test (fuel : Nat) (s : Game)
    (hrook : s.board 7 7 = some ⟨.rook, .white, false⟩)
    (hright : s.castlingRights.white.kingside = true)
    (hf1 : s.board 7 5 = none) (hg1 : s.board 7 6 = none)
    (hcheck : isKingInCheck fuel s .white = .ok false)
    (h5 : wouldKingBeInCheckWith (isPieceMovementValid fuel s) s.board .white 7 5 = .ok false)
    (h6 : wouldKingBeInCheckWith (isPieceMovementValid fuel s) s.board .white 7 6 = .ok false) :
    isCastlingValidWith (isPieceMovementValid fuel s) s ⟨.king, .white, false⟩ 7 4 7 6
      = .ok true := by
  have hcheck' : isKingInCheckWith (isPieceMovementValid fuel s) s.board .white = .ok false :=
    hcheck
  have hloop : castlingLoopWith (isPieceMovementValid fuel s) s.board .white 7 6 1 2 5
      = .ok true := by
    simp [castlingLoopWith, hf1, hg1, h5, h6]
  simp [isCastlingValidWith, getCell, rowOk, hrook, CastlingRights.get, hright, hcheck']
  exact hloop

/-! ## Confirmed claims -/

/-- C8: when it is white's turn in a game that is not over, the unmoved white
king stands on e1 (and is the only white king), the unmoved white rook on h1,
white's kingside right is set, f1 and g1 are empty, the king is not in check and
would not be in check standing on f1 or on g1, then `isValidMove` accepts e1-g1
for the white player, and after `makeMove` the king is on g1, the rook on f1,
both with `hasMoved` set, e1 and h1 are empty and both white castling rights are
false. -/
theorem c8_white_kingside_castle (fuel : Nat) (s : Game) (playerId : IdValue)
    (promotionPiece : Option PieceType)
    (hseat : getPlayerColor s playerId = some .white)
    (hturn : s.currentPlayer = .white) (hover : s.gameOver = false)
    (hking : s.board 7 4 = some ⟨.king, .white, false⟩)
    (hrook : s.board 7 7 = some ⟨.rook, .white, false⟩)
    (honly : ∀ r ∈ idx8, ∀ c ∈ idx8, isKingOf s.board .white r c = true → r = 7 ∧ c = 4)
    (hright : s.castlingRights.white.kingside = true)
    (hf1 : s.board 7 5 = none) (hg1 : s.board 7 6 = none)
    (hcheck : isKingInCheck fuel s .white = .ok false)
    (hsafe_f1 : wouldMoveResultInCheck fuel s 7 4 7 5 = .ok false)
    (hsafe_g1 : wouldMoveResultInCheck fuel s 7 4 7 6 = .ok false) :
    isValidMove (fuel + 1) s 7 4 7 6 playerId = .ok true ∧
      ∃ r s', makeMove s 7 4 7 6 promotionPiece = .ok (r, s') ∧
        s'.board 7 6 = some ⟨.king, .white, true⟩ ∧
        s'.board 7 5 = some ⟨.rook, .white, true⟩ ∧
        s'.board 7 7 = none ∧ s'.board 7 4 = none ∧
        s'.castlingRights.white.kingside = false ∧
        s'.castlingRights.white.queenside = false := by
  obtain ⟨h5, h6⟩ := kingside_transit_squares_safe fuel s hking hrook honly hf1 hg1 hcheck
    hsafe_f1 hsafe_g1
  have hcastle := kingside_castling_test fuel s hrook hright hf1 hg1 hcheck h5 h6
  have hmove : isPieceMovementValid (fuel + 1) s ⟨.king, .white, false⟩ 7 4 7 6 = .ok true := by
    simp [isPieceMovementValid, isKingMoveValidWith]
    exact hcastle
  have hsim := wouldMoveResultInCheck_succ fuel s 7 4 7 6 false hsafe_g1
  constructor
  · simp [isValidMove, hseat, hturn, hover, getCell, rowOk, hking, hg1, hmove, hsim]
  · simp [makeMove, getCell, rowOk, hking, hg1, hrook, isPromotionRank,
      updateCastlingRights, CastlingRights.clearKingside, CastlingRights.clearQueenside]
    refine ⟨_, _, ⟨rfl, rfl⟩, ?_⟩
    simp [setCell]

/-- The id of a seat is a given string exactly when the seat is filled by a
player with that id. -/
theorem seatId_eq_str (p : Option Player) (id : String) :
    seatId p = .str id ↔ p.map (·.id) = some id := by
  cases p <;> simp [seatId]

/-- The first guard of `isValidMove`: the call returns false for every move
when the game is over and when `getPlayerColor` does not give the colour to
move for the requester. -/
theorem isValidMove_guard (fuel : Nat) (s : Game)
    (fromRow fromCol toRow toCol : Int) (playerId : IdValue)
    (h : s.gameOver = true ∨ getPlayerColor s playerId ≠ some s.currentPlayer) :
    isValidMove fuel s fromRow fromCol toRow toCol playerId = .ok false := by
  have hguard : getPlayerColor s playerId ≠ some s.currentPlayer ∨ s.gameOver = true :=
    h.symm
  unfold isValidMove
  simp only [hguard, if_true]

/-- A requester whose id is a string gets a colour from `getPlayerColor` only
when that string is the id of the player in the seat of the colour. -/
theorem getPlayerColor_str (s : Game) (id : String) (color : Color)
    (h : getPlayerColor s (.str id) = some color) :
    (s.players.get color).map (·.id) = some id := by
  unfold getPlayerColor at h
  by_cases hw : seatId s.players.white = .str id
  · rw [if_pos hw] at h
    cases h
    cases hp : s.players.white with
    | none => rw [hp] at hw; cases hw
    | some p =>
      rw [hp] at hw
      simp only [seatId, IdValue.str.injEq] at hw
      simp [Seats.get, hp, hw]
  · rw [if_neg hw] at h
    by_cases hb : seatId s.players.black = .str id
    · rw [if_pos hb] at h
      cases h
      cases hp : s.players.black with
      | none => rw [hp] at hb; cases hb
      | some p =>
        rw [hp] at hb
        simp only [seatId, IdValue.str.injEq] at hb
        simp [Seats.get, hp, hb]
    · rw [if_neg hb] at h
      cases h

/-- C10: in a started game that White has left it is White's turn and the
white seat is empty; `getPlayerColor` gives `'white'` for a request without
`playerId`, and `isValidMove` accepts the move e2-e4 of that request, whose
`playerId` is not the id of a seated player. -/
theorem c10_missing_id_moves_for_empty_seat :
    (removePlayer startedGame "w").2.players.white = none ∧
      (removePlayer startedGame "w").2.currentPlayer = .white ∧
      getPlayerColor (removePlayer startedGame "w").2 .undefined = some .white ∧
      isValidMove 2 (removePlayer startedGame "w").2 6 4 4 4 .undefined = .ok true := by
  decide!

/-- Witness for C8: the position after 1. e4 e5 2. Nf3 Nc6 3. Bc4 Bc5. -/
theorem c8_white_kingside_castle_witness :
    (getPlayerColor (reached 2 kingsidePrelude) "w" = some .white ∧
      (reached 2 kingsidePrelude).board 7 5 = none ∧
      (reached 2 kingsidePrelude).board 7 6 = none ∧
      isKingInCheck 2 (reached 2 kingsidePrelude) .white = .ok false ∧
      wouldMoveResultInCheck 2 (reached 2 kingsidePrelude) 7 4 7 5 = .ok false ∧
      wouldMoveResultInCheck 2 (reached 2 kingsidePrelude) 7 4 7 6 = .ok false) ∧
    (isValidMove 3 (reached 2 kingsidePrelude) 7 4 7 6 "w" = .ok true ∧
      ∃ r s', makeMove (reached 2 kingsidePrelude) 7 4 7 6 none = .ok (r, s') ∧
        s'.board 7 6 = some ⟨.king, .white, true⟩ ∧
        s'.board 7 5 = some ⟨.rook, .white, true⟩ ∧
        s'.board 7 7 = none ∧ s'.board 7 4 = none ∧
        s'.castlingRights.white.kingside = false ∧
        s'.castlingRights.white.queenside = false) :=
  ⟨⟨by decide!, by decide!, by decide!, by decide!, by decide!, by decide!⟩,
    c8_white_kingside_castle 2 (reached 2 kingsidePrelude) "w" none (by decide!) (by decide!)
      (by decide!) (by decide!) (by decide!) (by decide!) (by decide!) (by decide!) (by decide!)
      (by decide!) (by decide!) (by decide!)⟩

/-! ## Game state machine: gating, frame and draw offers -/

theorem restoreMove_simulateMove (b : Board) (fromRow fromCol toRow toCol : Int) :
    restoreMove b (simulateMove b fromRow fromCol toRow toCol) fromRow fromCol toRow toCol = b := by
  funext r c
  simp only [restoreMove, simulateMove, setCell]
  by_cases h1 : r = toRow ∧ c = toCol
  · simp [h1]
  · by_cases h2 : r = fromRow ∧ c = fromCol
    · obtain ⟨rfl, rfl⟩ := h2
      simp [h1]
    · simp [h1, h2]

theorem wouldMoveResultInCheckRun_eq (fuel : Nat) (s : Game) (fromRow fromCol toRow toCol : Int) :
    wouldMoveResultInCheckRun fuel s fromRow fromCol toRow toCol =
      (wouldMoveResultInCheck fuel s fromRow fromCol toRow toCol).map fun v => (v, s) := by
  unfold wouldMoveResultInCheckRun wouldMoveResultInCheck
  cases getCell s.board fromRow fromCol with
  | error e => rfl
  | ok piece? =>
    cases getCell s.board toRow toCol with
    | error e => rfl
    | ok t =>
      cases piece? with
      | none => rfl
      | some piece =>
        simp only [restoreMove_simulateMove]
        cases isKingInCheck fuel { s with board := simulateMove s.board fromRow fromCol toRow toCol }
          piece.color <;> rfl

/-- C12: for in-bounds arguments a call of `isValidMove` that returns (true or
false) leaves the state, the board included, exactly as it was: the run of
`isValidMove` with the state it leaves is the returned flag paired with the
initial state.  The restoring writes of `wouldMoveResultInCheck` put back both
squares, also when the two squares are the same (`restoreMove_simulateMove`). -/
theorem c12_isValidMove_leaves_state (fuel : Nat) (s : Game)
    (fromRow fromCol toRow toCol : Int) (playerId : IdValue)
    (_hfr : fromRow ∈ idx8) (_hfc : fromCol ∈ idx8) (_htr : toRow ∈ idx8) (_htc : toCol ∈ idx8) :
    isValidMoveRun fuel s fromRow fromCol toRow toCol playerId =
      (isValidMove fuel s fromRow fromCol toRow toCol playerId).map fun v => (v, s) := by
  unfold isValidMoveRun isValidMove
  simp only [wouldMoveResultInCheckRun_eq]
  split_ifs with h1
  · rfl
  · cases getCell s.board fromRow fromCol with
    | error e => rfl
    | ok piece? =>
      cases piece? with
      | none => rfl
      | some piece =>
        simp only
        split_ifs with h2
        · rfl
        · cases getCell s.board toRow toCol with
          | error e => rfl
          | ok t =>
            simp only
            split_ifs with h3
            · rfl
            · cases isPieceMovementValid fuel s piece fromRow fromCol toRow toCol with
              | error e => rfl
              | ok v =>
                cases v with
                | false => rfl
                | true =>
                  simp only
                  cases wouldMoveResultInCheck fuel s fromRow fromCol toRow toCol <;> rfl

/-- C11 (amended): `isValidMove` returns false for every move and every
requester whose `playerId` is not `undefined`, while the seat of the colour to
move is empty. -/
theorem c11_rejects_when_movers_seat_empty (fuel : Nat) (s : Game)
    (fromRow fromCol toRow toCol : Int) (playerId : IdValue)
    (h : s.players.get s.currentPlayer = none) (hid : playerId ≠ .undefined) :
    isValidMove fuel s fromRow fromCol toRow toCol playerId = .ok false := by
  apply isValidMove_guard
  right
  unfold getPlayerColor
  cases hc : s.currentPlayer with
  | white =>
    rw [hc] at h
    have hw : s.players.white = none := h
    have hne : ¬ (IdValue.undefined = playerId) := fun e => hid e.symm
    rw [hw]
    simp only [seatId, hne, if_false]
    split_ifs <;> simp
  | black =>
    rw [hc] at h
    have hb : s.players.black = none := h
    have hne : ¬ (IdValue.undefined = playerId) := fun e => hid e.symm
    rw [hb]
    simp only [seatId, hne, if_false]
    split_ifs <;> simp

/-- Witness for C11 (amended): white to move after the white player left, and
a request with the id that White had. -/
theorem c11_rejects_when_movers_seat_empty_witness :
    (removePlayer startedGame "w").2.players.get (removePlayer startedGame "w").2.currentPlayer
        = none ∧
      isValidMove 2 (removePlayer startedGame "w").2 6 4 4 4 "w" = .ok false :=
  ⟨by decide, c11_rejects_when_movers_seat_empty 2 _ 6 4 4 4 "w" (by decide) (by decide)⟩

/-- C20: for in-bounds squares `isValidMove` returns false when the two squares
are the same, when the source square holds no piece of the requesting player's
colour, and when the destination square holds a piece of the colour of the
piece on the source square. -/
theorem c20_rejects_noop_missing_piece_friendly_fire (fuel : Nat) (s : Game)
    (fromRow fromCol toRow toCol : Int) (playerId : IdValue)
    (hfr : fromRow ∈ idx8) (_hfc : fromCol ∈ idx8) (htr : toRow ∈ idx8) (_htc : toCol ∈ idx8)
    (h : (fromRow = toRow ∧ fromCol = toCol) ∨
      ((s.board fromRow fromCol).map (·.color) ≠ getPlayerColor s playerId ∨
        getPlayerColor s playerId = none) ∨
      ((s.board toRow toCol).isSome = true ∧
        (s.board toRow toCol).map (·.color) = (s.board fromRow fromCol).map (·.color))) :
    isValidMove fuel s fromRow fromCol toRow toCol playerId = .ok false := by
  have h1 : rowOk fromRow = true := by
    have := (mem_idx8 fromRow).1 hfr
    simp [rowOk, this.1, this.2]
  have h2 : rowOk toRow = true := by
    have := (mem_idx8 toRow).1 htr
    simp [rowOk, this.1, this.2]
  unfold isValidMove
  simp only [getCell, h1, h2, if_true]
  by_cases hg : getPlayerColor s playerId ≠ some s.currentPlayer ∨ s.gameOver = true
  · rw [if_pos hg]
  · rw [if_neg hg]
    cases hp : s.board fromRow fromCol with
    | none => rfl
    | some piece =>
      simp only
      by_cases hc : some piece.color ≠ getPlayerColor s playerId
      · rw [if_pos hc]
      · rw [if_neg hc]
        have ht : (s.board toRow toCol).map (·.color) = some piece.color := by
          rcases h with ⟨rfl, rfl⟩ | (hne | hnone) | ⟨_, hsame⟩
          · simp [hp]
          · rw [hp] at hne
            exact absurd (by simpa using hne) hc
          · rw [hnone] at hc
            exact absurd (by simp) hc
          · rw [hp] at hsame
            exact hsame
        simp only [ht, if_true]

/-- Witness for C20: white asks to move the black pawn a7 in the initial
position. -/
theorem c20_rejects_noop_missing_piece_friendly_fire_witness :
    ((startedGame.board 1 0).map (·.color) ≠ getPlayerColor startedGame "w") ∧
      isValidMove 2 startedGame 1 0 2 0 "w" = .ok false :=
  ⟨by decide, c20_rejects_noop_missing_piece_friendly_fire 2 startedGame 1 0 2 0 "w"
    (by decide) (by decide) (by decide) (by decide) (Or.inr (Or.inl (Or.inl (by decide))))⟩

/-- Witness for C12: the request e2-e4 in the initial position. -/
theorem c12_isValidMove_leaves_state_witness :
    isValidMoveRun 2 startedGame 6 4 4 4 "w" =
      (isValidMove 2 startedGame 6 4 4 4 "w").map fun v => (v, startedGame) :=
  c12_isValidMove_leaves_state 2 startedGame 6 4 4 4 "w" (by decide) (by decide) (by decide)
    (by decide)

/-! ## Clock -/

theorem TimeLeft.get_set_same (t : TimeLeft) (c : Color) (v : Int) : (t.set c v).get c = v := by
  cases c <;> rfl

theorem TimeLeft.get_set_opponent (t : TimeLeft) (c : Color) (v : Int) :
    (t.set c v).get c.opponent = t.get c.opponent := by
  cases c <;> rfl

theorem TimeLeft.set_set (t : TimeLeft) (c : Color) (v w : Int) :
    (t.set c v).set c w = t.set c w := by
  cases c <;> rfl

theorem ticks_succ (n : Nat) (s : Game) : ticks (n + 1) s = (tick (ticks n s)).2 := by
  induction n generalizing s with
  | zero => rfl
  | succ n ih =>
    show ticks (n + 1) (tick s).2 = _
    rw [ih]
    rfl

theorem spacingExp_small (fuel m : Nat) (h : m < maxExactInt) : spacingExp (fuel + 1) m = 0 := by
  simp only [spacingExp, h, if_true]

/-- Up to two to the power 53 the decrement of a Number is exact. -/
theorem decrement_exact (x : Int) (h1 : 1 ≤ x) (h2 : x ≤ 9007199254740992) :
    decrement x = x - 1 := by
  have hm : (x - 1).natAbs < maxExactInt := by
    unfold maxExactInt
    omega
  have he : spacingExp 1024 (x - 1).natAbs = 0 := spacingExp_small 1023 _ hm
  have hs : (x - 1).sign * ((x - 1).natAbs : Int) = x - 1 := Int.sign_mul_natAbs _
  unfold decrement toNumber
  simp only [he, pow_zero, Nat.div_one, Nat.mod_one, Nat.mul_zero, Nat.lt_one_iff, if_true,
    Nat.mul_one, Nat.zero_lt_one]
  exact hs

/-- While the side to move has more than one second left, and no more than two
to the power 53, a tick of a running clock takes one second from it and
changes nothing else. -/
theorem tick_running (s : Game) (hactive : s.timerActive = true)
    (hpaused : s.timerPaused = false) (hover : s.gameOver = false)
    (h : 1 < s.timeLeft.get s.currentPlayer)
    (hmax : s.timeLeft.get s.currentPlayer ≤ 9007199254740992) :
    tick s = (none,
      { s with timeLeft := s.timeLeft.set s.currentPlayer (s.timeLeft.get s.currentPlayer - 1) }) := by
  unfold tick
  have h2 : ¬ (s.timeLeft.get s.currentPlayer - 1 ≤ 0) := by omega
  rw [decrement_exact _ (by omega) hmax]
  simp [hactive, hpaused, hover, TimeLeft.get_set_same, h2]

theorem ticks_before_timeout (d : Nat) (s : Game) (hactive : s.timerActive = true)
    (hpaused : s.timerPaused = false) (hover : s.gameOver = false)
    (htime : s.timeLeft.get s.currentPlayer = d) (hmax : d ≤ 9007199254740992)
    (k : Nat) (hk : k < d) :
    ticks k s = { s with timeLeft := s.timeLeft.set s.currentPlayer ((d : Int) - k) } := by
  induction k with
  | zero =>
    show s = _
    have : s.timeLeft.set s.currentPlayer ((d : Int) - (0 : Nat)) = s.timeLeft := by
      rw [← htime]
      cases hc : s.currentPlayer <;> simp [TimeLeft.set, TimeLeft.get]
    rw [this]
  | succ k ih =>
    rw [ticks_succ, ih (by omega)]
    have hrun := tick_running
      { s with timeLeft := s.timeLeft.set s.currentPlayer ((d : Int) - k) } hactive hpaused hover
      (by simp only [TimeLeft.get_set_same]; omega)
      (by simp only [TimeLeft.get_set_same]; omega)
    rw [hrun]
    simp only [TimeLeft.get_set_same, TimeLeft.set_set]
    congr 2
    push_cast
    ring

/-- C25 (amended): with the clock running and `d` seconds for both colours,
`1 ≤ d ≤ 2 ^ 53`, after `k < d` ticks the side to move has `d - k` seconds,
the other side `d`, and the game is not over; the tick number `d` leaves the
side to move with 0 seconds, sets `gameOver`, `gameEndReason = 'timeout'`,
clears `timerActive`, and announces the other colour as winner. -/
theorem c25_clock_runs_out (d : Nat) (s : Game) (hd : 1 ≤ d) (hmax : d ≤ 9007199254740992)
    (_hseats : s.players.white.isSome = true ∧ s.players.black.isSome = true)
    (hactive : s.timerActive = true) (hpaused : s.timerPaused = false)
    (hover : s.gameOver = false) (htime : s.timeLeft = ⟨d, d⟩) :
    (∀ k, k < d →
      (ticks k s).timeLeft.get s.currentPlayer = (d : Int) - k ∧
      (ticks k s).timeLeft.get s.currentPlayer.opponent = d ∧
      (ticks k s).gameOver = false) ∧
      (ticks d s).timeLeft.get s.currentPlayer = 0 ∧
      (ticks d s).timeLeft.get s.currentPlayer.opponent = d ∧
      (ticks d s).gameOver = true ∧
      (ticks d s).gameEndReason = some .timeout ∧
      (ticks d s).timerActive = false ∧
      (tick (ticks (d - 1) s)).1 = some s.currentPlayer.opponent := by
  have hcur : s.timeLeft.get s.currentPlayer = d := by
    rw [htime]
    cases s.currentPlayer <;> rfl
  have hopp : s.timeLeft.get s.currentPlayer.opponent = d := by
    rw [htime]
    cases s.currentPlayer <;> rfl
  have hbefore := ticks_before_timeout d s hactive hpaused hover hcur hmax
  have hone : decrement 1 = 0 := by
    rw [decrement_exact 1 (by omega) (by omega)]
    rfl
  have hlast : tick (ticks (d - 1) s) =
      (some s.currentPlayer.opponent,
        { s with
          timeLeft := s.timeLeft.set s.currentPlayer 0
          gameOver := true
          gameEndReason := some .timeout
          timerActive := false }) := by
    rw [hbefore (d - 1) (by omega)]
    have h1 : ((d : Int) - ((d - 1 : Nat) : Int)) = 1 := by omega
    rw [h1]
    simp [tick, handleTimeout, stopTimer, hactive, hpaused, hover, TimeLeft.get_set_same,
      TimeLeft.set_set, hone]
  have hd' : ticks d s = (tick (ticks (d - 1) s)).2 := by
    have : d = (d - 1) + 1 := by omega
    rw [this, ticks_succ]
    simp
  refine ⟨fun k hk => ?_, ?_, ?_, ?_, ?_, ?_, ?_⟩
  · rw [hbefore k hk]
    exact ⟨TimeLeft.get_set_same _ _ _, by rw [TimeLeft.get_set_opponent]; exact hopp, hover⟩
  · rw [hd', hlast]
    exact TimeLeft.get_set_same _ _ _
  · rw [hd', hlast]
    show (s.timeLeft.set s.currentPlayer 0).get s.currentPlayer.opponent = d
    rw [TimeLeft.get_set_opponent]
    exact hopp
  · rw [hd', hlast]
  · rw [hd', hlast]
  · rw [hd', hlast]
  · rw [hlast]

/-- Witness for C25: the game after `addPlayer('w', 'White', null, 60)` and
`addPlayer('b', 'Black', null, 60)` on a new game, and 60 ticks. -/
theorem c25_clock_runs_out_witness :
    ((addPlayer (addPlayer newGame "w" "White" none 60).2 "b" "Black" none 60).2.timeLeft
        = ⟨60, 60⟩) ∧
      (ticks 60 (addPlayer (addPlayer newGame "w" "White" none 60).2 "b" "Black" none 60).2).gameEndReason
        = some .timeout :=
  ⟨by decide,
    (c25_clock_runs_out 60 (addPlayer (addPlayer newGame "w" "White" none 60).2 "b" "Black" none 60).2
      (by decide) (by decide) (by decide) (by decide) (by decide) (by decide)
      (by decide)).2.2.2.2.1⟩

/-- C27: `pauseTimer` sets `timerPaused` and changes no other field, the time
left included; a tick while `timerPaused` is set changes nothing; `resumeTimer`
clears `timerPaused` when both seats are filled and changes nothing when a seat
is empty. -/
theorem c27_pause_and_resume (s : Game) :
    pauseTimer s = { s with timerPaused := true } ∧
      (pauseTimer s).timerPaused = true ∧ (pauseTimer s).timeLeft = s.timeLeft ∧
      (s.timerPaused = true → tick s = (none, s)) ∧
      (s.players.white.isSome = true ∧ s.players.black.isSome = true →
        resumeTimer s = { s with timerPaused := false }) ∧
      (s.players.white = none ∨ s.players.black = none → resumeTimer s = s) := by
  refine ⟨rfl, rfl, rfl, ?_, ?_, ?_⟩
  · intro h
    simp [tick, h]
  · intro h
    simp [resumeTimer, h]
  · intro h
    rcases h with h | h <;> simp [resumeTimer, h]

/-- Witness for C27: a tick of the paused clock of a started game, and
`resumeTimer` with both seats filled and with the black seat empty. -/
theorem c27_pause_and_resume_witness :
    (pauseTimer startedGame).timerPaused = true ∧
      tick (pauseTimer startedGame) = (none, pauseTimer startedGame) ∧
      resumeTimer (pauseTimer startedGame) = { pauseTimer startedGame with timerPaused := false } ∧
      setupGame.players.black = none ∧ resumeTimer (pauseTimer setupGame) = pauseTimer setupGame :=
  ⟨by decide, (c27_pause_and_resume (pauseTimer startedGame)).2.2.2.1 (by decide),
    (c27_pause_and_resume (pauseTimer startedGame)).2.2.2.2.1 (by decide), by decide,
    (c27_pause_and_resume (pauseTimer setupGame)).2.2.2.2.2 (Or.inr (by decide))⟩

/-! ## Draw offers -/

/-- The cases of `handleDrawOffer(playerId)`: it fails and leaves the state
unchanged exactly when `getPlayerColor` gives no colour for `playerId`, the
game is over, an offer is already active or the seat opposite to that colour
is empty; otherwise it succeeds and only replaces `drawOffer` by an active
offer from `playerId` to the player in the opposite seat. -/
theorem handleDrawOffer_cases (s : Game) (playerId : IdValue) :
    ((handleDrawOffer s playerId).1 = false ↔
      (getPlayerColor s playerId = none ∨ s.gameOver = true ∨ s.drawOffer.active = true ∨
        ∃ c, getPlayerColor s playerId = some c ∧ s.players.get c.opponent = none)) ∧
      ((handleDrawOffer s playerId).1 = false → (handleDrawOffer s playerId).2 = s) ∧
      ((handleDrawOffer s playerId).1 = true →
        ∃ c opponent, getPlayerColor s playerId = some c ∧
          s.players.get c.opponent = some opponent ∧
          (handleDrawOffer s playerId).2 =
            { s with drawOffer := ⟨true, some playerId, some opponent.id⟩ }) := by
  unfold handleDrawOffer
  cases hc : getPlayerColor s playerId with
  | none => simp
  | some c =>
    simp only
    by_cases hover : s.gameOver = true
    · simp [hover]
    · by_cases hact : s.drawOffer.active = true
      · simp [hover, hact]
      · cases hopp : s.players.get c.opponent with
        | none => simp [hover, hact, hopp]
        | some opponent => simp [hover, hact, hopp]

/-- C29: in a started game that White has left, with Black seated and no offer
active, `handleDrawOffer` called without `playerId`, which is not a seated
player, returns success and stores an active offer to Black whose `offeredBy`
is `undefined`. -/
theorem c29_missing_id_offers_draw_for_empty_seat :
    (removePlayer startedGame "w").2.players.white = none ∧
      (removePlayer startedGame "w").2.gameOver = false ∧
      (removePlayer startedGame "w").2.drawOffer.active = false ∧
      getPlayerColor (removePlayer startedGame "w").2 .undefined = some .white ∧
      (handleDrawOffer (removePlayer startedGame "w").2 .undefined).1 = true ∧
      (handleDrawOffer (removePlayer startedGame "w").2 .undefined).2.drawOffer =
        ⟨true, some .undefined, some "b"⟩ := by
  decide!

/-- C30: `handleDrawResponse(playerId, accepted)` fails and leaves the state
unchanged when no offer is active or `playerId` is not `offeredTo`.  Otherwise
it succeeds and the offer is cleared; on acceptance it also sets `gameOver`,
`gameEndReason = 'draw'` and clears `timerActive`, and on refusal it changes
nothing but the offer. -/
theorem c30_handleDrawResponse (s : Game) (playerId : String) (accepted : Bool) :
    ((s.drawOffer.active = false ∨ s.drawOffer.offeredTo ≠ some playerId) →
        handleDrawResponse s playerId accepted = (false, s)) ∧
      ((s.drawOffer.active = true ∧ s.drawOffer.offeredTo = some playerId) →
        (handleDrawResponse s playerId accepted).1 = true ∧
        (handleDrawResponse s playerId accepted).2.drawOffer.active = false ∧
        (accepted = true →
          (handleDrawResponse s playerId accepted).2 =
            { s with gameOver := true, gameEndReason := some .draw, timerActive := false,
                     drawOffer := ⟨false, none, none⟩ }) ∧
        (accepted = false →
          (handleDrawResponse s playerId accepted).2 =
            { s with drawOffer := ⟨false, none, none⟩ })) := by
  constructor
  · intro h
    simp [handleDrawResponse, h]
  · rintro ⟨h1, h2⟩
    have hg : ¬ (s.drawOffer.active = false ∨ s.drawOffer.offeredTo ≠ some playerId) := by
      simp [h1, h2]
    unfold handleDrawResponse
    rw [if_neg hg]
    refine ⟨rfl, rfl, ?_, ?_⟩
    · intro ha
      subst ha
      rfl
    · intro ha
      subst ha
      rfl

/-- Witness for C30: black accepts, and black declines, the offer of white. -/
theorem c30_handleDrawResponse_witness :
    (handleDrawOffer startedGame "w").2.drawOffer.offeredTo = some "b" ∧
      (handleDrawResponse (handleDrawOffer startedGame "w").2 "b" true).2.gameEndReason
        = some .draw ∧
      (handleDrawResponse (handleDrawOffer startedGame "w").2 "b" false).2.gameOver = false ∧
      handleDrawResponse (handleDrawOffer startedGame "w").2 "w" true
        = (false, (handleDrawOffer startedGame "w").2) :=
  ⟨by decide, by decide, by decide,
    (c30_handleDrawResponse (handleDrawOffer startedGame "w").2 "w" true).1
      (Or.inr (by decide))⟩

/-! ## Shape rules of pawns and sliding pieces -/

theorem rowOk_of_mem {r : Int} (h : r ∈ idx8) : rowOk r = true := by
  have := (mem_idx8 r).1 h
  simp [rowOk, this.1, this.2]

/-- For rows on the board `isPawnMoveValid` returns a value, which is true
exactly in the three cases of the pawn rule. -/
theorem isPawnMoveValid_spec (s : Game) (piece : Piece) (fromRow fromCol toRow toCol : Int)
    (_h1 : 0 ≤ fromRow ∧ fromRow ≤ 7) (h2 : 0 ≤ toRow ∧ toRow ≤ 7) :
    ∃ v, isPawnMoveValid s piece fromRow fromCol toRow toCol = .ok v ∧
      (v = true ↔ pawnMoveSpec s piece fromRow fromCol toRow toCol) := by
  have hto : rowOk toRow = true := by simp [rowOk, h2.1, h2.2]
  obtain ⟨ty, color, hm⟩ := piece
  unfold isPawnMoveValid pawnMoveSpec
  simp only [getCell, hto, if_true]
  cases color with
  | white =>
    simp only [if_true]
    by_cases h0 : (toCol - fromCol).natAbs = 0
    · have hc : toCol = fromCol := by omega
      subst hc
      simp only [h0, if_true]
      cases ht : s.board toRow toCol with
      | some q => exact ⟨false, rfl, by simp⟩
      | none =>
        simp only
        by_cases hs : toRow - fromRow = -1
        · exact ⟨true, by simp [hs], by simp; left; omega⟩
        · by_cases hd : fromRow = 6 ∧ toRow - fromRow = 2 * -1
          · have hmid : rowOk (fromRow + -1) = true := by
              simp [rowOk]; omega
            rw [if_neg hs, if_pos hd]
            simp only [hmid, if_true]
            refine ⟨(s.board (fromRow + -1) toCol).isNone, rfl, ?_⟩
            constructor
            · intro h
              right
              left
              exact ⟨trivial, hd.1, by omega, by simpa using h, trivial⟩
            · rintro (⟨_, h, _⟩ | ⟨_, _, _, h, _⟩ | ⟨h, _⟩)
              · omega
              · simp [h]
              · omega
          · rw [if_neg hs, if_neg hd]
            refine ⟨false, rfl, ?_⟩
            constructor
            · intro h
              cases h
            · rintro (⟨_, h, _⟩ | ⟨_, h3, h4, _⟩ | ⟨h, _⟩)
              · omega
              · omega
              · omega
    · simp only [h0, if_false, false_and]
      by_cases hd : (toCol - fromCol).natAbs = 1 ∧ toRow - fromRow = -1
      · rw [if_pos hd]
        have hne : toCol ≠ fromCol := by omega
        have hrow : toRow = fromRow + -1 := by omega
        cases ht : s.board toRow toCol with
        | some q =>
          by_cases hq : q.color = .white
          · cases he : s.enPassantTarget with
            | none => exact ⟨false, by simp [hq], by simp [hne, hq]⟩
            | some e =>
              by_cases hee : e = ⟨toRow, toCol⟩
              · subst hee
                exact ⟨true, by simp [hq], by simp [hd.1, hrow]⟩
              · refine ⟨false, ?_, by simp [hne, hq, hee]⟩
                have : ¬ (e.row = toRow ∧ e.col = toCol) := by
                  rintro ⟨rfl, rfl⟩
                  exact hee rfl
                simp [hq, this]
          · exact ⟨true, by simp [hq], by simp [hd.1, hrow, hq]⟩
        | none =>
          cases he : s.enPassantTarget with
          | none => exact ⟨false, by simp, by simp [hne]⟩
          | some e =>
            by_cases hee : e = ⟨toRow, toCol⟩
            · subst hee
              exact ⟨true, by simp, by simp [hd.1, hrow]⟩
            · refine ⟨false, ?_, by simp [hne, hee]⟩
              have : ¬ (e.row = toRow ∧ e.col = toCol) := by
                rintro ⟨rfl, rfl⟩
                exact hee rfl
              simp [this]
      · rw [if_neg hd]
        refine ⟨false, rfl, ?_⟩
        have hne : toCol ≠ fromCol := by omega
        simp only [Bool.false_eq_true, hne, false_and, false_or, false_iff, not_and]
        intro h3 h4
        exact absurd ⟨h3, by omega⟩ hd
  | black =>
    simp only [reduceCtorEq, if_false]
    by_cases h0 : (toCol - fromCol).natAbs = 0
    · have hc : toCol = fromCol := by omega
      subst hc
      simp only [h0, if_true]
      cases ht : s.board toRow toCol with
      | some q => exact ⟨false, rfl, by simp⟩
      | none =>
        simp only
        by_cases hs : toRow - fromRow = 1
        · exact ⟨true, by simp [hs], by simp; left; omega⟩
        · by_cases hd : fromRow = 1 ∧ toRow - fromRow = 2 * 1
          · have hmid : rowOk (fromRow + 1) = true := by
              simp [rowOk]; omega
            rw [if_neg hs, if_pos hd]
            simp only [hmid, if_true]
            refine ⟨(s.board (fromRow + 1) toCol).isNone, rfl, ?_⟩
            constructor
            · intro h
              right
              left
              exact ⟨trivial, hd.1, by omega, by simpa using h, trivial⟩
            · rintro (⟨_, h, _⟩ | ⟨_, _, _, h, _⟩ | ⟨h, _⟩)
              · omega
              · simp [h]
              · omega
          · rw [if_neg hs, if_neg hd]
            refine ⟨false, rfl, ?_⟩
            constructor
            · intro h
              cases h
            · rintro (⟨_, h, _⟩ | ⟨_, h3, h4, _⟩ | ⟨h, _⟩)
              · omega
              · omega
              · omega
    · simp only [h0, if_false, false_and]
      by_cases hd : (toCol - fromCol).natAbs = 1 ∧ toRow - fromRow = 1
      · rw [if_pos hd]
        have hne : toCol ≠ fromCol := by omega
        have hrow : toRow = fromRow + 1 := by omega
        cases ht : s.board toRow toCol with
        | some q =>
          by_cases hq : q.color = .black
          · cases he : s.enPassantTarget with
            | none => exact ⟨false, by simp [hq], by simp [hne, hq]⟩
            | some e =>
              by_cases hee : e = ⟨toRow, toCol⟩
              · subst hee
                exact ⟨true, by simp [hq], by simp [hd.1, hrow]⟩
              · refine ⟨false, ?_, by simp [hne, hq, hee]⟩
                have : ¬ (e.row = toRow ∧ e.col = toCol) := by
                  rintro ⟨rfl, rfl⟩
                  exact hee rfl
                simp [hq, this]
          · exact ⟨true, by simp [hq], by simp [hd.1, hrow, hq]⟩
        | none =>
          cases he : s.enPassantTarget with
          | none => exact ⟨false, by simp, by simp [hne]⟩
          | some e =>
            by_cases hee : e = ⟨toRow, toCol⟩
            · subst hee
              exact ⟨true, by simp, by simp [hd.1, hrow]⟩
            · refine ⟨false, ?_, by simp [hne, hee]⟩
              have : ¬ (e.row = toRow ∧ e.col = toCol) := by
                rintro ⟨rfl, rfl⟩
                exact hee rfl
              simp [this]
      · rw [if_neg hd]
        refine ⟨false, rfl, ?_⟩
        have hne : toCol ≠ fromCol := by omega
        simp only [Bool.false_eq_true, hne, false_and, false_or, false_iff, not_and]
        intro h3 h4
        exact absurd ⟨h3, by omega⟩ hd

/-- C21: for in-bounds squares `isPawnMoveValid` returns a value, and the value
is true exactly in the three cases of the pawn rule: one step forward onto an
empty square, two steps forward from the home rank over an empty square onto an
empty square, or one step forward into an adjacent column onto an enemy piece
or the en-passant target. -/
theorem c21_isPawnMoveValid_iff (s : Game) (piece : Piece) (fromRow fromCol toRow toCol : Int)
    (hfr : fromRow ∈ idx8) (_hfc : fromCol ∈ idx8) (htr : toRow ∈ idx8) (_htc : toCol ∈ idx8)
    (_hne : ¬ (fromRow = toRow ∧ fromCol = toCol)) :
    ∃ v, isPawnMoveValid s piece fromRow fromCol toRow toCol = .ok v ∧
      (v = true ↔ pawnMoveSpec s piece fromRow fromCol toRow toCol) :=
  isPawnMoveValid_spec s piece fromRow fromCol toRow toCol ((mem_idx8 fromRow).1 hfr)
    ((mem_idx8 toRow).1 htr)

/-- Witness for C21: the white pawn e2 and the square e4 in the initial
position. -/
theorem c21_isPawnMoveValid_iff_witness :
    ∃ v, isPawnMoveValid startedGame ⟨.pawn, .white, false⟩ 6 4 4 4 = .ok v ∧
      (v = true ↔ pawnMoveSpec startedGame ⟨.pawn, .white, false⟩ 6 4 4 4) :=
  c21_isPawnMoveValid_iff startedGame ⟨.pawn, .white, false⟩ 6 4 4 4 (by decide) (by decide)
    (by decide) (by decide) (by decide)

/-- The loop of `isPathClear`, started `m` steps before the target with at
least `m` iterations allowed and all visited rows on the board, returns, and
returns true exactly when the `m` visited squares are empty. -/
theorem isPathClearLoop_steps (b : Board) (toRow toCol rowDir colDir : Int)
    (hdir : rowDir ≠ 0 ∨ colDir ≠ 0) (m : Nat) :
    ∀ (n : Nat) (row col : Int), m ≤ n → toRow = row + m * rowDir → toCol = col + m * colDir →
      (∀ j : Nat, j < m → rowOk (row + j * rowDir) = true) →
      ∃ v, isPathClearLoop b toRow toCol rowDir colDir n row col = .ok v ∧
        (v = true ↔ ∀ j : Nat, j < m → b (row + j * rowDir) (col + j * colDir) = none) := by
  induction m with
  | zero =>
    intro n row col _ hr hc _
    have hr' : row = toRow := by simpa using hr.symm
    have hc' : col = toCol := by simpa using hc.symm
    refine ⟨true, ?_, by simp⟩
    cases n <;> simp [isPathClearLoop, hr', hc']
  | succ m ih =>
    intro n row col hn hr hc hok
    obtain ⟨n', rfl⟩ : ∃ n', n = n' + 1 := ⟨n - 1, by omega⟩
    have hcond : row ≠ toRow ∨ col ≠ toCol := by
      rcases hdir with h | h
      · left
        intro e
        have h0 : ((m + 1 : Nat) : Int) * rowDir = 0 := by
          rw [e] at hr
          linarith
        rcases mul_eq_zero.1 h0 with h1 | h1
        · omega
        · exact h h1
      · right
        intro e
        have h0 : ((m + 1 : Nat) : Int) * colDir = 0 := by
          rw [e] at hc
          linarith
        rcases mul_eq_zero.1 h0 with h1 | h1
        · omega
        · exact h h1
    have hrow0 : rowOk row = true := by
      have := hok 0 (by omega)
      simpa using this
    unfold isPathClearLoop
    rw [if_pos hcond]
    simp only [getCell, hrow0, if_true]
    cases hcell : b row col with
    | some q =>
      refine ⟨false, rfl, ?_⟩
      constructor
      · intro h
        cases h
      · intro h
        have := h 0 (by omega)
        simp [hcell] at this
    | none =>
      obtain ⟨v, hv, hiff⟩ := ih n' (row + rowDir) (col + colDir) (by omega)
        (by rw [hr]; push_cast; ring) (by rw [hc]; push_cast; ring)
        (fun j hj => by
          have := hok (j + 1) (by omega)
          rw [← this]
          congr 1
          push_cast
          ring)
      refine ⟨v, hv, ?_⟩
      rw [hiff]
      constructor
      · intro h j hj
        cases j with
        | zero => simpa using hcell
        | succ j =>
          have := h j (by omega)
          rw [← this]
          congr 1 <;> (push_cast; ring)
      · intro h j hj
        have := h (j + 1) (by omega)
        rw [← this]
        congr 1 <;> (push_cast; ring)

/-- On the geometry of a sliding move between in-bounds squares,
`isPathClear` returns, and returns true exactly when every square strictly
between the two squares is empty. -/
theorem isPathClear_iff (b : Board) (fromRow fromCol toRow toCol : Int)
    (hfr : fromRow ∈ idx8) (htr : toRow ∈ idx8)
    (hgeo : toRow = fromRow ∨ toCol = fromCol ∨
      (toRow - fromRow).natAbs = (toCol - fromCol).natAbs) :
    ∃ v, isPathClear b fromRow fromCol toRow toCol = .ok v ∧
      (v = true ↔ ∀ sq ∈ squaresBetween fromRow fromCol toRow toCol, b sq.1 sq.2 = none) := by
  have h1 := (mem_idx8 fromRow).1 hfr
  have h2 := (mem_idx8 toRow).1 htr
  by_cases hsame : toRow = fromRow ∧ toCol = fromCol
  · obtain ⟨rfl, rfl⟩ := hsame
    refine ⟨true, ?_, ?_⟩
    · simp [isPathClear, dirOf, isPathClearLoop]
    · simp [squaresBetween]
  · have hdir : dirOf toRow fromRow ≠ 0 ∨ dirOf toCol fromCol ≠ 0 := by
      unfold dirOf
      by_cases hr : toRow = fromRow
      · right
        have : toCol ≠ fromCol := fun h => hsame ⟨hr, h⟩
        split_ifs <;> omega
      · left
        split_ifs <;> omega
    have hmr : toRow - fromRow =
        (max (toRow - fromRow).natAbs (toCol - fromCol).natAbs : Nat) * dirOf toRow fromRow := by
      unfold dirOf
      split_ifs <;> omega
    have hmc : toCol - fromCol =
        (max (toRow - fromRow).natAbs (toCol - fromCol).natAbs : Nat) * dirOf toCol fromCol := by
      unfold dirOf
      split_ifs <;> omega
    have hpos : 1 ≤ max (toRow - fromRow).natAbs (toCol - fromCol).natAbs := by omega
    generalize hD : max (toRow - fromRow).natAbs (toCol - fromCol).natAbs = D at hmr hmc hpos
    have hrd : dirOf toRow fromRow = -1 ∨ dirOf toRow fromRow = 0 ∨ dirOf toRow fromRow = 1 := by
      unfold dirOf
      split_ifs <;> simp
    obtain ⟨v, hv, hiff⟩ := isPathClearLoop_steps b toRow toCol (dirOf toRow fromRow)
      (dirOf toCol fromCol) hdir (D - 1)
      ((toRow - fromRow).natAbs + (toCol - fromCol).natAbs + 9)
      (fromRow + dirOf toRow fromRow) (fromCol + dirOf toCol fromCol) (by omega)
      (by
        have : ((D - 1 : Nat) : Int) = (D : Int) - 1 := by omega
        rw [this]
        linarith)
      (by
        have : ((D - 1 : Nat) : Int) = (D : Int) - 1 := by omega
        rw [this]
        linarith)
      (fun j hj => by
        have hj' : (j : Int) + 1 < D := by omega
        simp only [rowOk, Bool.and_eq_true, decide_eq_true_eq]
        rcases hrd with h | h | h <;> rw [h] at hmr ⊢ <;> constructor <;> nlinarith)
    refine ⟨v, hv, ?_⟩
    rw [hiff]
    unfold squaresBetween
    rw [hD]
    constructor
    · intro h sq hsq
      obtain ⟨j, hj, rfl⟩ := List.mem_map.1 hsq
      have := h j (List.mem_range.1 hj)
      rw [← this]
      congr 1 <;> ring
    · intro h j hj
      have := h (fromRow + ((j : Int) + 1) * dirOf toRow fromRow,
        fromCol + ((j : Int) + 1) * dirOf toCol fromCol)
        (List.mem_map.2 ⟨j, List.mem_range.2 hj, rfl⟩)
      rw [← this]
      congr 1 <;> ring

/-- C22: for in-bounds distinct squares `isPieceMovementValid` of a rook,
bishop or queen returns a value, which is true exactly when the move is along a
row or column (rook), along a diagonal (bishop) or either (queen) and every
square strictly between the two squares is empty; on such geometry the loop of
`isPathClear` terminates and its result is decided by exactly those squares. -/
theorem c22_slider_move_iff (fuel : Nat) (s : Game) (piece : Piece)
    (fromRow fromCol toRow toCol : Int)
    (hfr : fromRow ∈ idx8) (_hfc : fromCol ∈ idx8) (htr : toRow ∈ idx8) (_htc : toCol ∈ idx8)
    (_hne : ¬ (fromRow = toRow ∧ fromCol = toCol))
    (ht : piece.type = .rook ∨ piece.type = .bishop ∨ piece.type = .queen) :
    (∃ v, isPieceMovementValid (fuel + 1) s piece fromRow fromCol toRow toCol = .ok v ∧
      (v = true ↔ sliderGeometry piece.type fromRow fromCol toRow toCol ∧
        ∀ sq ∈ squaresBetween fromRow fromCol toRow toCol, s.board sq.1 sq.2 = none)) ∧
    (sliderGeometry piece.type fromRow fromCol toRow toCol →
      ∃ w, isPathClear s.board fromRow fromCol toRow toCol = .ok w ∧
        (w = true ↔
          ∀ sq ∈ squaresBetween fromRow fromCol toRow toCol, s.board sq.1 sq.2 = none)) := by
  obtain ⟨ty, color, hm⟩ := piece
  simp only at ht
  unfold isPieceMovementValid
  rcases ht with rfl | rfl | rfl
  · simp only [sliderGeometry]
    constructor
    · by_cases hg : (toRow - fromRow).natAbs = 0 ∨ (toCol - fromCol).natAbs = 0
      · have hg' : toRow = fromRow ∨ toCol = fromCol := by omega
        obtain ⟨v, hv, hiff⟩ := isPathClear_iff s.board fromRow fromCol toRow toCol hfr htr
          (by omega)
        exact ⟨v, by rw [if_pos hg]; exact hv, by rw [hiff]; simp [hg']⟩
      · have hg' : ¬ (toRow = fromRow ∨ toCol = fromCol) := by omega
        exact ⟨false, by rw [if_neg hg], by simp [hg']⟩
    · intro hg
      exact isPathClear_iff s.board fromRow fromCol toRow toCol hfr htr (by omega)
  · simp only [sliderGeometry]
    constructor
    · by_cases hg : (toRow - fromRow).natAbs = (toCol - fromCol).natAbs
      · obtain ⟨v, hv, hiff⟩ := isPathClear_iff s.board fromRow fromCol toRow toCol hfr htr
          (Or.inr (Or.inr hg))
        exact ⟨v, by rw [if_pos hg]; exact hv, by rw [hiff]; simp [hg]⟩
      · exact ⟨false, by rw [if_neg hg], by simp [hg]⟩
    · intro hg
      exact isPathClear_iff s.board fromRow fromCol toRow toCol hfr htr (Or.inr (Or.inr hg))
  · simp only [sliderGeometry]
    constructor
    · by_cases hg : (toRow - fromRow).natAbs = 0 ∨ (toCol - fromCol).natAbs = 0 ∨
          (toRow - fromRow).natAbs = (toCol - fromCol).natAbs
      · have hg' : toRow = fromRow ∨ toCol = fromCol ∨
            (toRow - fromRow).natAbs = (toCol - fromCol).natAbs := by omega
        obtain ⟨v, hv, hiff⟩ := isPathClear_iff s.board fromRow fromCol toRow toCol hfr htr hg'
        exact ⟨v, by rw [if_pos hg]; exact hv, by rw [hiff]; simp [hg']⟩
      · have hg' : ¬ (toRow = fromRow ∨ toCol = fromCol ∨
            (toRow - fromRow).natAbs = (toCol - fromCol).natAbs) := by omega
        exact ⟨false, by rw [if_neg hg], by simp [hg']⟩
    · intro hg
      exact isPathClear_iff s.board fromRow fromCol toRow toCol hfr htr hg

/-- Witness for C22: the white rook a1 and the square a4 in the initial
position. -/
theorem c22_slider_move_iff_witness :
    (∃ v, isPieceMovementValid 1 startedGame ⟨.rook, .white, false⟩ 7 0 4 0 = .ok v ∧
      (v = true ↔ sliderGeometry .rook 7 0 4 0 ∧
        ∀ sq ∈ squaresBetween 7 0 4 0, startedGame.board sq.1 sq.2 = none)) ∧
    (sliderGeometry .rook 7 0 4 0 →
      ∃ w, isPathClear startedGame.board 7 0 4 0 = .ok w ∧
        (w = true ↔ ∀ sq ∈ squaresBetween 7 0 4 0, startedGame.board sq.1 sq.2 = none)) :=
  c22_slider_move_iff 0 startedGame ⟨.rook, .white, false⟩ 7 0 4 0 (by decide) (by decide)
    (by decide) (by decide) (by decide) (Or.inl rfl)

/-! ## Accepted moves -/

theorem rowOk_iff (r : Int) : rowOk r = true ↔ 0 ≤ r ∧ r ≤ 7 := by
  simp [rowOk]

/-- What an accepting call of `isValidMove` has established. -/
theorem isValidMove_accept_inv (fuel : Nat) (s : Game) (fromRow fromCol toRow toCol : Int)
    (playerId : IdValue)
    (h : isValidMove fuel s fromRow fromCol toRow toCol playerId = .ok true) :
    ∃ piece, rowOk fromRow = true ∧ rowOk toRow = true ∧
      s.board fromRow fromCol = some piece ∧ piece.color = s.currentPlayer ∧
      (s.board toRow toCol).map (·.color) ≠ some piece.color ∧
      isPieceMovementValid fuel s piece fromRow fromCol toRow toCol = .ok true ∧
      wouldMoveResultInCheck fuel s fromRow fromCol toRow toCol = .ok false := by
  unfold isValidMove at h
  simp only at h
  by_cases hg : getPlayerColor s playerId ≠ some s.currentPlayer ∨ s.gameOver = true
  · rw [if_pos hg] at h
    cases h
  · rw [if_neg hg] at h
    have hpc : getPlayerColor s playerId = some s.currentPlayer := by
      by_contra hne
      exact hg (Or.inl hne)
    unfold getCell at h
    by_cases hfr : rowOk fromRow = true
    · simp only [hfr, if_true] at h
      cases hp : s.board fromRow fromCol with
      | none => simp [hp] at h
      | some piece =>
        simp only [hp] at h
        by_cases hc : some piece.color ≠ getPlayerColor s playerId
        · rw [if_pos hc] at h
          cases h
        · rw [if_neg hc] at h
          have hcol : piece.color = s.currentPlayer := by
            rw [hpc] at hc
            simpa using hc
          by_cases htr : rowOk toRow = true
          · simp only [htr, if_true] at h
            by_cases ht : (s.board toRow toCol).map (·.color) = some piece.color
            · rw [if_pos ht] at h
              cases h
            · rw [if_neg ht] at h
              cases hm : isPieceMovementValid fuel s piece fromRow fromCol toRow toCol with
              | error e => simp [hm] at h
              | ok v =>
                cases v with
                | false => simp [hm] at h
                | true =>
                  simp only [hm] at h
                  cases hw : wouldMoveResultInCheck fuel s fromRow fromCol toRow toCol with
                  | error e => simp [hw] at h
                  | ok w =>
                    cases w with
                    | true => simp [hw] at h
                    | false => exact ⟨piece, hfr, htr, rfl, hcol, ht, hm, rfl⟩
          · simp [htr] at h
    · simp [hfr] at h

/-- An accepted move has two different squares. -/
theorem accept_ne (s : Game) (piece : Piece) (fromRow fromCol toRow toCol : Int)
    (hp : s.board fromRow fromCol = some piece)
    (ht : (s.board toRow toCol).map (·.color) ≠ some piece.color) :
    ¬ (fromRow = toRow ∧ fromCol = toCol) := by
  rintro ⟨rfl, rfl⟩
  rw [hp] at ht
  exact ht rfl

/-- A pawn move that passes `isPieceMovementValid` between rows of the board
satisfies the pawn rule. -/
theorem pawn_accept_inv (fuel : Nat) (s : Game) (piece : Piece)
    (fromRow fromCol toRow toCol : Int) (hty : piece.type = .pawn)
    (hfr : rowOk fromRow = true) (htr : rowOk toRow = true)
    (h : isPieceMovementValid fuel s piece fromRow fromCol toRow toCol = .ok true) :
    pawnMoveSpec s piece fromRow fromCol toRow toCol := by
  cases fuel with
  | zero => simp [isPieceMovementValid] at h
  | succ n =>
    obtain ⟨ty, color, hm⟩ := piece
    simp only at hty
    subst hty
    simp only [isPieceMovementValid] at h
    obtain ⟨v, hv, hiff⟩ := isPawnMoveValid_spec s ⟨.pawn, color, hm⟩ fromRow fromCol toRow toCol
      ((rowOk_iff _).1 hfr) ((rowOk_iff _).1 htr)
    rw [h] at hv
    cases hv
    exact hiff.1 rfl

/-- Two iterations of the castling loop that end in `true` found both visited
squares empty. -/
theorem castlingLoop_two_inv (pmv : MoveTest) (b : Board) (color : Color)
    (fromRow toCol step col : Int) (hne1 : col ≠ toCol + step) (hne2 : col + step ≠ toCol + step)
    (h : castlingLoopWith pmv b color fromRow toCol step 2 col = .ok true) :
    b fromRow col = none ∧ b fromRow (col + step) = none := by
  unfold castlingLoopWith at h
  rw [if_pos hne1] at h
  cases hb1 : b fromRow col with
  | some q =>
    rw [hb1] at h
    simp at h
  | none =>
    rw [hb1] at h
    simp only [Option.isSome_none, Bool.false_eq_true, if_false] at h
    cases hw1 : wouldKingBeInCheckWith pmv b color fromRow col with
    | error e =>
      rw [hw1] at h
      cases h
    | ok w1 =>
      rw [hw1] at h
      cases w1 with
      | true => cases h
      | false =>
        simp only at h
        unfold castlingLoopWith at h
        rw [if_pos hne2] at h
        cases hb2 : b fromRow (col + step) with
        | some q =>
          rw [hb2] at h
          simp at h
        | none => exact ⟨rfl, rfl⟩

/-- What a successful `isCastlingValid` has established about the board. -/
theorem isCastlingValidWith_inv (pmv : MoveTest) (s : Game) (piece : Piece)
    (fromRow fromCol toRow toCol : Int)
    (h : isCastlingValidWith pmv s piece fromRow fromCol toRow toCol = .ok true) :
    rowOk fromRow = true ∧
      (∃ rook, s.board fromRow (if toCol > fromCol then 7 else 0) = some rook) ∧
      castlingLoopWith pmv s.board piece.color fromRow toCol (if toCol > fromCol then 1 else -1)
        (toCol - fromCol).natAbs (fromCol + if toCol > fromCol then 1 else -1) = .ok true := by
  unfold isCastlingValidWith at h
  simp only [getCell, decide_eq_true_eq] at h
  by_cases hfr : rowOk fromRow = true
  · rw [if_pos hfr] at h
    refine ⟨hfr, ?_⟩
    cases hr : s.board fromRow (if toCol > fromCol then 7 else 0) with
    | none =>
      rw [hr] at h
      cases h
    | some rook =>
      rw [hr] at h
      refine ⟨⟨rook, rfl⟩, ?_⟩
      simp only at h
      by_cases c1 : rook.type ≠ .rook ∨ rook.hasMoved = true
      · rw [if_pos c1] at h
        cases h
      · rw [if_neg c1] at h
        by_cases c2 : toCol > fromCol ∧ (s.castlingRights.get piece.color).kingside = false
        · rw [if_pos c2] at h
          cases h
        · rw [if_neg c2] at h
          by_cases c3 : decide (toCol > fromCol) = false ∧
              (s.castlingRights.get piece.color).queenside = false
          · rw [if_pos c3] at h
            cases h
          · rw [if_neg c3] at h
            cases hk : isKingInCheckWith pmv s.board piece.color with
            | error e =>
              rw [hk] at h
              cases h
            | ok w =>
              rw [hk] at h
              cases w with
              | true => cases h
              | false => exact h
  · rw [if_neg hfr] at h
    cases h

/-- A two-column king move that passes `isPieceMovementValid` stays on its row,
is made by an unmoved king, finds a piece on the rook's corner of that row and
finds the square it crosses and the square it lands on empty. -/
theorem castle_accept_inv (fuel : Nat) (s : Game) (piece : Piece)
    (fromRow fromCol toRow toCol : Int) (hty : piece.type = .king)
    (h2 : (toCol - fromCol).natAbs = 2)
    (h : isPieceMovementValid fuel s piece fromRow fromCol toRow toCol = .ok true) :
    toRow = fromRow ∧ piece.hasMoved = false ∧ rowOk fromRow = true ∧
      (∃ rook, s.board fromRow (if toCol > fromCol then 7 else 0) = some rook) ∧
      s.board fromRow (fromCol + if toCol > fromCol then 1 else -1) = none ∧
      s.board fromRow toCol = none := by
  cases fuel with
  | zero => simp [isPieceMovementValid] at h
  | succ n =>
    obtain ⟨ty, color, hm⟩ := piece
    simp only at hty
    subst hty
    simp only [isPieceMovementValid, isKingMoveValidWith] at h
    have hnot : ¬ ((toRow - fromRow).natAbs ≤ 1 ∧ (toCol - fromCol).natAbs ≤ 1) := by omega
    rw [if_neg hnot] at h
    by_cases hc : (toRow - fromRow).natAbs = 0 ∧ (toCol - fromCol).natAbs = 2 ∧ hm = false
    · rw [if_pos hc] at h
      have hrow : toRow = fromRow := by omega
      obtain ⟨hfr, hrook, hloop⟩ := isCastlingValidWith_inv _ _ _ _ _ _ _ h
      rw [h2] at hloop
      have hl := castlingLoop_two_inv _ _ _ _ _ _ _
        (by split_ifs <;> omega) (by split_ifs <;> omega) hloop
      refine ⟨hrow, hc.2.2, hfr, hrook, hl.1, ?_⟩
      have : fromCol + (if toCol > fromCol then (1 : Int) else -1) +
          (if toCol > fromCol then (1 : Int) else -1) = toCol := by
        split_ifs <;> omega
      rw [← this]
      exact hl.2
    · rw [if_neg hc] at h
      cases h

/-! ## The state after an accepted move -/

/-- The board after the two assignments that move the piece. -/
theorem makeMove_plain (s : Game) (fromRow fromCol toRow toCol : Int)
    (promotionPiece : Option PieceType) (piece : Piece)
    (hfr : rowOk fromRow = true) (htr : rowOk toRow = true)
    (hp : s.board fromRow fromCol = some piece) (hty : piece.type ≠ .pawn)
    (hnc : ¬ (piece.type = .king ∧ (toCol - fromCol).natAbs = 2))
    (hne : ¬ (fromRow = toRow ∧ fromCol = toCol)) :
    ∃ r s', makeMove s fromRow fromCol toRow toCol promotionPiece = .ok (r, s') ∧
      s'.board = setCell (setCell s.board toRow toCol (some { piece with hasMoved := true }))
        fromRow fromCol none ∧
      s'.capturedPieces = (match s.board toRow toCol with
        | some q => s.capturedPieces.push q.color q
        | none => s.capturedPieces) ∧
      s'.enPassantTarget = none ∧
      s'.castlingRights = updateCastlingRights s.castlingRights
        (setCell (setCell s.board toRow toCol (some { piece with hasMoved := true }))
          fromRow fromCol none) piece fromRow fromCol toRow toCol ∧
      s'.currentPlayer = s.currentPlayer.opponent ∧
      r.promotion = promotionPiece ∧ r.enPassantCapture = none ∧ r.castling = none := by
  have hc : (decide (piece.type = .king) && decide ((toCol - fromCol).natAbs = 2)) = false := by
    simpa using hnc
  simp only [makeMove, getCell, hfr, htr, hp, if_true, hty, decide_False, Bool.false_and,
    hc, Bool.false_eq_true, if_false, false_and, hne]
  refine ⟨_, _, rfl, ?_, ?_, rfl, ?_, rfl, rfl, rfl, rfl⟩
  · simp
  · cases s.board toRow toCol <;> simp
  · simp

theorem enPassantTarget_eq_iff (s : Game) (toRow toCol : Int) :
    (s.enPassantTarget.map (·.row) = some toRow ∧ s.enPassantTarget.map (·.col) = some toCol) ↔
      s.enPassantTarget = some ⟨toRow, toCol⟩ := by
  cases h : s.enPassantTarget with
  | none => simp
  | some e =>
    obtain ⟨r, c⟩ := e
    simp

/-- The state after `makeMove` for a castling move whose destination is empty
and whose corner square holds a piece. -/
theorem makeMove_castle (s : Game) (fromRow fromCol toCol : Int)
    (promotionPiece : Option PieceType) (piece rook : Piece)
    (hfr : rowOk fromRow = true) (hp : s.board fromRow fromCol = some piece)
    (hty : piece.type = .king) (h2 : (toCol - fromCol).natAbs = 2)
    (hrook : s.board fromRow (if toCol > fromCol then 7 else 0) = some rook)
    (hto : s.board fromRow toCol = none) :
    ∃ r s', makeMove s fromRow fromCol fromRow toCol promotionPiece = .ok (r, s') ∧
      s'.board = setCell (setCell (setCell (setCell s.board
          fromRow (if toCol > fromCol then 5 else 3) (some { rook with hasMoved := true }))
          fromRow (if toCol > fromCol then 7 else 0) none)
          fromRow toCol (some { piece with hasMoved := true }))
          fromRow fromCol none ∧
      s'.capturedPieces = s.capturedPieces ∧
      s'.enPassantTarget = none ∧
      s'.currentPlayer = s.currentPlayer.opponent ∧
      r.promotion = promotionPiece ∧ r.enPassantCapture = none := by
  have hne : ¬ (fromCol = toCol) := by omega
  simp only [makeMove, getCell, hfr, hp, hto, if_true, hty, h2, reduceCtorEq, decide_False,
    decide_True, Bool.false_and, Bool.and_self, Bool.false_eq_true, if_false, hne, and_false,
    Option.isSome_none, decide_eq_true_eq, hrook]
  refine ⟨_, _, rfl, ?_, ?_, ?_, rfl, ?_, ?_⟩ <;> simp

/-- The state after `makeMove` for a pawn move between two different squares of
the board, when the row behind the destination is on the board. -/
theorem makeMove_pawn (s : Game) (fromRow fromCol toRow toCol : Int)
    (promotionPiece : Option PieceType) (piece : Piece)
    (hfr : rowOk fromRow = true) (htr : rowOk toRow = true)
    (hp : s.board fromRow fromCol = some piece) (hty : piece.type = .pawn)
    (hne : ¬ (fromRow = toRow ∧ fromCol = toCol))
    (hcpr : rowOk (if piece.color = .white then toRow + 1 else toRow - 1) = true) :
    ∃ r s', makeMove s fromRow fromCol toRow toCol promotionPiece = .ok (r, s') ∧
      s'.board = (
        let capturedPawnRow : Int := if piece.color = .white then toRow + 1 else toRow - 1
        let capturedPawn : Option Piece :=
          if s.enPassantTarget = some ⟨toRow, toCol⟩ then s.board capturedPawnRow toCol else none
        let board1 : Board :=
          if capturedPawn.isSome then setCell s.board capturedPawnRow toCol none else s.board
        let board3 : Board :=
          setCell (setCell board1 toRow toCol (some { piece with hasMoved := true }))
            fromRow fromCol none
        if isPromotionRank toRow piece.color = true then
          setCell board3 toRow toCol
            (some ⟨promotionPiece.getD .queen, piece.color, true⟩)
        else board3) ∧
      s'.capturedPieces = (
        let capturedPawnRow : Int := if piece.color = .white then toRow + 1 else toRow - 1
        let capturedPawn : Option Piece :=
          if s.enPassantTarget = some ⟨toRow, toCol⟩ then s.board capturedPawnRow toCol else none
        let finalPiece : Piece :=
          ⟨if isPromotionRank toRow piece.color = true then promotionPiece.getD .queen
            else .pawn, piece.color, true⟩
        let pushedPawn : Option Piece :=
          if capturedPawnRow = fromRow ∧ toCol = fromCol then capturedPawn.map fun _ => finalPiece
          else capturedPawn
        let captured1 : Captured :=
          match pushedPawn with
          | some q => s.capturedPieces.push q.color q
          | none => s.capturedPieces
        match s.board toRow toCol with
        | some q => captured1.push q.color q
        | none => captured1) ∧
      s'.enPassantTarget =
        (if (toRow - fromRow).natAbs = 2 then some ⟨(fromRow + toRow) / 2, fromCol⟩ else none) ∧
      s'.currentPlayer = s.currentPlayer.opponent ∧
      r.promotion = (if isPromotionRank toRow piece.color = true
        then some (promotionPiece.getD .queen) else promotionPiece) ∧
      r.enPassantCapture =
        (if s.enPassantTarget = some ⟨toRow, toCol⟩ then
          s.board (if piece.color = .white then toRow + 1 else toRow - 1) toCol
        else none) := by
  obtain ⟨ty, color, hm⟩ := piece
  simp only at hty hcpr
  subst hty
  by_cases hep : s.enPassantTarget = some ⟨toRow, toCol⟩
  · have hep' := (enPassantTarget_eq_iff s toRow toCol).2 hep
    simp only [makeMove, getCell, hfr, htr, hp, if_true, decide_True, Bool.true_and, hep'.1,
      hep'.2, Bool.and_self, hcpr, reduceCtorEq, decide_False, Bool.false_and,
      Bool.false_eq_true, if_false, hne, false_and]
    refine ⟨_, _, rfl, ?_, ?_, ?_, rfl, ?_, ?_⟩
    · by_cases hpr : isPromotionRank toRow color = true <;> simp [hpr, hne, hep]
    · by_cases hpr : isPromotionRank toRow color = true <;>
        cases s.board toRow toCol <;> simp [hpr, hep]
    · simp
    · by_cases hpr : isPromotionRank toRow color = true <;> simp [hpr]
    · by_cases hpr : isPromotionRank toRow color = true <;> simp [hpr, hep]
  · have hep' : ¬ (s.enPassantTarget.map (·.row) = some toRow ∧
        s.enPassantTarget.map (·.col) = some toCol) :=
      fun h => hep ((enPassantTarget_eq_iff s toRow toCol).1 h)
    have hd : (decide (s.enPassantTarget.map (·.row) = some toRow) &&
        decide (s.enPassantTarget.map (·.col) = some toCol)) = false := by
      simpa using hep'
    simp only [makeMove, getCell, hfr, htr, hp, if_true, decide_True, Bool.true_and, hd,
      reduceCtorEq, decide_False, Bool.false_and, Bool.false_eq_true, if_false, hne, false_and]
    refine ⟨_, _, rfl, ?_, ?_, ?_, rfl, ?_, ?_⟩
    · by_cases hpr : isPromotionRank toRow color = true <;> simp [hpr, hne, hep]
    · by_cases hpr : isPromotionRank toRow color = true <;>
        cases s.board toRow toCol <;> simp [hpr, hep]
    · simp
    · by_cases hpr : isPromotionRank toRow color = true <;> simp [hpr]
    · by_cases hpr : isPromotionRank toRow color = true <;> simp [hpr, hep]

theorem setCell_same (b : Board) (r c : Int) (v : Option Piece) : setCell b r c v r c = v := by
  simp [setCell]

theorem setCell_other (b : Board) (r c r' c' : Int) (v : Option Piece)
    (h : ¬ (r' = r ∧ c' = c)) : setCell b r c v r' c' = b r' c' := by
  simp [setCell, h]

/-- The row behind the destination of a pawn move that satisfies the pawn rule
is on the board; it is the origin row for a one-step move. -/
theorem pawn_capturedRow (s : Game) (piece : Piece) (fromRow fromCol toRow toCol : Int)
    (hfr : rowOk fromRow = true) (htr : rowOk toRow = true)
    (h : pawnMoveSpec s piece fromRow fromCol toRow toCol) :
    rowOk (if piece.color = .white then toRow + 1 else toRow - 1) = true ∧
      ((toCol - fromCol).natAbs = 1 →
        (if piece.color = .white then toRow + 1 else toRow - 1) = fromRow) := by
  have h1 := (rowOk_iff _).1 hfr
  have h2 := (rowOk_iff _).1 htr
  unfold pawnMoveSpec at h
  simp only at h
  rw [rowOk_iff]
  cases hc : piece.color <;> simp only [hc, if_true, reduceCtorEq, if_false] at h ⊢ <;>
    rcases h with ⟨h3, h4, _⟩ | ⟨h3, h4, h5, _⟩ | ⟨h3, h4, _⟩ <;>
    refine ⟨by omega, fun _ => by omega⟩

/-- C15: after `makeMove` has applied an accepted move, `enPassantTarget` is
the square between origin and destination if the moved piece is a pawn that
advanced two rows, and `null` otherwise. -/
theorem c15_enPassantTarget_after_move (fuel : Nat) (s : Game)
    (fromRow fromCol toRow toCol : Int) (playerId : IdValue)
    (promotionPiece : Option PieceType) (piece : Piece)
    (h : isValidMove fuel s fromRow fromCol toRow toCol playerId = .ok true)
    (hp : s.board fromRow fromCol = some piece) :
    ∃ r s', makeMove s fromRow fromCol toRow toCol promotionPiece = .ok (r, s') ∧
      s'.enPassantTarget =
        if piece.type = .pawn ∧ (toRow - fromRow).natAbs = 2 then
          some ⟨(fromRow + toRow) / 2, fromCol⟩
        else none := by
  obtain ⟨piece', hfr, htr, hp', _, ht, hmv, _⟩ := isValidMove_accept_inv _ _ _ _ _ _ _ h
  rw [hp] at hp'
  cases hp'
  have hne := accept_ne s piece fromRow fromCol toRow toCol hp ht
  by_cases hty : piece.type = .pawn
  · have hspec := pawn_accept_inv _ _ _ _ _ _ _ hty hfr htr hmv
    obtain ⟨r, s', hmk, _, _, hept, _⟩ := makeMove_pawn s fromRow fromCol toRow toCol
      promotionPiece piece hfr htr hp hty hne (pawn_capturedRow s piece _ _ _ _ hfr htr hspec).1
    exact ⟨r, s', hmk, by rw [hept]; simp [hty]⟩
  · by_cases hk : piece.type = .king ∧ (toCol - fromCol).natAbs = 2
    · obtain ⟨hrow, _, _, ⟨rook, hrook⟩, _, hto⟩ :=
        castle_accept_inv _ _ _ _ _ _ _ hk.1 hk.2 hmv
      subst hrow
      obtain ⟨r, s', hmk, _, _, hept, _⟩ := makeMove_castle s toRow fromCol toCol
        promotionPiece piece rook hfr hp hk.1 hk.2 hrook hto
      exact ⟨r, s', hmk, by rw [hept]; simp [hty]⟩
    · obtain ⟨r, s', hmk, _, _, hept, _⟩ := makeMove_plain s fromRow fromCol toRow toCol
        promotionPiece piece hfr htr hp hty hk hne
      exact ⟨r, s', hmk, by rw [hept]; simp [hty]⟩

/-- Witness for C15: e2-e4 in the initial position sets the target to row 5,
column 4. -/
theorem c15_enPassantTarget_after_move_witness :
    isValidMove 2 startedGame 6 4 4 4 "w" = .ok true ∧
      ∃ r s', makeMove startedGame 6 4 4 4 none = .ok (r, s') ∧
        s'.enPassantTarget =
          if (⟨.pawn, .white, false⟩ : Piece).type = .pawn ∧ ((4 : Int) - 6).natAbs = 2 then
            some ⟨(6 + 4) / 2, 4⟩
          else none :=
  ⟨by decide!, c15_enPassantTarget_after_move 2 startedGame 6 4 4 4 "w" none
    ⟨.pawn, .white, false⟩ (by decide!) (by decide!)⟩

/-- C14: for an accepted move of a pawn onto its promotion rank with no
`promotionPiece`, after `makeMove` the destination square holds a queen of the
pawn's colour and the record's `promotion` field is `'queen'`. -/
theorem c14_promotion_defaults_to_queen (fuel : Nat) (s : Game)
    (fromRow fromCol toRow toCol : Int) (playerId : IdValue) (piece : Piece)
    (h : isValidMove fuel s fromRow fromCol toRow toCol playerId = .ok true)
    (hp : s.board fromRow fromCol = some piece) (hty : piece.type = .pawn)
    (hrank : isPromotionRank toRow piece.color = true) :
    ∃ r s', makeMove s fromRow fromCol toRow toCol none = .ok (r, s') ∧
      s'.board toRow toCol = some ⟨.queen, piece.color, true⟩ ∧
      r.promotion = some .queen := by
  obtain ⟨piece', hfr, htr, hp', _, ht, hmv, _⟩ := isValidMove_accept_inv _ _ _ _ _ _ _ h
  rw [hp] at hp'
  cases hp'
  have hne := accept_ne s piece fromRow fromCol toRow toCol hp ht
  have hspec := pawn_accept_inv _ _ _ _ _ _ _ hty hfr htr hmv
  obtain ⟨r, s', hmk, hb, _, _, _, hpromo, _⟩ := makeMove_pawn s fromRow fromCol toRow toCol
    none piece hfr htr hp hty hne (pawn_capturedRow s piece _ _ _ _ hfr htr hspec).1
  refine ⟨r, s', hmk, ?_, ?_⟩
  · rw [hb]
    simp only [hrank, if_true]
    rw [setCell_same]
    rfl
  · rw [hpromo]
    simp [hrank]

/-- Witness for C14: the white pawn h7 captures on g8 with no promotion
choice. -/
theorem c14_promotion_defaults_to_queen_witness :
    isValidMove 2 (reached 2 promotionPrelude) 1 7 0 6 "w" = .ok true ∧
      ∃ r s', makeMove (reached 2 promotionPrelude) 1 7 0 6 none = .ok (r, s') ∧
        s'.board 0 6 = some ⟨.queen, (⟨.pawn, .white, true⟩ : Piece).color, true⟩ ∧
        r.promotion = some .queen :=
  ⟨by decide!, c14_promotion_defaults_to_queen 2 (reached 2 promotionPrelude) 1 7 0 6 "w"
    ⟨.pawn, .white, true⟩ (by decide!) (by decide!) rfl (by decide)⟩

/-- C16: when an accepted move takes a pawn diagonally onto `enPassantTarget`,
`makeMove` empties the square in the destination column and the origin row,
records the piece that stood there in `enPassantCapture`, appends it to the
captured list of its own colour (before the occupant of the destination, if
there is one), and leaves the capturing piece, with the mover's colour, on the
destination square (as a pawn unless the destination is on its promotion
rank). -/
theorem c16_en_passant_capture (fuel : Nat) (s : Game)
    (fromRow fromCol toRow toCol : Int) (playerId : IdValue)
    (promotionPiece : Option PieceType) (piece q : Piece)
    (h : isValidMove fuel s fromRow fromCol toRow toCol playerId = .ok true)
    (hp : s.board fromRow fromCol = some piece) (hty : piece.type = .pawn)
    (hdiag : (toCol - fromCol).natAbs = 1)
    (hep : s.enPassantTarget = some ⟨toRow, toCol⟩)
    (hq : s.board fromRow toCol = some q) :
    ∃ r s', makeMove s fromRow fromCol toRow toCol promotionPiece = .ok (r, s') ∧
      s'.board fromRow toCol = none ∧
      r.enPassantCapture = some q ∧
      s'.capturedPieces = (match s.board toRow toCol with
        | some x => (s.capturedPieces.push q.color q).push x.color x
        | none => s.capturedPieces.push q.color q) ∧
      ∃ t, s'.board toRow toCol = some ⟨t, piece.color, true⟩ ∧
        (isPromotionRank toRow piece.color = false → t = .pawn) := by
  obtain ⟨piece', hfr, htr, hp', _, ht, hmv, _⟩ := isValidMove_accept_inv _ _ _ _ _ _ _ h
  rw [hp] at hp'
  cases hp'
  have hne := accept_ne s piece fromRow fromCol toRow toCol hp ht
  have hspec := pawn_accept_inv _ _ _ _ _ _ _ hty hfr htr hmv
  obtain ⟨hcpr, hrow⟩ := pawn_capturedRow s piece _ _ _ _ hfr htr hspec
  have hrow' := hrow hdiag
  obtain ⟨r, s', hmk, hb, hcap, _, _, _, hrec⟩ := makeMove_pawn s fromRow fromCol toRow toCol
    promotionPiece piece hfr htr hp hty hne hcpr
  have hcol : toCol ≠ fromCol := by omega
  have hrne : toRow ≠ fromRow := by
    intro e
    rw [e] at hrow'
    split_ifs at hrow' <;> omega
  have h1 : ¬ (fromRow = toRow ∧ toCol = toCol) := fun e => hrne e.1.symm
  have h2 : ¬ (fromRow = fromRow ∧ toCol = fromCol) := fun e => hcol e.2
  have h3 : ¬ (toRow = fromRow ∧ toCol = fromCol) := fun e => hcol e.2
  refine ⟨r, s', hmk, ?_, ?_, ?_, ?_⟩
  · rw [hb]
    simp only [hep, if_true, hrow', hq, Option.isSome_some]
    by_cases hpr : isPromotionRank toRow piece.color = true
    · simp only [hpr, if_true]
      rw [setCell_other _ _ _ _ _ _ h1, setCell_other _ _ _ _ _ _ h2,
        setCell_other _ _ _ _ _ _ h1, setCell_same]
    · simp only [hpr, Bool.false_eq_true, if_false]
      rw [setCell_other _ _ _ _ _ _ h2, setCell_other _ _ _ _ _ _ h1, setCell_same]
  · rw [hrec]
    simp only [hep, if_true, hrow', hq]
  · rw [hcap]
    simp only [hep, if_true, hrow', hq, hcol, and_false, if_false]
  · rw [hb]
    simp only [hep, if_true, hrow', hq, Option.isSome_some]
    by_cases hpr : isPromotionRank toRow piece.color = true
    · simp only [hpr, if_true]
      rw [setCell_same]
      exact ⟨_, rfl, by simp⟩
    · simp only [hpr, Bool.false_eq_true, if_false]
      rw [setCell_other _ _ _ _ _ _ h3, setCell_same]
      refine ⟨piece.type, rfl, fun _ => hty⟩

/-- Witness for C16: the capture g5xf6 en passant after 7... f5. -/
theorem c16_en_passant_capture_witness :
    isValidMove 2 (reached 2 enPassantPrelude) 3 6 2 5 "w" = .ok true ∧
      ∃ r s', makeMove (reached 2 enPassantPrelude) 3 6 2 5 none = .ok (r, s') ∧
        s'.board 3 5 = none ∧
        r.enPassantCapture = some ⟨.pawn, .black, true⟩ ∧
        s'.capturedPieces = (match (reached 2 enPassantPrelude).board 2 5 with
          | some x => ((reached 2 enPassantPrelude).capturedPieces.push
              (⟨.pawn, .black, true⟩ : Piece).color ⟨.pawn, .black, true⟩).push x.color x
          | none => (reached 2 enPassantPrelude).capturedPieces.push
              (⟨.pawn, .black, true⟩ : Piece).color ⟨.pawn, .black, true⟩) ∧
        ∃ t, s'.board 2 5 = some ⟨t, (⟨.pawn, .white, true⟩ : Piece).color, true⟩ ∧
          (isPromotionRank 2 (⟨.pawn, .white, true⟩ : Piece).color = false → t = .pawn) :=
  ⟨by decide!, c16_en_passant_capture 2 (reached 2 enPassantPrelude) 3 6 2 5 "w" none
    ⟨.pawn, .white, true⟩ ⟨.pawn, .black, true⟩ (by decide!) (by decide!) rfl (by decide)
    (by decide!) (by decide!)⟩

/-! ## Piece counts -/

theorem mem_squares64 (r c : Int) (hr : r ∈ idx8) (hc : c ∈ idx8) : (r, c) ∈ squares64 := by
  unfold squares64
  rw [List.mem_flatMap]
  exact ⟨r, hr, List.mem_map.2 ⟨c, hc, rfl⟩⟩

theorem squares64_nodup : squares64.Nodup := by decide

theorem countP_setCell (b : Board) (r c : Int) (v : Option Piece) (color : Color)
    (l : List (Int × Int)) (hl : l.Nodup) :
    (l.countP fun sq => hasColor (setCell b r c v sq.1 sq.2) color) +
        (if (r, c) ∈ l then (hasColor (b r c) color).toNat else 0) =
      (l.countP fun sq => hasColor (b sq.1 sq.2) color) +
        (if (r, c) ∈ l then (hasColor v color).toNat else 0) := by
  induction l with
  | nil => simp
  | cons x xs ih =>
    obtain ⟨hx, hxs⟩ := List.nodup_cons.1 hl
    have ih' := ih hxs
    by_cases hxe : x = (r, c)
    · subst hxe
      have hnot : (r, c) ∉ xs := hx
      simp only [hnot, if_false, add_zero] at ih'
      simp only [List.countP_cons, List.mem_cons, true_or, if_true, setCell_same, ih']
      cases hasColor (b r c) color <;> cases hasColor v color <;> simp
    · have hne : ¬ (x.1 = r ∧ x.2 = c) := by
        rintro ⟨h1, h2⟩
        exact hxe (Prod.ext h1 h2)
      have hmem : ((r, c) ∈ x :: xs) ↔ (r, c) ∈ xs := by
        simp only [List.mem_cons]
        constructor
        · rintro (h | h)
          · exact absurd h.symm hxe
          · exact h
        · exact Or.inr
      simp only [List.countP_cons, hmem, setCell_other _ _ _ _ _ _ hne]
      omega

/-- Writing a cell of the 8x8 board changes the count of a colour by the
difference between the new and the old occupant. -/
theorem countPieces_setCell (b : Board) (r c : Int) (v : Option Piece) (color : Color)
    (hr : r ∈ idx8) (hc : c ∈ idx8) :
    countPieces (setCell b r c v) color + (hasColor (b r c) color).toNat =
      countPieces b color + (hasColor v color).toNat := by
  have h := countP_setCell b r c v color squares64 squares64_nodup
  simp only [mem_squares64 r c hr hc, if_true] at h
  exact h

theorem hasColor_opponent (p : Piece) (color : Color) :
    hasColor (some p) color.opponent = !hasColor (some p) color := by
  cases hc : p.color <;> cases color <;> simp [hasColor, Color.opponent, hc]

/-- Moving a piece from one square of the board to another one removes from
the count of each colour exactly the former occupant of the destination. -/
theorem countPieces_move (b : Board) (fromRow fromCol toRow toCol : Int) (p p' : Piece)
    (color : Color) (hfr : fromRow ∈ idx8) (hfc : fromCol ∈ idx8) (htr : toRow ∈ idx8)
    (htc : toCol ∈ idx8) (hp : b fromRow fromCol = some p) (hsame : p'.color = p.color)
    (hne : ¬ (fromRow = toRow ∧ fromCol = toCol)) :
    countPieces (setCell (setCell b toRow toCol (some p')) fromRow fromCol none) color +
        (hasColor (b toRow toCol) color).toNat = countPieces b color := by
  have e1 := countPieces_setCell (setCell b toRow toCol (some p')) fromRow fromCol none color
    hfr hfc
  have e2 := countPieces_setCell b toRow toCol (some p') color htr htc
  rw [setCell_other _ _ _ _ _ _ hne, hp] at e1
  have e3 : hasColor (some p') color = hasColor (some p) color := by
    simp [hasColor, hsame]
  rw [e3] at e2
  simp only [hasColor, Bool.toNat_false, add_zero] at e1 e2 ⊢
  omega

/-- C19 (amended): for an accepted in-bounds move in a state whose en-passant
target, if set, is an empty square with no piece of the mover's colour on the
square behind it, and in which an unmoved king that is moved stands on column
4, `makeMove` leaves the mover's number of pieces unchanged and takes at most
one piece from the opponent. -/
theorem c19_piece_counts (fuel : Nat) (s : Game) (fromRow fromCol toRow toCol : Int)
    (playerId : IdValue) (promotionPiece : Option PieceType)
    (hfr : fromRow ∈ idx8) (hfc : fromCol ∈ idx8) (htr : toRow ∈ idx8) (htc : toCol ∈ idx8)
    (h : isValidMove fuel s fromRow fromCol toRow toCol playerId = .ok true)
    (hep : ∀ t, s.enPassantTarget = some t →
      s.board t.row t.col = none ∧
      hasColor (s.board (if s.currentPlayer = .white then t.row + 1 else t.row - 1) t.col)
        s.currentPlayer = false)
    (hking : ∀ p, s.board fromRow fromCol = some p → p.type = .king → p.hasMoved = false →
      fromCol = 4) :
    ∃ r s', makeMove s fromRow fromCol toRow toCol promotionPiece = .ok (r, s') ∧
      countPieces s'.board s.currentPlayer = countPieces s.board s.currentPlayer ∧
      countPieces s'.board s.currentPlayer.opponent ≤
        countPieces s.board s.currentPlayer.opponent ∧
      countPieces s.board s.currentPlayer.opponent ≤
        countPieces s'.board s.currentPlayer.opponent + 1 := by
  obtain ⟨piece, hrf, hrt, hp, hcol, ht, hmv, _⟩ := isValidMove_accept_inv _ _ _ _ _ _ _ h
  have hne := accept_ne s piece fromRow fromCol toRow toCol hp ht
  have hpm : hasColor (some piece) s.currentPlayer = true := by simp [hasColor, hcol]
  have htm : hasColor (s.board toRow toCol) s.currentPlayer = false := by
    cases hq : s.board toRow toCol with
    | none => rfl
    | some q =>
      rw [hq] at ht
      simp only [hasColor, decide_eq_false_iff_not]
      intro e
      exact ht (by simp [e, hcol])
  have hle : ∀ o : Option Piece, (hasColor o s.currentPlayer.opponent).toNat ≤ 1 :=
    fun o => Bool.toNat_le _
  by_cases hty : piece.type = .pawn
  · have hspec := pawn_accept_inv _ _ _ _ _ _ _ hty hrf hrt hmv
    obtain ⟨hcpr, hrow1⟩ := pawn_capturedRow s piece _ _ _ _ hrf hrt hspec
    obtain ⟨r, s', hmk, hb, _⟩ := makeMove_pawn s fromRow fromCol toRow toCol
      promotionPiece piece hrf hrt hp hty hne hcpr
    refine ⟨r, s', hmk, ?_⟩
    have hcprmem : (if piece.color = .white then toRow + 1 else toRow - 1) ∈ idx8 :=
      (mem_idx8 _).2 ((rowOk_iff _).1 hcpr)
    -- the board after the en-passant removal
    obtain ⟨b1, hb1, hb1to, hb1from, hc1m, hc1o⟩ :
        ∃ b1 : Board,
          (let capturedPawnRow : Int := if piece.color = .white then toRow + 1 else toRow - 1
           let capturedPawn : Option Piece :=
             if s.enPassantTarget = some ⟨toRow, toCol⟩ then s.board capturedPawnRow toCol
             else none
           (if capturedPawn.isSome then setCell s.board capturedPawnRow toCol none
             else s.board)) = b1 ∧
          b1 toRow toCol = s.board toRow toCol ∧ b1 fromRow fromCol = some piece ∧
          countPieces b1 s.currentPlayer = countPieces s.board s.currentPlayer ∧
          (countPieces b1 s.currentPlayer.opponent = countPieces s.board s.currentPlayer.opponent ∨
            (s.board toRow toCol = none ∧
              countPieces b1 s.currentPlayer.opponent + 1 =
                countPieces s.board s.currentPlayer.opponent)) := by
      simp only
      by_cases he : s.enPassantTarget = some ⟨toRow, toCol⟩
      · obtain ⟨hempty, hbehind⟩ := hep _ he
        simp only at hempty hbehind
        rw [← hcol] at hbehind
        simp only [he, if_true]
        cases hq : s.board (if piece.color = .white then toRow + 1 else toRow - 1) toCol with
        | none => exact ⟨_, rfl, by simp, by simpa using hp, rfl, Or.inl rfl⟩
        | some q =>
          rw [hq] at hbehind
          have hrne : ¬ (toRow = (if piece.color = .white then toRow + 1 else toRow - 1) ∧
              toCol = toCol) := by
            intro e
            have := e.1
            split_ifs at this <;> omega
          have hfne : ¬ (fromRow = (if piece.color = .white then toRow + 1 else toRow - 1) ∧
              fromCol = toCol) := by
            rintro ⟨e1, e2⟩
            rw [← e1, ← e2, hp] at hq
            cases hq
            rw [hcol] at hbehind
            rw [hpm] at hbehind
            cases hbehind
          have e1 := countPieces_setCell s.board _ toCol none s.currentPlayer hcprmem htc
          have e2 := countPieces_setCell s.board _ toCol none s.currentPlayer.opponent
            hcprmem htc
          rw [hq] at e1 e2
          rw [hasColor_opponent] at e2
          rw [hcol] at hbehind
          rw [hbehind] at e1 e2
          simp only [hasColor, Bool.toNat_false, add_zero, Bool.not_false,
            Bool.toNat_true] at e1 e2
          refine ⟨_, rfl, ?_, ?_, ?_, ?_⟩
          · simp only [Option.isSome_some, if_true]
            rw [setCell_other _ _ _ _ _ _ hrne]
          · simp only [Option.isSome_some, if_true]
            rw [setCell_other _ _ _ _ _ _ hfne, hp]
          · simp only [Option.isSome_some, if_true]
            exact e1
          · right
            simp only [Option.isSome_some, if_true]
            exact ⟨hempty, e2⟩
      · simp only [he, if_false]
        exact ⟨_, rfl, rfl, hp, rfl, Or.inl rfl⟩
    simp only at hb
    rw [hb1] at hb
    have hmove := fun color => countPieces_move b1 fromRow fromCol toRow toCol piece
      { piece with hasMoved := true } color hfr hfc htr htc hb1from rfl hne
    rw [hb1to] at hmove
    have hmm := hmove s.currentPlayer
    have hmo := hmove s.currentPlayer.opponent
    rw [htm] at hmm
    simp only [Bool.toNat_false, add_zero] at hmm
    have hto := hle (s.board toRow toCol)
    have hcount : ∀ color, countPieces s'.board color =
        countPieces (setCell (setCell b1 toRow toCol (some { piece with hasMoved := true }))
          fromRow fromCol none) color := by
      intro color
      rw [hb]
      by_cases hpr : isPromotionRank toRow piece.color = true
      · simp only [hpr, if_true]
        have e := countPieces_setCell
          (setCell (setCell b1 toRow toCol (some { piece with hasMoved := true }))
            fromRow fromCol none) toRow toCol
          (some ⟨promotionPiece.getD .queen, piece.color, true⟩) color htr htc
        have hne' : ¬ (toRow = fromRow ∧ toCol = fromCol) := fun e => hne ⟨e.1.symm, e.2.symm⟩
        rw [setCell_other _ _ _ _ _ _ hne', setCell_same] at e
        simp only [hasColor] at e
        omega
      · simp only [hpr, Bool.false_eq_true, if_false]
    rw [hcount, hcount]
    rcases hc1o with hc1o | ⟨hnone, hc1o⟩
    · omega
    · rw [hnone] at hmo
      simp only [hasColor, Bool.toNat_false, add_zero] at hmo
      omega
  · by_cases hk : piece.type = .king ∧ (toCol - fromCol).natAbs = 2
    · obtain ⟨hrow, hunmoved, _, ⟨rook, hrook⟩, hcross, hto⟩ :=
        castle_accept_inv _ _ _ _ _ _ _ hk.1 hk.2 hmv
      subst hrow
      have hc4 : fromCol = 4 := hking piece hp hk.1 hunmoved
      subst hc4
      obtain ⟨r, s', hmk, hb, _⟩ := makeMove_castle s toRow 4 toCol
        promotionPiece piece rook hrf hp hk.1 hk.2 hrook hto
      refine ⟨r, s', hmk, ?_⟩
      have hcases : toCol = 6 ∨ toCol = 2 := by omega
      have hrookmove := fun color => countPieces_move s.board toRow
        (if toCol > 4 then 7 else 0) toRow (if toCol > 4 then 5 else 3) rook
        { rook with hasMoved := true } color htr (by split_ifs <;> decide) htr
        (by split_ifs <;> decide) hrook rfl (by split_ifs <;> simp)
      have hcross' : s.board toRow (if toCol > 4 then 5 else 3) = none := by
        rcases hcases with rfl | rfl <;> simpa using hcross
      rw [hcross'] at hrookmove
      have hkingcell : setCell (setCell s.board toRow (if toCol > 4 then 5 else 3)
          (some { rook with hasMoved := true })) toRow (if toCol > 4 then 7 else 0) none toRow 4 =
          some piece := by
        rw [setCell_other _ _ _ _ _ _ (by rcases hcases with rfl | rfl <;> simp),
          setCell_other _ _ _ _ _ _ (by rcases hcases with rfl | rfl <;> simp), hp]
      have htocell : setCell (setCell s.board toRow (if toCol > 4 then 5 else 3)
          (some { rook with hasMoved := true })) toRow (if toCol > 4 then 7 else 0) none
          toRow toCol = none := by
        rw [setCell_other _ _ _ _ _ _ (by rcases hcases with rfl | rfl <;> simp),
          setCell_other _ _ _ _ _ _ (by rcases hcases with rfl | rfl <;> simp), hto]
      have hkingmove := fun color => countPieces_move _ toRow 4 toRow toCol piece
        { piece with hasMoved := true } color htr (by decide) htr htc hkingcell rfl hne
      rw [htocell] at hkingmove
      have a1 := hrookmove s.currentPlayer
      have a2 := hrookmove s.currentPlayer.opponent
      have a3 := hkingmove s.currentPlayer
      have a4 := hkingmove s.currentPlayer.opponent
      simp only [hasColor, Bool.toNat_false, add_zero] at a1 a2 a3 a4
      rw [hb, a3, a4, a1, a2]
      omega
    · obtain ⟨r, s', hmk, hb, _⟩ := makeMove_plain s fromRow fromCol toRow toCol
        promotionPiece piece hrf hrt hp hty hk hne
      refine ⟨r, s', hmk, ?_⟩
      have hmove := fun color => countPieces_move s.board fromRow fromCol toRow toCol piece
        { piece with hasMoved := true } color hfr hfc htr htc hp rfl hne
      have hmm := hmove s.currentPlayer
      have hmo := hmove s.currentPlayer.opponent
      rw [htm] at hmm
      simp only [Bool.toNat_false, add_zero] at hmm
      have hto := hle (s.board toRow toCol)
      rw [hb]
      omega

/-- Witness for C19: the en-passant capture g5xf6 after 7... f5 keeps White's
sixteen pieces and takes one of Black's. -/
theorem c19_piece_counts_witness :
    isValidMove 2 (reached 2 enPassantPrelude) 3 6 2 5 "w" = .ok true ∧
      (reached 2 enPassantPrelude).enPassantTarget = some ⟨2, 5⟩ ∧
      ∃ r s', makeMove (reached 2 enPassantPrelude) 3 6 2 5 none = .ok (r, s') ∧
        countPieces s'.board (reached 2 enPassantPrelude).currentPlayer =
          countPieces (reached 2 enPassantPrelude).board
            (reached 2 enPassantPrelude).currentPlayer ∧
        countPieces s'.board (reached 2 enPassantPrelude).currentPlayer.opponent ≤
          countPieces (reached 2 enPassantPrelude).board
            (reached 2 enPassantPrelude).currentPlayer.opponent ∧
        countPieces (reached 2 enPassantPrelude).board
            (reached 2 enPassantPrelude).currentPlayer.opponent ≤
          countPieces s'.board (reached 2 enPassantPrelude).currentPlayer.opponent + 1 :=
  ⟨by decide!, by decide!,
    c19_piece_counts 2 (reached 2 enPassantPrelude) 3 6 2 5 "w" none
      (by decide) (by decide) (by decide) (by decide) (by decide!)
      (by
        intro t ht
        have e : (reached 2 enPassantPrelude).enPassantTarget = some ⟨2, 5⟩ := by decide!
        rw [e] at ht
        cases ht
        decide!)
      (by
        intro p hp hk
        have e : (reached 2 enPassantPrelude).board 3 6 = some ⟨.pawn, .white, true⟩ := by
          decide!
        rw [e] at hp
        cases hp
        cases hk)⟩

/-! ## Seating -/

/-- C33: `addPlayer` with no requested colour seats the player as white if the
white seat is empty, otherwise as black if the black seat is empty, and with a
requested colour whose seat is empty it seats the player there, returning the
colour; in every other case it returns `'spectator'`, leaves the seats
unchanged and appends the player to the spectators unless a spectator with that
id is already listed.  When a seating call leaves both seats filled in a match
that had not started, `gameStarted` and `timerActive` are true and
`timerPaused` is false afterwards. -/
theorem c33_addPlayer (s : Game) (playerId playerName : String) (color : Option Color)
    (timerDuration : Int) :
    (color = none → s.players.white = none →
      (addPlayer s playerId playerName color timerDuration).1 = some .white ∧
      (addPlayer s playerId playerName color timerDuration).2.players =
        { s.players with white := some ⟨playerId, playerName⟩ } ∧
      (addPlayer s playerId playerName color timerDuration).2.spectators = s.spectators) ∧
    (color = none → s.players.white.isSome = true → s.players.black = none →
      (addPlayer s playerId playerName color timerDuration).1 = some .black ∧
      (addPlayer s playerId playerName color timerDuration).2.players =
        { s.players with black := some ⟨playerId, playerName⟩ } ∧
      (addPlayer s playerId playerName color timerDuration).2.spectators = s.spectators) ∧
    (∀ c, color = some c → s.players.get c = none →
      (addPlayer s playerId playerName color timerDuration).1 = some c ∧
      (addPlayer s playerId playerName color timerDuration).2.players =
        s.players.set c (some ⟨playerId, playerName⟩) ∧
      (addPlayer s playerId playerName color timerDuration).2.spectators = s.spectators) ∧
    (((color = none ∧ s.players.white.isSome = true ∧ s.players.black.isSome = true) ∨
        ∃ c, color = some c ∧ (s.players.get c).isSome = true) →
      (addPlayer s playerId playerName color timerDuration).1 = none ∧
      (addPlayer s playerId playerName color timerDuration).2.players = s.players ∧
      (addPlayer s playerId playerName color timerDuration).2.spectators =
        (if ∃ p ∈ s.spectators, p.id = playerId then s.spectators
          else s.spectators ++ [⟨playerId, playerName⟩]) ∧
      (s.spectators.countP (fun p => decide (p.id = playerId)) ≤ 1 →
        (addPlayer s playerId playerName color timerDuration).2.spectators.countP
          (fun p => decide (p.id = playerId)) = 1)) ∧
    ((addPlayer s playerId playerName color timerDuration).1.isSome = true →
      (addPlayer s playerId playerName color timerDuration).2.players.white.isSome = true →
      (addPlayer s playerId playerName color timerDuration).2.players.black.isSome = true →
      s.gameStarted = false →
      (addPlayer s playerId playerName color timerDuration).2.gameStarted = true ∧
      (addPlayer s playerId playerName color timerDuration).2.timerActive = true ∧
      (addPlayer s playerId playerName color timerDuration).2.timerPaused = false) := by
  refine ⟨?_, ?_, ?_, ?_, ?_⟩
  · intro hc hw
    subst hc
    simp only [addPlayer, hw, Option.isNone_none, if_true, Seats.get, Seats.set]
    refine ⟨by trivial, ?_, ?_⟩ <;> (simp only [startGame, startTimer]; split_ifs <;> rfl)
  · intro hc hw hb
    subst hc
    have hw' : s.players.white.isNone = false := by
      cases h : s.players.white <;> simp_all
    simp only [addPlayer, hw', hb, Option.isNone_none, if_true, Seats.get, Seats.set,
      Bool.false_eq_true, if_false]
    refine ⟨by trivial, ?_, ?_⟩ <;> (simp only [startGame, startTimer]; split_ifs <;> rfl)
  · intro c hc hseat
    subst hc
    simp only [addPlayer, hseat, Option.isNone_none, if_true]
    refine ⟨by trivial, ?_, ?_⟩ <;> (simp only [startGame, startTimer]; split_ifs <;> rfl)
  · intro h
    have hspec : ((if (s.spectators.find? fun p => decide (p.id = playerId)).isNone = true then
          ((none : Option Color),
            { s with spectators := s.spectators ++ [⟨playerId, playerName⟩] })
        else (none, s)).1 = none) ∧
        ((if (s.spectators.find? fun p => decide (p.id = playerId)).isNone = true then
          ((none : Option Color),
            { s with spectators := s.spectators ++ [⟨playerId, playerName⟩] })
        else (none, s)).2.players = s.players) ∧
        ((if (s.spectators.find? fun p => decide (p.id = playerId)).isNone = true then
          ((none : Option Color),
            { s with spectators := s.spectators ++ [⟨playerId, playerName⟩] })
        else (none, s)).2.spectators =
          (if ∃ p ∈ s.spectators, p.id = playerId then s.spectators
            else s.spectators ++ [⟨playerId, playerName⟩])) ∧
        (s.spectators.countP (fun p => decide (p.id = playerId)) ≤ 1 →
          (if (s.spectators.find? fun p => decide (p.id = playerId)).isNone = true then
            ((none : Option Color),
              { s with spectators := s.spectators ++ [⟨playerId, playerName⟩] })
          else (none, s)).2.spectators.countP (fun p => decide (p.id = playerId)) = 1) := by
      have hfind : (s.spectators.find? fun p => decide (p.id = playerId)).isNone = true ↔
          ¬ ∃ p ∈ s.spectators, p.id = playerId := by
        simp [List.find?_eq_none]
      by_cases hex : ∃ p ∈ s.spectators, p.id = playerId
      · have hf : (s.spectators.find? fun p => decide (p.id = playerId)).isNone = false := by
          cases hh : (s.spectators.find? fun p => decide (p.id = playerId)).isNone
          · rfl
          · exact absurd hex (hfind.1 hh)
        simp only [hf, Bool.false_eq_true, if_false, if_pos hex, true_and]
        intro hle
        obtain ⟨p, hp, hid⟩ := hex
        have hpos : 0 < s.spectators.countP (fun p => decide (p.id = playerId)) :=
          List.countP_pos_iff.2 ⟨p, hp, by simpa using hid⟩
        omega
      · have hf := hfind.2 hex
        simp only [hf, if_true, if_neg hex, true_and]
        intro _
        have h0 : s.spectators.countP (fun p => decide (p.id = playerId)) = 0 := by
          rw [List.countP_eq_zero]
          intro p hp hid
          exact hex ⟨p, hp, by simpa using hid⟩
        simp [List.countP_append, h0]
    rcases h with ⟨hc, hw, hb⟩ | ⟨c, hc, hseat⟩
    · subst hc
      have hw' : s.players.white.isNone = false := by
        cases h : s.players.white <;> simp_all
      have hb' : s.players.black.isNone = false := by
        cases h : s.players.black <;> simp_all
      simp only [addPlayer, hw', hb', Bool.false_eq_true, if_false]
      exact hspec
    · subst hc
      have hs' : (s.players.get c).isNone = false := by
        cases h : s.players.get c <;> simp_all
      simp only [addPlayer, hs', Bool.false_eq_true, if_false]
      exact hspec
  · intro hseat hw hb hst
    cases color with
    | none =>
      by_cases hw0 : s.players.white.isNone = true
      · simp only [addPlayer, hw0, if_true, Seats.get, startGame, startTimer] at hw hb ⊢
        split_ifs at hw hb ⊢ <;> simp_all
      · have hw0' : s.players.white.isNone = false := by
          cases h : s.players.white.isNone
          · rfl
          · exact absurd h hw0
        by_cases hb0 : s.players.black.isNone = true
        · simp only [addPlayer, hw0', hb0, if_true, Seats.get, Bool.false_eq_true,
            if_false, startGame, startTimer] at hw hb ⊢
          split_ifs at hw hb ⊢ <;> simp_all
        · have hb0' : s.players.black.isNone = false := by
            cases h : s.players.black.isNone
            · rfl
            · exact absurd h hb0
          simp only [addPlayer, hw0', hb0', Bool.false_eq_true, if_false] at hseat
          split_ifs at hseat <;> simp at hseat
    | some c =>
      by_cases hc0 : (s.players.get c).isNone = true
      · simp only [addPlayer, hc0, if_true, startGame, startTimer] at hw hb ⊢
        split_ifs at hw hb ⊢ <;> simp_all
      · have hc0' : (s.players.get c).isNone = false := by
          cases h : (s.players.get c).isNone
          · rfl
          · exact absurd h hc0
        simp only [addPlayer, hc0', Bool.false_eq_true, if_false] at hseat
        split_ifs at hseat <;> simp at hseat

/-- Witness for C33: the two seating calls of `startedGame`, a third player who
becomes a spectator, and a request for the taken white seat. -/
theorem c33_addPlayer_witness :
    (addPlayer newGame "w" "White" none 300).1 = some .white ∧
      (addPlayer setupGame "b" "Black" none 300).1 = some .black ∧
      (addPlayer setupGame "b" "Black" none 300).2.gameStarted = true ∧
      (addPlayer setupGame "b" "Black" none 300).2.timerActive = true ∧
      (addPlayer startedGame "x" "Guest" none 300).1 = none ∧
      (addPlayer startedGame "x" "Guest" none 300).2.spectators = [⟨"x", "Guest"⟩] ∧
      (addPlayer startedGame "x" "Guest" (some .white) 300).2.players = startedGame.players :=
  ⟨((c33_addPlayer newGame "w" "White" none 300).1 rfl (by decide)).1,
    ((c33_addPlayer setupGame "b" "Black" none 300).2.1 rfl (by decide) (by decide)).1,
    ((c33_addPlayer setupGame "b" "Black" none 300).2.2.2.2 (by decide) (by decide) (by decide)
      (by decide)).1,
    ((c33_addPlayer setupGame "b" "Black" none 300).2.2.2.2 (by decide) (by decide) (by decide)
      (by decide)).2.1,
    ((c33_addPlayer startedGame "x" "Guest" none 300).2.2.2.1
      (Or.inl ⟨rfl, by decide, by decide⟩)).1,
    by decide,
    ((c33_addPlayer startedGame "x" "Guest" (some .white) 300).2.2.2.1
      (Or.inr ⟨.white, rfl, by decide⟩)).2.1⟩

/-- C34: `removePlayer(playerId)` empties the seat held by `playerId` (the
white seat is tested first) and returns its colour, or, when `playerId` holds
no seat, removes it from the spectators and returns `removedColor = null`; it
clears an active draw offer exactly when `playerId` is its `offeredBy` or
`offeredTo` and returns that as `drawCancelled`; it sets `timerPaused` when a
seat was vacated while the timer is active and the game is not over, and leaves
it unchanged otherwise; the board, `moveHistory`, `currentPlayer`,
`castlingRights` and `timeLeft` are unchanged. -/
theorem c34_removePlayer (s : Game) (playerId : String) :
    (s.players.white.map (·.id) = some playerId →
      (removePlayer s playerId).1.1 = some .white ∧
      (removePlayer s playerId).2.players = { s.players with white := none } ∧
      (removePlayer s playerId).2.spectators = s.spectators) ∧
    (s.players.white.map (·.id) ≠ some playerId → s.players.black.map (·.id) = some playerId →
      (removePlayer s playerId).1.1 = some .black ∧
      (removePlayer s playerId).2.players = { s.players with black := none } ∧
      (removePlayer s playerId).2.spectators = s.spectators) ∧
    (getPlayerColor s playerId = none →
      (removePlayer s playerId).1.1 = none ∧
      (removePlayer s playerId).2.players = s.players ∧
      (removePlayer s playerId).2.spectators = s.spectators.filter fun p => p.id ≠ playerId) ∧
    ((removePlayer s playerId).1.2 = true ↔
      (s.drawOffer.active = true ∧
        (s.drawOffer.offeredBy = some (.str playerId) ∨
          s.drawOffer.offeredTo = some playerId))) ∧
    (removePlayer s playerId).2.drawOffer =
      (if (removePlayer s playerId).1.2 = true then ⟨false, none, none⟩ else s.drawOffer) ∧
    ((removePlayer s playerId).1.1.isSome = true → s.timerActive = true → s.gameOver = false →
      (removePlayer s playerId).2.timerPaused = true) ∧
    (¬ ((removePlayer s playerId).1.1.isSome = true ∧ s.timerActive = true ∧
        s.gameOver = false) →
      (removePlayer s playerId).2.timerPaused = s.timerPaused) ∧
    (removePlayer s playerId).2.board = s.board ∧
    (removePlayer s playerId).2.moveHistory = s.moveHistory ∧
    (removePlayer s playerId).2.currentPlayer = s.currentPlayer ∧
    (removePlayer s playerId).2.castlingRights = s.castlingRights ∧
    (removePlayer s playerId).2.timeLeft = s.timeLeft := by
  simp only [removePlayer, cancelDrawOffer, clearDrawOffer, pauseTimer, getPlayerColor,
    seatId_eq_str]
  by_cases hw : s.players.white.map (·.id) = some playerId
  · simp only [hw, if_true]
    split_ifs <;> simp_all
  · by_cases hb : s.players.black.map (·.id) = some playerId
    · simp only [hw, hb, if_true, if_false]
      split_ifs <;> simp_all
    · simp only [hw, hb, if_false]
      split_ifs <;> simp_all

/-- Witness for C34: Black leaves a started game in which White has offered a
draw; a stranger leaves. -/
theorem c34_removePlayer_witness :
    (removePlayer (handleDrawOffer startedGame "w").2 "b").1 = (some .black, true) ∧
      (removePlayer (handleDrawOffer startedGame "w").2 "b").2.players.black = none ∧
      (removePlayer (handleDrawOffer startedGame "w").2 "b").2.timerPaused = true ∧
      (removePlayer (handleDrawOffer startedGame "w").2 "b").2.drawOffer.active = false ∧
      (removePlayer startedGame "x").1.1 = none ∧
      (removePlayer startedGame "x").2.players = startedGame.players :=
  ⟨by decide,
    by
      have h := ((c34_removePlayer (handleDrawOffer startedGame "w").2 "b").2.1 (by decide)
        (by decide)).2.1
      rw [h],
    (c34_removePlayer (handleDrawOffer startedGame "w").2 "b").2.2.2.2.2.1 (by decide)
      (by decide) (by decide),
    by decide,
    ((c34_removePlayer startedGame "x").2.2.1 (by decide)).1,
    ((c34_removePlayer startedGame "x").2.2.1 (by decide)).2.1⟩

/-! ## Game status -/

/-- The movement test reads only the board, the en-passant target and the
castling rights of the state. -/
theorem isPieceMovementValid_congr (fuel : Nat) (s t : Game) (hb : s.board = t.board)
    (he : s.enPassantTarget = t.enPassantTarget) (hc : s.castlingRights = t.castlingRights) :
    isPieceMovementValid fuel s = isPieceMovementValid fuel t := by
  induction fuel with
  | zero => rfl
  | succ n ih =>
    funext piece fromRow fromCol toRow toCol
    unfold isPieceMovementValid
    cases hty : piece.type with
    | pawn => simp only [isPawnMoveValid, hb, he]
    | rook => simp only [hb]
    | bishop => simp only [hb]
    | queen => simp only [hb]
    | knight => rfl
    | other tag => rfl
    | king =>
      simp only [isKingMoveValidWith, isCastlingValidWith, ih, hb, hc]

theorem isKingInCheck_congr (fuel : Nat) (s t : Game) (color : Color) (hb : s.board = t.board)
    (he : s.enPassantTarget = t.enPassantTarget) (hc : s.castlingRights = t.castlingRights) :
    isKingInCheck fuel s color = isKingInCheck fuel t color := by
  unfold isKingInCheck
  rw [isPieceMovementValid_congr fuel s t hb he hc, hb]

theorem hasValidMoves_congr (fuel : Nat) (s t : Game) (color : Color) (hb : s.board = t.board)
    (he : s.enPassantTarget = t.enPassantTarget) (hc : s.castlingRights = t.castlingRights) :
    hasValidMoves fuel s color = hasValidMoves fuel t color := by
  have hw : ∀ fromRow fromCol toRow toCol,
      wouldMoveResultInCheck fuel s fromRow fromCol toRow toCol =
        wouldMoveResultInCheck fuel t fromRow fromCol toRow toCol := by
    intro fromRow fromCol toRow toCol
    unfold wouldMoveResultInCheck
    rw [hb]
    have hk : ∀ color, isKingInCheck fuel
          { s with board := simulateMove t.board fromRow fromCol toRow toCol } color =
        isKingInCheck fuel
          { t with board := simulateMove t.board fromRow fromCol toRow toCol } color :=
      fun color => isKingInCheck_congr fuel _ _ color rfl he hc
    simp only [hk]
  unfold hasValidMoves
  simp only [isPieceMovementValid_congr fuel s t hb he hc, hw, hb]

/-- C35 (amended): when `updateGameStatus` returns a status and leaves a
state, a second call made in that state returns the same status and leaves
the state as it is, unless the first call was made in a state that was not
over, carried a `gameEndReason`, and returned `'checkmate'` or `'stalemate'`:
the hypothesis asks that the state is over, or `gameEndReason` is `null`, or
the first call returned `'check'` or `'normal'`. -/
theorem c35_updateGameStatus_idempotent (fuel : Nat) (s s1 : Game) (st : Status)
    (h : updateGameStatus fuel s = .ok (st, s1))
    (hwf : s.gameOver = true ∨ s.gameEndReason = none ∨ st = .check ∨ st = .normal) :
    updateGameStatus fuel s1 = .ok (st, s1) := by
  unfold updateGameStatus at h
  by_cases h1 : s.gameOver = true ∧ s.gameEndReason = some .timeout
  · rw [if_pos h1] at h
    cases h
    unfold updateGameStatus
    rw [if_pos h1]
  · rw [if_neg h1] at h
    by_cases h2 : s.gameOver = true ∧ s.gameEndReason = some .draw
    · rw [if_pos h2] at h
      cases h
      unfold updateGameStatus
      rw [if_neg h1, if_pos h2]
    · rw [if_neg h2] at h
      have hnone : st = .checkmate ∨ st = .stalemate → s.gameEndReason = none := by
        intro hst
        rcases hwf with hover | hnone | hck | hnm
        · cases hr : s.gameEndReason with
          | none => rfl
          | some r =>
            cases r
            · exact absurd ⟨hover, hr⟩ h1
            · exact absurd ⟨hover, hr⟩ h2
        · exact hnone
        · rw [hck] at hst
          rcases hst with hst | hst <;> cases hst
        · rw [hnm] at hst
          rcases hst with hst | hst <;> cases hst
      have e1 : isKingInCheck fuel (stopTimer { s with gameOver := true })
          (stopTimer { s with gameOver := true }).currentPlayer =
          isKingInCheck fuel s s.currentPlayer :=
        isKingInCheck_congr fuel _ _ _ rfl rfl rfl
      have e2 : hasValidMoves fuel (stopTimer { s with gameOver := true })
          (stopTimer { s with gameOver := true }).currentPlayer =
          hasValidMoves fuel s s.currentPlayer :=
        hasValidMoves_congr fuel _ _ _ rfl rfl rfl
      have n1 : s.gameEndReason = none →
          ¬ ((stopTimer { s with gameOver := true }).gameOver = true ∧
          (stopTimer { s with gameOver := true }).gameEndReason = some .timeout) := by
        intro e3 hn
        have e4 : (stopTimer { s with gameOver := true }).gameEndReason = none := e3
        rw [e4] at hn
        cases hn.2
      have n2 : s.gameEndReason = none →
          ¬ ((stopTimer { s with gameOver := true }).gameOver = true ∧
          (stopTimer { s with gameOver := true }).gameEndReason = some .draw) := by
        intro e3 hn
        have e4 : (stopTimer { s with gameOver := true }).gameEndReason = none := e3
        rw [e4] at hn
        cases hn.2
      cases hk : isKingInCheck fuel s s.currentPlayer with
      | error e => rw [hk] at h; cases h
      | ok inCheck =>
        cases hv : hasValidMoves fuel s s.currentPlayer with
        | error e => rw [hk, hv] at h; cases inCheck <;> cases h
        | ok valid =>
          rw [hk, hv] at h
          cases inCheck <;> cases valid <;> simp only at h <;> cases h
          · unfold updateGameStatus
            rw [if_neg (n1 (hnone (Or.inr rfl))), if_neg (n2 (hnone (Or.inr rfl))), e1, e2, hk,
              hv]
            rfl
          · unfold updateGameStatus
            rw [if_neg h1, if_neg h2, hk, hv]
          · unfold updateGameStatus
            rw [if_neg (n1 (hnone (Or.inl rfl))), if_neg (n2 (hnone (Or.inl rfl))), e1, e2, hk,
              hv]
            rfl
          · unfold updateGameStatus
            rw [if_neg h1, if_neg h2, hk, hv]

/-- Witness for C35: with `gameEndReason = null` and no move for the side to
move, the first call ends the game by stalemate and the second call returns
`'stalemate'` again; in the initial position with a `gameEndReason` left from
an earlier timeout both calls return `'normal'`. -/
theorem c35_updateGameStatus_idempotent_witness :
    (updateGameStatus 2 { staleReasonGame with gameEndReason := none } =
        .ok (.stalemate,
          stopTimer { staleReasonGame with gameEndReason := none, gameOver := true }) ∧
      updateGameStatus 2
          (stopTimer { staleReasonGame with gameEndReason := none, gameOver := true }) =
        .ok (.stalemate,
          stopTimer { staleReasonGame with gameEndReason := none, gameOver := true })) ∧
    ({ startedGame with gameEndReason := some .timeout }.gameOver = false ∧
      updateGameStatus 2 { startedGame with gameEndReason := some .timeout } =
        .ok (.normal, { startedGame with gameEndReason := some .timeout })) :=
  ⟨⟨by rfl, c35_updateGameStatus_idempotent 2 { staleReasonGame with gameEndReason := none } _ _
    (by rfl) (Or.inr (Or.inl rfl))⟩,
   ⟨by rfl, c35_updateGameStatus_idempotent 2 { startedGame with gameEndReason := some .timeout }
      _ _ (by rfl) (Or.inr (Or.inr (Or.inr rfl)))⟩⟩

/-! ## Termination of check detection -/

theorem anyE_congr {α : Type} (p q : α → Except Err Bool) (l : List α)
    (h : ∀ x ∈ l, p x = q x) : anyE p l = anyE q l := by
  induction l with
  | nil => rfl
  | cons x xs ih =>
    have hx := h x (List.mem_cons_self x xs)
    have hxs := ih fun y hy => h y (List.mem_cons_of_mem x hy)
    simp only [anyE, hx, hxs]

theorem anyE_returns {α : Type} (p : α → Except Err Bool) (l : List α)
    (h : ∀ x ∈ l, ∃ v, p x = .ok v) : ∃ v, anyE p l = .ok v := by
  induction l with
  | nil => exact ⟨false, rfl⟩
  | cons x xs ih =>
    obtain ⟨v, hv⟩ := h x (List.mem_cons_self x xs)
    obtain ⟨w, hw⟩ := ih fun y hy => h y (List.mem_cons_of_mem x hy)
    cases v with
    | true => exact ⟨true, by simp only [anyE, hv]⟩
    | false => exact ⟨w, by simp only [anyE, hv, hw]⟩

theorem wouldKingBeInCheckWith_congr (pmv pmv' : MoveTest) (b : Board) (color : Color)
    (row col : Int)
    (h : ∀ r ∈ idx8, ∀ c ∈ idx8, ∀ piece, b r c = some piece → piece.color = color.opponent →
      pmv piece r c row col = pmv' piece r c row col) :
    wouldKingBeInCheckWith pmv b color row col = wouldKingBeInCheckWith pmv' b color row col := by
  unfold wouldKingBeInCheckWith
  apply anyE_congr
  intro r hr
  apply anyE_congr
  intro c hc
  cases hcell : b r c with
  | none => rfl
  | some piece =>
    by_cases hcol : piece.color = color.opponent
    · simp only [hcol, if_true]
      exact h r hr c hc piece hcell hcol
    · simp only [hcol, if_false]

theorem wouldKingBeInCheckWith_returns (pmv : MoveTest) (b : Board) (color : Color)
    (row col : Int)
    (h : ∀ r ∈ idx8, ∀ c ∈ idx8, ∀ piece, b r c = some piece → piece.color = color.opponent →
      ∃ v, pmv piece r c row col = .ok v) :
    ∃ v, wouldKingBeInCheckWith pmv b color row col = .ok v := by
  unfold wouldKingBeInCheckWith
  apply anyE_returns
  intro r hr
  apply anyE_returns
  intro c hc
  cases hcell : b r c with
  | none => exact ⟨false, rfl⟩
  | some piece =>
    by_cases hcol : piece.color = color.opponent
    · simp only [hcol, if_true]
      exact h r hr c hc piece hcell hcol
    · simp only [hcol, if_false]
      exact ⟨false, rfl⟩

/-- A piece that is not a king is tested without a nested check detection: the
test returns for squares on the board. -/
theorem isPieceMovementValid_returns_of_not_king (fuel : Nat) (s : Game) (piece : Piece)
    (fromRow fromCol toRow toCol : Int) (hfr : fromRow ∈ idx8) (htr : toRow ∈ idx8)
    (hty : piece.type ≠ .king) :
    ∃ v, isPieceMovementValid (fuel + 1) s piece fromRow fromCol toRow toCol = .ok v := by
  unfold isPieceMovementValid
  cases h : piece.type with
  | king => exact absurd h hty
  | pawn =>
    obtain ⟨v, hv, _⟩ := isPawnMoveValid_spec s piece fromRow fromCol toRow toCol
      ((mem_idx8 _).1 hfr) ((mem_idx8 _).1 htr)
    exact ⟨v, hv⟩
  | knight => exact ⟨_, rfl⟩
  | other tag => exact ⟨_, rfl⟩
  | rook =>
    simp only
    by_cases hg : (toRow - fromRow).natAbs = 0 ∨ (toCol - fromCol).natAbs = 0
    · rw [if_pos hg]
      obtain ⟨v, hv, _⟩ := isPathClear_iff s.board fromRow fromCol toRow toCol hfr htr
        (by omega)
      exact ⟨v, hv⟩
    · rw [if_neg hg]
      exact ⟨_, rfl⟩
  | bishop =>
    simp only
    by_cases hg : (toRow - fromRow).natAbs = (toCol - fromCol).natAbs
    · rw [if_pos hg]
      obtain ⟨v, hv, _⟩ := isPathClear_iff s.board fromRow fromCol toRow toCol hfr htr
        (Or.inr (Or.inr hg))
      exact ⟨v, hv⟩
    · rw [if_neg hg]
      exact ⟨_, rfl⟩
  | queen =>
    simp only
    by_cases hg : (toRow - fromRow).natAbs = 0 ∨ (toCol - fromCol).natAbs = 0 ∨
        (toRow - fromRow).natAbs = (toCol - fromCol).natAbs
    · rw [if_pos hg]
      obtain ⟨v, hv, _⟩ := isPathClear_iff s.board fromRow fromCol toRow toCol hfr htr
        (by omega)
      exact ⟨v, hv⟩
    · rw [if_neg hg]
      exact ⟨_, rfl⟩

/-- The two iterations of the loop of `isCastlingValid` return when the check
detection on the squares of the row does. -/
theorem castlingLoopWith_returns (pmv : MoveTest) (b : Board) (color : Color)
    (fromRow fromCol toCol step : Int) (hstep : step = 1 ∨ step = -1)
    (hto : toCol = fromCol + 2 * step)
    (hsq : ∀ col, ∃ v, wouldKingBeInCheckWith pmv b color fromRow col = .ok v) :
    ∃ v, castlingLoopWith pmv b color fromRow toCol step 2 (fromCol + step) = .ok v := by
  have n1 : fromCol + step ≠ toCol + step := by omega
  have n2 : fromCol + step + step ≠ toCol + step := by omega
  have n3 : ¬ (fromCol + step + step + step ≠ toCol + step) := by omega
  unfold castlingLoopWith
  rw [if_pos n1]
  by_cases ho1 : (b fromRow (fromCol + step)).isSome = true
  · rw [if_pos ho1]
    exact ⟨_, rfl⟩
  · rw [if_neg ho1]
    obtain ⟨v1, hv1⟩ := hsq (fromCol + step)
    rw [hv1]
    cases v1 with
    | true => exact ⟨_, rfl⟩
    | false =>
      simp only
      unfold castlingLoopWith
      rw [if_pos n2]
      by_cases ho2 : (b fromRow (fromCol + step + step)).isSome = true
      · rw [if_pos ho2]
        exact ⟨_, rfl⟩
      · rw [if_neg ho2]
        obtain ⟨v2, hv2⟩ := hsq (fromCol + step + step)
        rw [hv2]
        cases v2 with
        | true => exact ⟨_, rfl⟩
        | false =>
          simp only
          unfold castlingLoopWith
          rw [if_neg n3]
          exact ⟨_, rfl⟩

/-- The part of `isCastlingValid` after the tests of the rook and the rights
returns when the nested check detection does. -/
theorem castlingChecks_return (pmv : MoveTest) (b : Board) (color : Color)
    (fromRow fromCol toCol step : Int) (hstep : step = 1 ∨ step = -1)
    (hto : toCol = fromCol + 2 * step)
    (hcheck : ∃ v, isKingInCheckWith pmv b color = .ok v)
    (hsq : ∀ col, ∃ v, wouldKingBeInCheckWith pmv b color fromRow col = .ok v) :
    ∃ v, (match isKingInCheckWith pmv b color with
      | .error e => (.error e : Except Err Bool)
      | .ok true => .ok false
      | .ok false => castlingLoopWith pmv b color fromRow toCol step 2 (fromCol + step)) =
        .ok v := by
  obtain ⟨v, hv⟩ := hcheck
  rw [hv]
  cases v with
  | true => exact ⟨_, rfl⟩
  | false => exact castlingLoopWith_returns pmv b color fromRow fromCol toCol step hstep hto hsq

/-- The castling test returns when the nested check detection does. -/
theorem isCastlingValidWith_returns (pmv : MoveTest) (s : Game) (piece : Piece)
    (fromRow fromCol toRow toCol : Int) (hfr : fromRow ∈ idx8)
    (h2 : (toCol - fromCol).natAbs = 2)
    (hcheck : ∃ v, isKingInCheckWith pmv s.board piece.color = .ok v)
    (hsq : ∀ col, ∃ v, wouldKingBeInCheckWith pmv s.board piece.color fromRow col = .ok v) :
    ∃ v, isCastlingValidWith pmv s piece fromRow fromCol toRow toCol = .ok v := by
  unfold isCastlingValidWith
  simp only [getCell, rowOk_of_mem hfr, if_true, h2]
  by_cases hgt : toCol > fromCol
  · simp only [hgt, decide_True, if_true]
    cases hrook : s.board fromRow 7 with
    | none => exact ⟨_, rfl⟩
    | some rook =>
      simp only
      split_ifs
      all_goals first
        | exact ⟨_, rfl⟩
        | exact castlingChecks_return pmv s.board piece.color fromRow fromCol toCol 1
            (Or.inl rfl) (by omega) hcheck hsq
  · simp only [hgt, decide_False, Bool.false_eq_true, if_false]
    cases hrook : s.board fromRow 0 with
    | none => exact ⟨_, rfl⟩
    | some rook =>
      simp only
      split_ifs
      all_goals first
        | exact ⟨_, rfl⟩
        | exact castlingChecks_return pmv s.board piece.color fromRow fromCol toCol (-1)
            (Or.inr rfl) (by omega) hcheck hsq

theorem findSome?_sorted {β : Type} (f : Int → Option β) (l : List Int)
    (hl : l.Pairwise (· < ·)) (b : β) (h : l.findSome? f = some b) :
    ∃ a ∈ l, f a = some b ∧ ∀ x ∈ l, x < a → f x = none := by
  obtain ⟨l₁, a, l₂, rfl, hfa, hbefore⟩ := List.findSome?_eq_some_iff.1 h
  refine ⟨a, by simp, hfa, ?_⟩
  intro x hx hlt
  rcases List.mem_append.1 hx with h1 | h2
  · exact hbefore x h1
  · rcases List.mem_cons.1 h2 with rfl | h3
    · exact absurd hlt (lt_irrefl _)
    · have hp := (List.pairwise_append.1 hl).2.1
      have := (List.pairwise_cons.1 hp).1 x h3
      omega

theorem idx8_sorted : idx8.Pairwise (· < ·) := by
  simp [idx8]

/-- The square returned by `findKing` is on the board, holds a king of the
colour, and no king of the colour stands on an earlier row. -/
theorem findKing_spec (b : Board) (color : Color) (p : Square)
    (h : findKing b color = some p) :
    p.row ∈ idx8 ∧ p.col ∈ idx8 ∧ isKingOf b color p.row p.col = true ∧
      ∀ r ∈ idx8, ∀ c ∈ idx8, isKingOf b color r c = true → p.row ≤ r := by
  unfold findKing at h
  obtain ⟨row, hrow, hf, hbefore⟩ := findSome?_sorted _ idx8 idx8_sorted p h
  obtain ⟨col, hcol, hcell⟩ := List.exists_of_findSome?_eq_some hf
  have hp : p = ⟨row, col⟩ ∧ isKingOf b color row col = true := by
    unfold isKingOf
    cases hq : b row col with
    | none => rw [hq] at hcell; cases hcell
    | some q =>
      rw [hq] at hcell
      simp only at hcell
      split_ifs at hcell with hk
      · cases hcell
        exact ⟨rfl, by simp [hk.1, hk.2]⟩
  obtain ⟨rfl, hking⟩ := hp
  refine ⟨hrow, hcol, hking, ?_⟩
  intro r hr c hc hk
  by_contra hlt
  have hnone := hbefore r hr (by simpa using hlt)
  rw [List.findSome?_eq_none_iff] at hnone
  have := hnone c hc
  unfold isKingOf at hk
  cases hq : b r c with
  | none => rw [hq] at hk; cases hk
  | some q =>
    rw [hq] at hk this
    simp only [Bool.and_eq_true, decide_eq_true_eq] at hk
    simp [hk.1, hk.2] at this

theorem isKingOf_of_isUnmovedKingOf (b : Board) (color : Color) (r c : Int)
    (h : isUnmovedKingOf b color r c = true) : isKingOf b color r c = true := by
  unfold isUnmovedKingOf at h
  unfold isKingOf
  cases hq : b r c with
  | none => rw [hq] at h; cases h
  | some q =>
    rw [hq] at h
    simp only [Bool.and_eq_true, decide_eq_true_eq] at h ⊢
    exact h.1

/-- Check detection on a square returns with one more unit of budget than the
nested check detection started by the castling test of an unmoved enemy king
two columns away on the same row; without such a king it needs no nested
one. -/
theorem wouldKingBeInCheck_returns (fuel : Nat) (s : Game) (color : Color) (row col : Int)
    (hrow : row ∈ idx8)
    (hcastler : ∀ c ∈ idx8, isUnmovedKingOf s.board color.opponent row c = true →
      (col - c).natAbs = 2 →
      (∃ v, isKingInCheck fuel s color.opponent = .ok v) ∧
        ∀ col', ∃ v, wouldKingBeInCheck fuel s color.opponent row col' = .ok v) :
    ∃ v, wouldKingBeInCheck (fuel + 1) s color row col = .ok v := by
  unfold wouldKingBeInCheck
  apply wouldKingBeInCheckWith_returns
  intro r hr c hc piece hcell hcolor
  by_cases hty : piece.type = .king
  · unfold isPieceMovementValid
    simp only [hty, isKingMoveValidWith]
    by_cases h1 : (row - r).natAbs ≤ 1 ∧ (col - c).natAbs ≤ 1
    · rw [if_pos h1]
      exact ⟨_, rfl⟩
    · rw [if_neg h1]
      by_cases h2 : (row - r).natAbs = 0 ∧ (col - c).natAbs = 2 ∧ piece.hasMoved = false
      · rw [if_pos h2]
        have hr' : r = row := by omega
        subst hr'
        have hu : isUnmovedKingOf s.board color.opponent r c = true := by
          simp [isUnmovedKingOf, hcell, hty, hcolor, h2.2.2]
        obtain ⟨hk, hsq⟩ := hcastler c hc hu h2.2.1
        apply isCastlingValidWith_returns _ s piece r c r col hr h2.2.1
        · rw [hcolor]
          exact hk
        · rw [hcolor]
          exact hsq
      · rw [if_neg h2]
        exact ⟨_, rfl⟩
  · exact isPieceMovementValid_returns_of_not_king fuel s piece r c row col hr hrow hty

/-- The first king of a colour is "castled at" when an unmoved enemy king stands
two columns away from it on its row: the only place where check detection
starts a nested check detection. -/
theorem isKingInCheck_returns (fuel : Nat) (s : Game) (color : Color)
    (hcastler : ∀ p, findKing s.board color = some p → ∀ c ∈ idx8,
      isUnmovedKingOf s.board color.opponent p.row c = true → (p.col - c).natAbs = 2 →
      (∃ v, isKingInCheck fuel s color.opponent = .ok v) ∧
        ∀ col', ∃ v, wouldKingBeInCheck fuel s color.opponent p.row col' = .ok v) :
    ∃ v, isKingInCheck (fuel + 1) s color = .ok v := by
  unfold isKingInCheck isKingInCheckWith
  cases hf : findKing s.board color with
  | none => exact ⟨_, rfl⟩
  | some p =>
    simp only
    exact wouldKingBeInCheck_returns fuel s color p.row p.col (findKing_spec _ _ _ hf).1
      (hcastler p hf)

/-- On a board without facing unmoved kings, check detection on a square of a
row that holds an unmoved king of the colour returns without a nested check
detection. -/
theorem transit_returns (fuel : Nat) (s : Game) (color : Color) (row c0 col : Int)
    (h : noFacingUnmovedKings s.board) (hrow : row ∈ idx8) (hc0 : c0 ∈ idx8)
    (hown : isUnmovedKingOf s.board color row c0 = true) :
    ∃ v, wouldKingBeInCheck (fuel + 1) s color row col = .ok v := by
  apply wouldKingBeInCheck_returns fuel s color row col hrow
  intro c hc hu _
  exfalso
  cases color with
  | white => exact h row hrow c0 hc0 c hc ⟨hown, hu⟩
  | black => exact h row hrow c hc c0 hc0 ⟨hu, hown⟩

/-- On every board on which no row holds both an unmoved white king and an
unmoved black king, `isKingInCheck(color)` returns, with at most one nested
check detection (two activations of `isPieceMovementValid`). -/
theorem isKingInCheck_total (fuel : Nat) (s : Game) (color : Color)
    (h : noFacingUnmovedKings s.board) :
    ∃ v, isKingInCheck (fuel + 2) s color = .ok v := by
  apply isKingInCheck_returns (fuel + 1) s color
  intro p hp c hc hu h2
  obtain ⟨hprow, hpcol, hpking, hpfirst⟩ := findKing_spec _ _ _ hp
  refine ⟨?_, fun col' => transit_returns fuel s color.opponent p.row c col' h hprow hc hu⟩
  apply isKingInCheck_returns fuel s color.opponent
  intro q hq c' hc' hu' _
  exfalso
  obtain ⟨hqrow, hqcol, hqking, hqfirst⟩ := findKing_spec _ _ _ hq
  have hcc : color.opponent.opponent = color := by cases color <;> rfl
  rw [hcc] at hu'
  -- the unmoved king of `color` stands on the row of `q`, the unmoved enemy king on the row of `p`
  have e1 : p.row ≤ q.row := hpfirst q.row hqrow c' hc' (isKingOf_of_isUnmovedKingOf _ _ _ _ hu')
  have e2 : q.row ≤ p.row := hqfirst p.row hprow c hc (isKingOf_of_isUnmovedKingOf _ _ _ _ hu)
  have e : q.row = p.row := le_antisymm e2 e1
  rw [e] at hu'
  cases color with
  | white => exact h p.row hprow c' hc' c hc ⟨hu', hu⟩
  | black => exact h p.row hprow c hc c' hc' ⟨hu, hu'⟩

theorem noFacing_of_apart (b : Board) (h : unmovedKingsApart b) : noFacingUnmovedKings b := by
  intro r hr c hc c' hc' hk
  have h2 := h r hr c hc hk.1 r hr c' hc' hk.2
  simp at h2

/-- The movement test of a piece that stands on the board returns, with at
most two nested check detections. -/
theorem isPieceMovementValid_returns (fuel : Nat) (s : Game) (piece : Piece)
    (fromRow fromCol toRow toCol : Int) (h : noFacingUnmovedKings s.board)
    (hfr : fromRow ∈ idx8) (hfc : fromCol ∈ idx8) (htr : toRow ∈ idx8)
    (hcell : s.board fromRow fromCol = some piece) :
    ∃ v, isPieceMovementValid (fuel + 3) s piece fromRow fromCol toRow toCol = .ok v := by
  by_cases hty : piece.type = .king
  · unfold isPieceMovementValid
    simp only [hty, isKingMoveValidWith]
    by_cases h1 : (toRow - fromRow).natAbs ≤ 1 ∧ (toCol - fromCol).natAbs ≤ 1
    · rw [if_pos h1]
      exact ⟨_, rfl⟩
    · rw [if_neg h1]
      by_cases h2 : (toRow - fromRow).natAbs = 0 ∧ (toCol - fromCol).natAbs = 2 ∧
          piece.hasMoved = false
      · rw [if_pos h2]
        have hu : isUnmovedKingOf s.board piece.color fromRow fromCol = true := by
          simp [isUnmovedKingOf, hcell, hty, h2.2.2]
        apply isCastlingValidWith_returns _ s piece fromRow fromCol toRow toCol hfr h2.2.1
        · exact isKingInCheck_total fuel s piece.color h
        · intro col
          exact transit_returns (fuel + 1) s piece.color fromRow fromCol col h hfr hfc hu
      · rw [if_neg h2]
        exact ⟨_, rfl⟩
  · exact isPieceMovementValid_returns_of_not_king (fuel + 2) s piece fromRow fromCol toRow toCol
      hfr htr hty

/-- A king move that passes the movement test stays on its row or goes to a
row next to it. -/
theorem king_move_rows (fuel : Nat) (s : Game) (piece : Piece)
    (fromRow fromCol toRow toCol : Int) (hty : piece.type = .king)
    (h : isPieceMovementValid fuel s piece fromRow fromCol toRow toCol = .ok true) :
    (toRow - fromRow).natAbs ≤ 1 := by
  cases fuel with
  | zero => simp [isPieceMovementValid] at h
  | succ n =>
    unfold isPieceMovementValid at h
    simp only [hty, isKingMoveValidWith] at h
    by_cases h1 : (toRow - fromRow).natAbs ≤ 1 ∧ (toCol - fromCol).natAbs ≤ 1
    · exact h1.1
    · rw [if_neg h1] at h
      by_cases h2 : (toRow - fromRow).natAbs = 0 ∧ (toCol - fromCol).natAbs = 2 ∧
          piece.hasMoved = false
      · omega
      · rw [if_neg h2] at h
        cases h

/-- An unmoved king on the simulation board stood there before, or is the
moved piece on the destination square. -/
theorem isUnmovedKingOf_simulateMove (b : Board) (color : Color)
    (fromRow fromCol toRow toCol r c : Int)
    (h : isUnmovedKingOf (simulateMove b fromRow fromCol toRow toCol) color r c = true) :
    isUnmovedKingOf b color r c = true ∨
      (r = toRow ∧ isUnmovedKingOf b color fromRow fromCol = true) := by
  have hcell : simulateMove b fromRow fromCol toRow toCol r c =
      if r = fromRow ∧ c = fromCol then none
      else if r = toRow ∧ c = toCol then b fromRow fromCol else b r c := by
    simp [simulateMove, setCell]
  unfold isUnmovedKingOf at h ⊢
  rw [hcell] at h
  by_cases hf : r = fromRow ∧ c = fromCol
  · rw [if_pos hf] at h
    cases h
  · rw [if_neg hf] at h
    by_cases ht : r = toRow ∧ c = toCol
    · rw [if_pos ht] at h
      exact Or.inr ⟨ht.1, h⟩
    · rw [if_neg ht] at h
      exact Or.inl h

/-- The simulation of a move that takes a king to its row or a row next to it
leaves no row with an unmoved king of each colour, on a board whose unmoved
kings of different colours are two rows apart. -/
theorem noFacing_simulateMove (b : Board) (fromRow fromCol toRow toCol : Int)
    (h : unmovedKingsApart b) (hfr : fromRow ∈ idx8) (hfc : fromCol ∈ idx8)
    (hstep : ∀ piece, b fromRow fromCol = some piece → piece.type = .king →
      (toRow - fromRow).natAbs ≤ 1) :
    noFacingUnmovedKings (simulateMove b fromRow fromCol toRow toCol) := by
  have hmoved : ∀ color, isUnmovedKingOf b color fromRow fromCol = true →
      (toRow - fromRow).natAbs ≤ 1 := by
    intro color hu
    unfold isUnmovedKingOf at hu
    cases hq : b fromRow fromCol with
    | none => rw [hq] at hu; cases hu
    | some q =>
      rw [hq] at hu
      simp only [Bool.and_eq_true, decide_eq_true_eq] at hu
      exact hstep q hq hu.1.1
  intro r hr c hc c' hc' hk
  rcases isUnmovedKingOf_simulateMove b .white fromRow fromCol toRow toCol r c hk.1 with
    hw | ⟨hrw, hw⟩
  · rcases isUnmovedKingOf_simulateMove b .black fromRow fromCol toRow toCol r c' hk.2 with
      hb | ⟨hrb, hb⟩
    · have := h r hr c hc hw r hr c' hc' hb
      simp at this
    · have := h r hr c hc hw fromRow hfr fromCol hfc hb
      have := hmoved .black hb
      omega
  · rcases isUnmovedKingOf_simulateMove b .black fromRow fromCol toRow toCol r c' hk.2 with
      hb | ⟨hrb, hb⟩
    · have := h fromRow hfr fromCol hfc hw r hr c' hc' hb
      have := hmoved .white hw
      omega
    · have := h fromRow hfr fromCol hfc hw fromRow hfr fromCol hfc hb
      simp at this

/-- The simulation of `wouldMoveResultInCheck` returns for a move that passed
the movement test. -/
theorem wouldMoveResultInCheck_returns (fuel : Nat) (s : Game) (piece : Piece)
    (fromRow fromCol toRow toCol : Int) (h : unmovedKingsApart s.board)
    (hfr : fromRow ∈ idx8) (hfc : fromCol ∈ idx8) (htr : toRow ∈ idx8)
    (hcell : s.board fromRow fromCol = some piece)
    (hstep : piece.type = .king → (toRow - fromRow).natAbs ≤ 1) :
    ∃ v, wouldMoveResultInCheck (fuel + 2) s fromRow fromCol toRow toCol = .ok v := by
  unfold wouldMoveResultInCheck
  simp only [getCell, rowOk_of_mem hfr, rowOk_of_mem htr, if_true, hcell]
  apply isKingInCheck_total
  apply noFacing_simulateMove s.board fromRow fromCol toRow toCol h hfr hfc
  intro q hq hk
  rw [hcell] at hq
  cases hq
  exact hstep hk

/-- The body of the two inner loops of `hasValidMoves`, and the last two tests
of `isValidMove`, return. -/
theorem moveTests_return (fuel : Nat) (s : Game) (piece : Piece)
    (fromRow fromCol toRow toCol : Int) (h : unmovedKingsApart s.board)
    (hfr : fromRow ∈ idx8) (hfc : fromCol ∈ idx8) (htr : toRow ∈ idx8)
    (hcell : s.board fromRow fromCol = some piece) :
    ∃ v, (match isPieceMovementValid (fuel + 3) s piece fromRow fromCol toRow toCol with
      | .error e => (.error e : Except Err Bool)
      | .ok false => .ok false
      | .ok true =>
        match wouldMoveResultInCheck (fuel + 3) s fromRow fromCol toRow toCol with
        | .error e => .error e
        | .ok inCheck => .ok (!inCheck)) = .ok v := by
  obtain ⟨v, hv⟩ := isPieceMovementValid_returns fuel s piece fromRow fromCol toRow toCol
    (noFacing_of_apart _ h) hfr hfc htr hcell
  cases v with
  | false =>
    rw [hv]
    exact ⟨_, rfl⟩
  | true =>
    obtain ⟨w, hw⟩ := wouldMoveResultInCheck_returns (fuel + 1) s piece fromRow fromCol toRow toCol
      h hfr hfc htr hcell
      (fun hk => king_move_rows _ s piece fromRow fromCol toRow toCol hk hv)
    rw [hv]
    simp only
    rw [hw]
    exact ⟨_, rfl⟩

theorem isValidMove_returns (fuel : Nat) (s : Game) (fromRow fromCol toRow toCol : Int)
    (playerId : IdValue) (h : unmovedKingsApart s.board)
    (hfr : fromRow ∈ idx8) (hfc : fromCol ∈ idx8) (htr : toRow ∈ idx8) :
    ∃ v, isValidMove (fuel + 3) s fromRow fromCol toRow toCol playerId = .ok v := by
  unfold isValidMove
  simp only [getCell, rowOk_of_mem hfr, rowOk_of_mem htr, if_true]
  by_cases hg : getPlayerColor s playerId ≠ some s.currentPlayer ∨ s.gameOver = true
  · rw [if_pos hg]
    exact ⟨_, rfl⟩
  · rw [if_neg hg]
    cases hcell : s.board fromRow fromCol with
    | none => exact ⟨_, rfl⟩
    | some piece =>
      simp only
      by_cases hc : some piece.color ≠ getPlayerColor s playerId
      · rw [if_pos hc]
        exact ⟨_, rfl⟩
      · rw [if_neg hc]
        by_cases ht : (s.board toRow toCol).map (·.color) = some piece.color
        · rw [if_pos ht]
          exact ⟨_, rfl⟩
        · rw [if_neg ht]
          exact moveTests_return fuel s piece fromRow fromCol toRow toCol h hfr hfc htr hcell

theorem hasValidMoves_returns (fuel : Nat) (s : Game) (color : Color)
    (h : unmovedKingsApart s.board) :
    ∃ v, hasValidMoves (fuel + 3) s color = .ok v := by
  unfold hasValidMoves
  apply anyE_returns
  intro fromRow hfr
  apply anyE_returns
  intro fromCol hfc
  cases hcell : s.board fromRow fromCol with
  | none => exact ⟨_, rfl⟩
  | some piece =>
    simp only
    by_cases hc : piece.color = color
    · rw [if_pos hc]
      apply anyE_returns
      intro toRow htr
      apply anyE_returns
      intro toCol _
      exact moveTests_return fuel s piece fromRow fromCol toRow toCol h hfr hfc htr hcell
    · rw [if_neg hc]
      exact ⟨_, rfl⟩

/-- C36 (amended): whatever the other pieces, `hasMoved` flags and castling
rights are, `isKingInCheck(color)` returns on every board on which no row
holds both an unmoved white king and an unmoved black king, with at most one
nested check detection; `isValidMove`, for squares on the board, and
`hasValidMoves(color)` return on every board on which no unmoved white king
stands on the row of an unmoved black king or on a row next to it, with at
most two nested check detections. -/
theorem c36_check_detection_returns (fuel : Nat) (s : Game) (color : Color) :
    (noFacingUnmovedKings s.board → ∃ v, isKingInCheck (fuel + 2) s color = .ok v) ∧
      (unmovedKingsApart s.board →
        (∀ fromRow ∈ idx8, ∀ fromCol ∈ idx8, ∀ toRow ∈ idx8, ∀ toCol ∈ idx8, ∀ playerId,
          ∃ v, isValidMove (fuel + 3) s fromRow fromCol toRow toCol playerId = .ok v) ∧
        ∃ v, hasValidMoves (fuel + 3) s color = .ok v) :=
  ⟨isKingInCheck_total fuel s color,
    fun h => ⟨fun fromRow hfr fromCol hfc toRow htr toCol _ playerId =>
      isValidMove_returns fuel s fromRow fromCol toRow toCol playerId h hfr hfc htr,
      hasValidMoves_returns fuel s color h⟩⟩

/-- Witness for C36: the initial position. -/
theorem c36_check_detection_returns_witness :
    noFacingUnmovedKings startedGame.board ∧ unmovedKingsApart startedGame.board ∧
      (∃ v, isKingInCheck (0 + 2) startedGame .white = .ok v) ∧
      (∃ v, isValidMove (0 + 3) startedGame 6 4 4 4 "w" = .ok v) ∧
      ∃ v, hasValidMoves (0 + 3) startedGame .white = .ok v :=
  ⟨by unfold noFacingUnmovedKings; decide!, by unfold unmovedKingsApart; decide!,
    (c36_check_detection_returns 0 startedGame .white).1
      (by unfold noFacingUnmovedKings; decide!),
    ((c36_check_detection_returns 0 startedGame .white).2
      (by unfold unmovedKingsApart; decide!)).1 6 (by decide) 4 (by decide) 4 (by decide) 4
        (by decide) "w",
    ((c36_check_detection_returns 0 startedGame .white).2
      (by unfold unmovedKingsApart; decide!)).2⟩

/-! ## Conservation of material -/

theorem Captured.length_push (cp : Captured) (c : Color) (p : Piece) (color : Color) :
    ((cp.push c p).get color).length = (cp.get color).length + (decide (c = color)).toNat := by
  cases c <;> cases color <;> simp [Captured.push, Captured.get]

theorem hasColor_some (p : Piece) (color : Color) :
    hasColor (some p) color = decide (p.color = color) := rfl

/-- The record and the history written by `makeMove`. -/
theorem makeMove_record (s : Game) (fromRow fromCol toRow toCol : Int)
    (promotionPiece : Option PieceType) (piece : Piece) (r : MoveRecord) (s' : Game)
    (hp : s.board fromRow fromCol = some piece)
    (h : makeMove s fromRow fromCol toRow toCol promotionPiece = .ok (r, s')) :
    s'.moveHistory = s.moveHistory ++ [r] ∧ r.fromSq = ⟨fromRow, fromCol⟩ ∧
      r.toSq = ⟨toRow, toCol⟩ ∧ r.piece = piece ∧ r.capturedPiece = s.board toRow toCol ∧
      r.enPassantTarget = s.enPassantTarget ∧
      r.castling = (if piece.type = .king ∧ (toCol - fromCol).natAbs = 2 then
        some ⟨decide (toCol > fromCol), if toCol > fromCol then 7 else 0,
          if toCol > fromCol then 5 else 3⟩ else none) := by
  unfold makeMove at h
  unfold getCell at h
  by_cases hfr : rowOk fromRow = true
  · by_cases htr : rowOk toRow = true
    · simp only [hfr, htr, if_true, hp] at h
      split at h
      · cases h
      · split at h
        · cases h
        · simp only [Except.ok.injEq, Prod.mk.injEq] at h
          obtain ⟨hr, hs⟩ := h
          subst hr
          subst hs
          refine ⟨rfl, ?_, ?_, ?_, ?_, ?_, ?_⟩
          all_goals first
            | rfl
            | (split_ifs <;> first | rfl | simp_all)
    · simp [hfr, htr] at h
  · simp [hfr] at h

/-- Writing an empty cell or a piece that has moved keeps the unmoved kings
where they are. -/
theorem kingsHome_setCell (b : Board) (r c : Int) (v : Option Piece)
    (hv : ∀ p, v = some p → p.hasMoved = true) (h : kingsHome b) :
    kingsHome (setCell b r c v) := by
  intro r' hr' c' hc' p hcell hking hunmoved
  unfold setCell at hcell
  by_cases hrc : r' = r ∧ c' = c
  · rw [if_pos hrc] at hcell
    have := hv p hcell
    rw [this] at hunmoved
    cases hunmoved
  · rw [if_neg hrc] at hcell
    exact h r' hr' c' hc' p hcell hking hunmoved

/-- An accepted in-bounds move made in a state with the facts of `Basic` is
applied by `makeMove` without an exception and leads to a state with these
facts. -/
theorem makeMove_basic (fuel : Nat) (s : Game) (fromRow fromCol toRow toCol : Int)
    (playerId : IdValue) (promotionPiece : Option PieceType)
    (hfr : fromRow ∈ idx8) (hfc : fromCol ∈ idx8) (htr : toRow ∈ idx8) (htc : toCol ∈ idx8)
    (h : isValidMove fuel s fromRow fromCol toRow toCol playerId = .ok true)
    (hb : Basic s) :
    ∃ r s', makeMove s fromRow fromCol toRow toCol promotionPiece = .ok (r, s') ∧ Basic s' := by
  obtain ⟨hmat, hep, hkings⟩ := hb
  obtain ⟨piece, hrf, hrt, hp, hcol, ht, hmv, _⟩ := isValidMove_accept_inv _ _ _ _ _ _ _ h
  have hne := accept_ne s piece fromRow fromCol toRow toCol hp ht
  have hpm : hasColor (some piece) s.currentPlayer = true := by simp [hasColor, hcol]
  by_cases hty : piece.type = .pawn
  · have hspec := pawn_accept_inv _ _ _ _ _ _ _ hty hrf hrt hmv
    obtain ⟨hcpr, hrow1⟩ := pawn_capturedRow s piece _ _ _ _ hrf hrt hspec
    obtain ⟨r, s', hmk, hbd, hcap, hept, hcur, _⟩ := makeMove_pawn s fromRow fromCol toRow toCol
      promotionPiece piece hrf hrt hp hty hne hcpr
    simp only at hbd hcap
    have hcprmem : (if piece.color = .white then toRow + 1 else toRow - 1) ∈ idx8 :=
      (mem_idx8 _).2 ((rowOk_iff _).1 hcpr)
    have hcprne : (if piece.color = .white then toRow + 1 else toRow - 1) ≠ toRow := by
      split_ifs <;> omega
    -- the en-passant victim is not the moving pawn
    have halias : s.enPassantTarget = some ⟨toRow, toCol⟩ →
        ¬ (fromRow = (if piece.color = .white then toRow + 1 else toRow - 1) ∧
          fromCol = toCol) := by
      intro he
      have hbehind := (hep _ he).2
      simp only at hbehind
      rw [← hcol] at hbehind
      rintro ⟨e1, e2⟩
      rw [← e1, ← e2, hp, hcol, hpm] at hbehind
      cases hbehind
    generalize (if piece.color = Color.white then toRow + 1 else toRow - 1) = cpr
      at hbd hcap hcprmem hcprne halias
    have hcapcell : ∀ q, (if s.enPassantTarget = some ⟨toRow, toCol⟩ then s.board cpr toCol
        else none) = some q →
        s.board cpr toCol = some q ∧ ¬ (fromRow = cpr ∧ fromCol = toCol) := by
      intro q hq
      by_cases he : s.enPassantTarget = some ⟨toRow, toCol⟩
      · rw [if_pos he] at hq
        exact ⟨hq, halias he⟩
      · rw [if_neg he] at hq
        cases hq
    generalize (if s.enPassantTarget = some ⟨toRow, toCol⟩ then s.board cpr toCol else none) = cap
      at hbd hcap hcapcell
    have hpushed : (if cpr = fromRow ∧ toCol = fromCol then
          cap.map fun _ => (⟨if isPromotionRank toRow piece.color = true then
            promotionPiece.getD .queen else .pawn, piece.color, true⟩ : Piece)
          else cap) = cap := by
      cases hc : cap with
      | none => simp
      | some q =>
        have := (hcapcell q hc).2
        rw [if_neg (fun e => this ⟨e.1.symm, e.2.symm⟩)]
    rw [hpushed] at hcap
    have hb1cnt : ∀ color, countPieces (if cap.isSome = true then setCell s.board cpr toCol none
        else s.board) color + (hasColor cap color).toNat = countPieces s.board color := by
      intro color
      cases hc : cap with
      | none => simp [hasColor]
      | some q =>
        have e1 := countPieces_setCell s.board cpr toCol none color hcprmem htc
        rw [(hcapcell q hc).1] at e1
        simpa [hasColor] using e1
    have hb1to : (if cap.isSome = true then setCell s.board cpr toCol none
        else s.board) toRow toCol = s.board toRow toCol := by
      by_cases hc : cap.isSome = true
      · rw [if_pos hc, setCell_other _ _ _ _ _ _ (fun e => hcprne e.1.symm)]
      · rw [if_neg hc]
    have hb1from : (if cap.isSome = true then setCell s.board cpr toCol none
        else s.board) fromRow fromCol = some piece := by
      cases hc : cap with
      | none => simpa using hp
      | some q =>
        simp only [Option.isSome_some, if_true]
        rw [setCell_other _ _ _ _ _ _ (hcapcell q hc).2, hp]
    have hb1none : ∀ r c, s.board r c = none → (if cap.isSome = true then
        setCell s.board cpr toCol none else s.board) r c = none := by
      intro r c hrc
      by_cases hc : cap.isSome = true
      · rw [if_pos hc]
        unfold setCell
        by_cases hh : r = cpr ∧ c = toCol
        · rw [if_pos hh]
        · rw [if_neg hh, hrc]
      · rw [if_neg hc, hrc]
    have hb1kings : kingsHome (if cap.isSome = true then setCell s.board cpr toCol none
        else s.board) := by
      by_cases hc : cap.isSome = true
      · rw [if_pos hc]
        exact kingsHome_setCell _ _ _ _ (by simp) hkings
      · rw [if_neg hc]
        exact hkings
    generalize (if cap.isSome = true then setCell s.board cpr toCol none else s.board) = b1
      at hbd hb1cnt hb1to hb1from hb1none hb1kings
    have hne' : ¬ (toRow = fromRow ∧ toCol = fromCol) := fun e => hne ⟨e.1.symm, e.2.symm⟩
    refine ⟨r, s', hmk, ?_, ?_, ?_⟩
    · -- material
      intro color
      have hmove := countPieces_move b1 fromRow fromCol toRow toCol piece
        { piece with hasMoved := true } color hfr hfc htr htc hb1from rfl hne
      rw [hb1to] at hmove
      have hfinal : countPieces s'.board color =
          countPieces (setCell (setCell b1 toRow toCol (some { piece with hasMoved := true }))
            fromRow fromCol none) color := by
        rw [hbd]
        by_cases hpr : isPromotionRank toRow piece.color = true
        · rw [if_pos hpr]
          have e := countPieces_setCell
            (setCell (setCell b1 toRow toCol (some { piece with hasMoved := true }))
              fromRow fromCol none) toRow toCol
            (some ⟨promotionPiece.getD .queen, piece.color, true⟩) color htr htc
          rw [setCell_other _ _ _ _ _ _ hne', setCell_same] at e
          simp only [hasColor] at e
          omega
        · rw [if_neg hpr]
      have hlen : (s'.capturedPieces.get color).length =
          (s.capturedPieces.get color).length + (hasColor cap color).toNat +
            (hasColor (s.board toRow toCol) color).toNat := by
        rw [hcap]
        cases cap <;> cases s.board toRow toCol <;>
          simp only [Captured.length_push, hasColor, Bool.toNat_false, add_zero]
      rw [hfinal, hlen]
      have := hmat color
      have := hb1cnt color
      omega
    · -- en-passant target
      intro t ht'
      rw [hept] at ht'
      by_cases h2 : (toRow - fromRow).natAbs = 2
      · rw [if_pos h2] at ht'
        cases ht'
        simp only
        unfold pawnMoveSpec at hspec
        simp only at hspec
        have hsq : toCol = fromCol ∧ s.board ((fromRow + toRow) / 2) fromCol = none ∧
            (if s.currentPlayer.opponent = Color.white then (fromRow + toRow) / 2 + 1
              else (fromRow + toRow) / 2 - 1) = toRow ∧
            ¬ ((fromRow + toRow) / 2 = toRow) ∧ ¬ ((fromRow + toRow) / 2 = fromRow) := by
          rw [← hcol]
          cases hc : piece.color with
          | white =>
            simp only [hc, if_true, reduceCtorEq, if_false, Color.opponent] at hspec ⊢
            rcases hspec with ⟨h3, h4, _⟩ | ⟨h3, h4, h5, h6, _⟩ | ⟨h3, h4, _⟩
            · exfalso; omega
            · subst h4; subst h5
              have e : ((6 + (6 + 2 * -1)) / 2 : Int) = 6 + -1 := by decide
              rw [e]
              exact ⟨h3, h6, by decide, by decide, by decide⟩
            · exfalso; omega
          | black =>
            simp only [hc, if_true, reduceCtorEq, if_false, Color.opponent] at hspec ⊢
            rcases hspec with ⟨h3, h4, _⟩ | ⟨h3, h4, h5, h6, _⟩ | ⟨h3, h4, _⟩
            · exfalso; omega
            · subst h4; subst h5
              have e : ((1 + (1 + 2 * 1)) / 2 : Int) = 1 + 1 := by decide
              rw [e]
              exact ⟨h3, h6, by decide, by decide, by decide⟩
            · exfalso; omega
        obtain ⟨hcc, hmid, hbehind, hn1, hn2⟩ := hsq
        rw [hcur, hbehind]
        have hm1 : ¬ ((fromRow + toRow) / 2 = toRow ∧ fromCol = toCol) := fun e => hn1 e.1
        have hm2 : ¬ ((fromRow + toRow) / 2 = fromRow ∧ fromCol = fromCol) := fun e => hn2 e.1
        have hmid3 : setCell (setCell b1 toRow toCol (some { piece with hasMoved := true }))
            fromRow fromCol none ((fromRow + toRow) / 2) fromCol = none := by
          rw [setCell_other _ _ _ _ _ _ hm2, setCell_other _ _ _ _ _ _ hm1]
          exact hb1none _ _ hmid
        constructor
        · rw [hbd]
          by_cases hpr : isPromotionRank toRow piece.color = true
          · rw [if_pos hpr, setCell_other _ _ _ _ _ _ hm1]
            exact hmid3
          · rw [if_neg hpr]
            exact hmid3
        · have hto : ∃ q, s'.board toRow toCol = some q ∧ q.color = piece.color := by
            rw [hbd]
            by_cases hpr : isPromotionRank toRow piece.color = true
            · rw [if_pos hpr]
              exact ⟨_, setCell_same _ _ _ _, rfl⟩
            · rw [if_neg hpr, setCell_other _ _ _ _ _ _ hne', setCell_same]
              exact ⟨_, rfl, rfl⟩
          obtain ⟨q, hq, hqc⟩ := hto
          rw [← hcc, hq]
          simp only [hasColor, decide_eq_false_iff_not, hqc, hcol]
          cases s.currentPlayer <;> simp [Color.opponent]
      · rw [if_neg h2] at ht'
        cases ht'
    · -- unmoved kings
      rw [hbd]
      have hk3 := kingsHome_setCell _ fromRow fromCol none (by simp)
        (kingsHome_setCell _ toRow toCol (some { piece with hasMoved := true })
          (by intro p hp'; cases hp'; rfl) hb1kings)
      by_cases hpr : isPromotionRank toRow piece.color = true
      · rw [if_pos hpr]
        exact kingsHome_setCell _ _ _ _ (by intro p hp'; cases hp'; rfl) hk3
      · rw [if_neg hpr]
        exact hk3
  · by_cases hk : piece.type = .king ∧ (toCol - fromCol).natAbs = 2
    · obtain ⟨hrow, hunmoved, _, ⟨rook, hrook⟩, hcross, hto⟩ :=
        castle_accept_inv _ _ _ _ _ _ _ hk.1 hk.2 hmv
      subst hrow
      have hc4 : fromCol = 4 := hkings toRow htr fromCol hfc piece hp hk.1 hunmoved
      subst hc4
      obtain ⟨r, s', hmk, hbd, hcap, hept, hcur, _⟩ := makeMove_castle s toRow 4 toCol
        promotionPiece piece rook hrf hp hk.1 hk.2 hrook hto
      have hcases : toCol = 6 ∨ toCol = 2 := by omega
      refine ⟨r, s', hmk, ?_, ?_, ?_⟩
      · intro color
        have hrookmove := countPieces_move s.board toRow
          (if toCol > 4 then 7 else 0) toRow (if toCol > 4 then 5 else 3) rook
          { rook with hasMoved := true } color htr (by split_ifs <;> decide) htr
          (by split_ifs <;> decide) hrook rfl (by split_ifs <;> simp)
        have hcross' : s.board toRow (if toCol > 4 then 5 else 3) = none := by
          rcases hcases with rfl | rfl <;> simpa using hcross
        rw [hcross'] at hrookmove
        have hkingcell : setCell (setCell s.board toRow (if toCol > 4 then 5 else 3)
            (some { rook with hasMoved := true })) toRow (if toCol > 4 then 7 else 0) none
            toRow 4 = some piece := by
          rw [setCell_other _ _ _ _ _ _ (by rcases hcases with rfl | rfl <;> simp),
            setCell_other _ _ _ _ _ _ (by rcases hcases with rfl | rfl <;> simp), hp]
        have htocell : setCell (setCell s.board toRow (if toCol > 4 then 5 else 3)
            (some { rook with hasMoved := true })) toRow (if toCol > 4 then 7 else 0) none
            toRow toCol = none := by
          rw [setCell_other _ _ _ _ _ _ (by rcases hcases with rfl | rfl <;> simp),
            setCell_other _ _ _ _ _ _ (by rcases hcases with rfl | rfl <;> simp), hto]
        have hkingmove := countPieces_move _ toRow 4 toRow toCol piece
          { piece with hasMoved := true } color htr (by decide) htr htc hkingcell rfl hne
        rw [htocell] at hkingmove
        simp only [hasColor, Bool.toNat_false, add_zero] at hrookmove hkingmove
        rw [hbd, hcap, hkingmove, hrookmove]
        exact hmat color
      · intro t ht'
        rw [hept] at ht'
        cases ht'
      · rw [hbd]
        exact kingsHome_setCell _ _ _ _ (by simp)
          (kingsHome_setCell _ _ _ _ (by intro p hp'; cases hp'; rfl)
            (kingsHome_setCell _ _ _ _ (by simp)
              (kingsHome_setCell _ _ _ _ (by intro p hp'; cases hp'; rfl) hkings)))
    · obtain ⟨r, s', hmk, hbd, hcap, hept, _, hcur, _⟩ := makeMove_plain s fromRow fromCol
        toRow toCol promotionPiece piece hrf hrt hp hty hk hne
      refine ⟨r, s', hmk, ?_, ?_, ?_⟩
      · intro color
        have hmove := countPieces_move s.board fromRow fromCol toRow toCol piece
          { piece with hasMoved := true } color hfr hfc htr htc hp rfl hne
        have hlen : (s'.capturedPieces.get color).length =
            (s.capturedPieces.get color).length +
              (hasColor (s.board toRow toCol) color).toNat := by
          rw [hcap]
          cases s.board toRow toCol <;>
            simp only [Captured.length_push, hasColor, Bool.toNat_false, add_zero]
        rw [hbd, hlen]
        have := hmat color
        omega
      · intro t ht'
        rw [hept] at ht'
        cases ht'
      · rw [hbd]
        exact kingsHome_setCell _ _ _ _ (by simp)
          (kingsHome_setCell _ _ _ _ (by intro p hp'; cases hp'; rfl) hkings)

theorem cellRel_refl (o : Option Piece) : cellRel o o := by
  cases o with
  | none => trivial
  | some p => exact ⟨rfl, rfl, fun h => h⟩

theorem cellRel_setCell (b b' : Board) (r c : Int) (v v' : Option Piece)
    (hb : ∀ r c, cellRel (b r c) (b' r c)) (hv : cellRel v v') :
    ∀ r' c', cellRel (setCell b r c v r' c') (setCell b' r c v' r' c') := by
  intro r' c'
  unfold setCell
  by_cases h : r' = r ∧ c' = c
  · rw [if_pos h, if_pos h]
    exact hv
  · rw [if_neg h, if_neg h]
    exact hb r' c'

/-- `undoMove` acts in the same way on two states that differ in the types of
pieces. -/
theorem undoMove_retyped (s t : Game) (h : Retyped s t) (b : Bool) (s' : Game)
    (hu : undoMove s = .ok (b, s')) :
    ∃ t', undoMove t = .ok (b, t') ∧ Retyped s' t' := by
  obtain ⟨hh, hc, he, hcur, hcells⟩ := h
  unfold undoMove at hu ⊢
  rw [hh, hc, hcur]
  cases hl : s.moveHistory.getLast? with
  | none =>
    rw [hl] at hu
    simp only [Except.ok.injEq, Prod.mk.injEq] at hu
    obtain ⟨rfl, rfl⟩ := hu
    exact ⟨t, rfl, hh, hc, he, hcur, hcells⟩
  | some L =>
    rw [hl] at hu
    simp only at hu ⊢
    by_cases hrows : rowOk L.fromSq.row = false ∨ rowOk L.toSq.row = false
    · rw [if_pos hrows] at hu
      cases hu
    · rw [if_neg hrows] at hu ⊢
      have rel1 := cellRel_setCell _ _ L.toSq.row L.toSq.col L.capturedPiece L.capturedPiece
        (cellRel_setCell _ _ L.fromSq.row L.fromSq.col
          (some (if L.promotion.isSome = true then { L.piece with type := .pawn } else L.piece))
          (some (if L.promotion.isSome = true then { L.piece with type := .pawn } else L.piece))
          hcells (cellRel_refl _)) (cellRel_refl _)
      generalize setCell (setCell s.board L.fromSq.row L.fromSq.col
          (some (if L.promotion.isSome = true then { L.piece with type := .pawn } else L.piece)))
          L.toSq.row L.toSq.col L.capturedPiece = B1s at hu rel1
      generalize setCell (setCell t.board L.fromSq.row L.fromSq.col
          (some (if L.promotion.isSome = true then { L.piece with type := .pawn } else L.piece)))
          L.toSq.row L.toSq.col L.capturedPiece = B1t at rel1 ⊢
      -- the castling step, on related boards
      have castle : ∀ (B2s B2t : Board) (C2 : Captured),
          (∀ r c, cellRel (B2s r c) (B2t r c)) →
          (match
            (match L.castling with
            | some c =>
              match B2s L.fromSq.row c.rookTo with
              | none => (Except.error Err.typeError : Except Err Board)
              | some rook =>
                Except.ok (setCell (setCell B2s L.fromSq.row c.rookFrom
                  (some { rook with hasMoved := false })) L.fromSq.row c.rookTo none)
            | none => Except.ok B2s) with
          | Except.error e => (Except.error e : Except Err (Bool × Game))
          | Except.ok board3 =>
            Except.ok (true,
              { s with
                board := board3
                moveHistory := s.moveHistory.dropLast
                capturedPieces := C2
                enPassantTarget := L.enPassantTarget
                castlingRights := L.castlingRights
                currentPlayer := s.currentPlayer.opponent
                gameOver := false })) = Except.ok (b, s') →
          ∃ t', (match
            (match L.castling with
            | some c =>
              match B2t L.fromSq.row c.rookTo with
              | none => (Except.error Err.typeError : Except Err Board)
              | some rook =>
                Except.ok (setCell (setCell B2t L.fromSq.row c.rookFrom
                  (some { rook with hasMoved := false })) L.fromSq.row c.rookTo none)
            | none => Except.ok B2t) with
          | Except.error e => (Except.error e : Except Err (Bool × Game))
          | Except.ok board3 =>
            Except.ok (true,
              { t with
                board := board3
                moveHistory := s.moveHistory.dropLast
                capturedPieces := C2
                enPassantTarget := L.enPassantTarget
                castlingRights := L.castlingRights
                currentPlayer := s.currentPlayer.opponent
                gameOver := false })) = Except.ok (b, t') ∧ Retyped s' t' := by
        intro B2s B2t C2 rel2 h3
        cases hcas : L.castling with
        | none =>
          rw [hcas] at h3
          simp only [Except.ok.injEq, Prod.mk.injEq] at h3
          obtain ⟨rfl, rfl⟩ := h3
          exact ⟨_, rfl, rfl, rfl, rfl, rfl, rel2⟩
        | some c =>
          rw [hcas] at h3
          simp only at h3 ⊢
          have hrel := rel2 L.fromSq.row c.rookTo
          cases hs : B2s L.fromSq.row c.rookTo with
          | none =>
            rw [hs] at h3
            cases h3
          | some rook =>
            cases ht : B2t L.fromSq.row c.rookTo with
            | none =>
              rw [hs, ht] at hrel
              exact absurd hrel (by simp [cellRel])
            | some rook' =>
              rw [hs, ht] at hrel
              rw [hs] at h3
              simp only [Except.ok.injEq, Prod.mk.injEq] at h3
              obtain ⟨rfl, rfl⟩ := h3
              refine ⟨_, rfl, rfl, rfl, rfl, rfl, ?_⟩
              exact cellRel_setCell _ _ _ _ _ _
                (cellRel_setCell _ _ _ _ _ _ rel2 ⟨hrel.1, rfl, hrel.2.2⟩) trivial
      cases hq : L.enPassantCapture with
      | none =>
        rw [hq] at hu
        exact castle B1s B1t _ rel1 hu
      | some q =>
        rw [hq] at hu
        simp only at hu ⊢
        by_cases hr : rowOk (if L.piece.color = .white then L.toSq.row + 1
            else L.toSq.row - 1) = true
        · rw [if_pos hr] at hu ⊢
          exact castle _ _ _ (cellRel_setCell _ _ _ _ _ _ rel1 (cellRel_refl _)) hu
        · rw [if_neg hr] at hu
          cases hu

theorem hasColor_of_cellRel (o o' : Option Piece) (h : cellRel o o') (color : Color) :
    hasColor o' color = hasColor o color := by
  cases o with
  | none =>
    cases o' with
    | none => rfl
    | some q => exact absurd h (by simp [cellRel])
  | some p =>
    cases o' with
    | none => exact absurd h (by simp [cellRel])
    | some q =>
      simp only [hasColor]
      rw [h.1]

theorem eq_none_of_cellRel (o o' : Option Piece) (h : cellRel o o') (ho : o = none) :
    o' = none := by
  subst ho
  cases o' with
  | none => rfl
  | some q => exact absurd h (by simp [cellRel])

/-- The facts of `Basic` do not depend on the types of pieces other than
kings. -/
theorem Basic_retyped (s t : Game) (h : Retyped s t) (hb : Basic s) : Basic t := by
  obtain ⟨hh, hc, he, hcur, hcells⟩ := h
  obtain ⟨hmat, hep, hkings⟩ := hb
  refine ⟨?_, ?_, ?_⟩
  · intro color
    have hcount : countPieces t.board color = countPieces s.board color := by
      unfold countPieces
      have : (fun sq : Int × Int => hasColor (t.board sq.1 sq.2) color) =
          fun sq : Int × Int => hasColor (s.board sq.1 sq.2) color :=
        funext fun sq => hasColor_of_cellRel _ _ (hcells sq.1 sq.2) color
      rw [this]
    rw [hcount, hc]
    exact hmat color
  · intro sq hsq
    rw [he] at hsq
    obtain ⟨h1, h2⟩ := hep sq hsq
    rw [hcur]
    exact ⟨eq_none_of_cellRel _ _ (hcells _ _) h1,
      by rw [hasColor_of_cellRel _ _ (hcells _ _)]; exact h2⟩
  · intro r hr c hc' q hq hking hunmoved
    have hrel := hcells r c
    rw [hq] at hrel
    cases hp : s.board r c with
    | none =>
      rw [hp] at hrel
      exact absurd hrel (by simp [cellRel])
    | some p =>
      rw [hp] at hrel
      exact hkings r hr c hc' p hp (hrel.2.2 hking) (by rw [← hrel.2.1]; exact hunmoved)

/-- Soundness does not depend on the types of pieces other than kings. -/
theorem Sound_retyped (s : Game) (hs : Sound s) : ∀ t, Retyped s t → Sound t := by
  induction hs with
  | mk s hb hu _ ih =>
    intro t ht
    obtain ⟨⟨b, s'⟩, hx⟩ := hu
    obtain ⟨t', ht', hrel⟩ := undoMove_retyped s t ht b s' hx
    refine Sound.mk t (Basic_retyped s t ht hb) ⟨_, ht'⟩ ?_
    intro t'' ht''
    rw [ht'] at ht''
    simp only [Except.ok.injEq, Prod.mk.injEq] at ht''
    obtain ⟨rfl, rfl⟩ := ht''
    exact ih s' hx t' hrel

theorem Retyped_refl_of_core (s t : Game) (h1 : t.board = s.board)
    (h2 : t.moveHistory = s.moveHistory) (h3 : t.capturedPieces = s.capturedPieces)
    (h4 : t.enPassantTarget = s.enPassantTarget) (h5 : t.currentPlayer = s.currentPlayer) :
    Retyped s t :=
  ⟨h2, h3, h4, h5, fun r c => by rw [h1]; exact cellRel_refl _⟩

theorem Captured.pop_push (cp : Captured) (c : Color) (p : Piece) :
    (cp.push c p).pop c = cp := by
  cases c <;> simp [Captured.push, Captured.pop]

/-- The piece on the corner that a successful castling test has looked at is an
unmoved rook. -/
theorem castle_rook_unmoved (fuel : Nat) (s : Game) (piece : Piece)
    (fromRow fromCol toRow toCol : Int) (hty : piece.type = .king)
    (h2 : (toCol - fromCol).natAbs = 2)
    (h : isPieceMovementValid fuel s piece fromRow fromCol toRow toCol = .ok true)
    (rook : Piece) (hrook : s.board fromRow (if toCol > fromCol then 7 else 0) = some rook) :
    rook.type = .rook ∧ rook.hasMoved = false := by
  cases fuel with
  | zero => simp [isPieceMovementValid] at h
  | succ n =>
    obtain ⟨ty, color, hm⟩ := piece
    simp only at hty
    subst hty
    simp only [isPieceMovementValid, isKingMoveValidWith] at h
    have hnot : ¬ ((toRow - fromRow).natAbs ≤ 1 ∧ (toCol - fromCol).natAbs ≤ 1) := by omega
    rw [if_neg hnot] at h
    by_cases hc : (toRow - fromRow).natAbs = 0 ∧ (toCol - fromCol).natAbs = 2 ∧ hm = false
    · rw [if_pos hc] at h
      unfold isCastlingValidWith at h
      simp only [getCell, decide_eq_true_eq] at h
      by_cases hfr : rowOk fromRow = true
      · rw [if_pos hfr, hrook] at h
        simp only at h
        by_cases c1 : rook.type ≠ .rook ∨ rook.hasMoved = true
        · rw [if_pos c1] at h
          cases h
        · constructor
          · by_contra hn
            exact c1 (Or.inl hn)
          · cases hh : rook.hasMoved
            · rfl
            · exact absurd (Or.inr hh) c1
      · rw [if_neg hfr] at h
        cases h
    · rw [if_neg hc] at h
      cases h

theorem cellRel_retype (piece : Piece) (flag : Bool) :
    cellRel (some piece) (some (if flag = true then { piece with type := .pawn } else piece)) := by
  cases flag with
  | false => exact ⟨rfl, rfl, fun h => h⟩
  | true => exact ⟨rfl, rfl, fun h => by cases h⟩

/-- After an accepted in-bounds move made in a state with the facts of `Basic`,
`undoMove` returns and leads back to the state before the move, up to the type
of the piece that moved. -/
theorem undoMove_makeMove (fuel : Nat) (s : Game) (fromRow fromCol toRow toCol : Int)
    (playerId : IdValue) (promotionPiece : Option PieceType)
    (hfr : fromRow ∈ idx8) (hfc : fromCol ∈ idx8) (htr : toRow ∈ idx8) (htc : toCol ∈ idx8)
    (h : isValidMove fuel s fromRow fromCol toRow toCol playerId = .ok true)
    (hb : Basic s) (r : MoveRecord) (s' : Game)
    (hmk : makeMove s fromRow fromCol toRow toCol promotionPiece = .ok (r, s')) :
    ∃ s'', undoMove s' = .ok (true, s'') ∧ Retyped s s'' := by
  obtain ⟨hmat, hep, hkings⟩ := hb
  obtain ⟨piece, hrf, hrt, hp, hcol, ht, hmv, _⟩ := isValidMove_accept_inv _ _ _ _ _ _ _ h
  have hne := accept_ne s piece fromRow fromCol toRow toCol hp ht
  have hne' : ¬ (toRow = fromRow ∧ toCol = fromCol) := fun e => hne ⟨e.1.symm, e.2.symm⟩
  have hpm : hasColor (some piece) s.currentPlayer = true := by simp [hasColor, hcol]
  obtain ⟨hhist, hfrom, hto, hpiece, hcapt, hrept, hcast⟩ :=
    makeMove_record s fromRow fromCol toRow toCol promotionPiece piece r s' hp hmk
  have hopp : s.currentPlayer.opponent.opponent = s.currentPlayer := by
    cases s.currentPlayer <;> rfl
  have hrows : ¬ (rowOk r.fromSq.row = false ∨ rowOk r.toSq.row = false) := by
    rw [hfrom, hto]
    simp [hrf, hrt]
  by_cases hty : piece.type = .pawn
  · have hspec := pawn_accept_inv _ _ _ _ _ _ _ hty hrf hrt hmv
    obtain ⟨hcpr, _⟩ := pawn_capturedRow s piece _ _ _ _ hrf hrt hspec
    obtain ⟨r0, s0, hmk0, hbd, hcap, hept, hcur, _, hepc⟩ := makeMove_pawn s fromRow fromCol
      toRow toCol promotionPiece piece hrf hrt hp hty hne hcpr
    rw [hmk] at hmk0
    simp only [Except.ok.injEq, Prod.mk.injEq] at hmk0
    obtain ⟨rfl, rfl⟩ := hmk0
    rw [if_neg (fun e => by rw [hty] at e; cases e.1)] at hcast
    simp only at hbd hcap
    have hcprne : (if piece.color = .white then toRow + 1 else toRow - 1) ≠ toRow := by
      split_ifs <;> omega
    have halias : s.enPassantTarget = some ⟨toRow, toCol⟩ →
        ¬ (fromRow = (if piece.color = .white then toRow + 1 else toRow - 1) ∧
          fromCol = toCol) := by
      intro he
      have hbehind := (hep _ he).2
      simp only at hbehind
      rw [← hcol] at hbehind
      rintro ⟨e1, e2⟩
      rw [← e1, ← e2, hp, hcol, hpm] at hbehind
      cases hbehind
    unfold undoMove
    rw [hhist, List.getLast?_concat]
    simp only
    rw [if_neg hrows, hcast]
    simp only [hfrom, hto, hpiece, hcapt, hepc, hcur, hopp]
    generalize (if piece.color = Color.white then toRow + 1 else toRow - 1) = cpr
      at hbd hcap hcpr hcprne halias ⊢
    have hcapcell : ∀ q, (if s.enPassantTarget = some ⟨toRow, toCol⟩ then s.board cpr toCol
        else none) = some q →
        s.board cpr toCol = some q ∧ ¬ (fromRow = cpr ∧ fromCol = toCol) := by
      intro q hq
      by_cases he : s.enPassantTarget = some ⟨toRow, toCol⟩
      · rw [if_pos he] at hq
        exact ⟨hq, halias he⟩
      · rw [if_neg he] at hq
        cases hq
    generalize (if s.enPassantTarget = some ⟨toRow, toCol⟩ then s.board cpr toCol else none) = cap
      at hbd hcap hcapcell ⊢
    have hpushed : (if cpr = fromRow ∧ toCol = fromCol then
          cap.map fun _ => (⟨if isPromotionRank toRow piece.color = true then
            promotionPiece.getD .queen else .pawn, piece.color, true⟩ : Piece)
          else cap) = cap := by
      cases hc : cap with
      | none => simp
      | some q =>
        have := (hcapcell q hc).2
        rw [if_neg (fun e => this ⟨e.1.symm, e.2.symm⟩)]
    rw [hpushed] at hcap
    -- the board after the move, away from the origin and the destination
    have hrest : ∀ r' c', ¬ (r' = toRow ∧ c' = toCol) → ¬ (r' = fromRow ∧ c' = fromCol) →
        s'.board r' c' = (if cap.isSome = true then setCell s.board cpr toCol none
          else s.board) r' c' := by
      intro r' c' h1 h2
      rw [hbd]
      by_cases hpr : isPromotionRank toRow piece.color = true
      · rw [if_pos hpr]
        simp only [setCell, h1, h2, if_false]
      · rw [if_neg hpr]
        simp only [setCell, h1, h2, if_false]
    cases hc : cap with
    | none =>
      rw [hc] at hcap hrest
      simp only
      refine ⟨_, rfl, ?_, ?_, hrept, rfl, ?_⟩
      · simp
      · simp only [hcap]
        cases s.board toRow toCol <;> simp [Captured.pop_push]
      · intro r' c'
        simp only [setCell]
        by_cases h1 : r' = toRow ∧ c' = toCol
        · rw [if_pos h1, h1.1, h1.2]
          exact cellRel_refl _
        · rw [if_neg h1]
          by_cases h2 : r' = fromRow ∧ c' = fromCol
          · rw [if_pos h2, h2.1, h2.2, hp]
            exact cellRel_retype _ _
          · rw [if_neg h2, hrest r' c' h1 h2]
            simp only [Option.isSome_none, Bool.false_eq_true, if_false]
            exact cellRel_refl _
    | some q =>
      rw [hc] at hcap hrest
      obtain ⟨hqcell, hqne⟩ := hcapcell q hc
      simp only
      rw [if_pos hcpr]
      simp only
      refine ⟨_, rfl, ?_, ?_, hrept, rfl, ?_⟩
      · simp
      · simp only [hcap]
        cases s.board toRow toCol <;> simp [Captured.pop_push]
      · intro r' c'
        simp only [setCell]
        by_cases h0 : r' = cpr ∧ c' = toCol
        · rw [if_pos h0, h0.1, h0.2, hqcell]
          exact cellRel_refl _
        · rw [if_neg h0]
          by_cases h1 : r' = toRow ∧ c' = toCol
          · rw [if_pos h1, h1.1, h1.2]
            exact cellRel_refl _
          · rw [if_neg h1]
            by_cases h2 : r' = fromRow ∧ c' = fromCol
            · rw [if_pos h2, h2.1, h2.2, hp]
              exact cellRel_retype _ _
            · rw [if_neg h2, hrest r' c' h1 h2]
              simp only [Option.isSome_some, if_true, setCell, h0, if_false]
              exact cellRel_refl _
  · by_cases hk : piece.type = .king ∧ (toCol - fromCol).natAbs = 2
    · obtain ⟨hrow, hunmoved, _, ⟨rook, hrook⟩, hcross, htoE⟩ :=
        castle_accept_inv _ _ _ _ _ _ _ hk.1 hk.2 hmv
      obtain ⟨_, hrun⟩ := castle_rook_unmoved fuel s piece fromRow fromCol toRow toCol
        hk.1 hk.2 hmv rook hrook
      subst hrow
      have hc4 : fromCol = 4 := hkings toRow htr fromCol hfc piece hp hk.1 hunmoved
      subst hc4
      obtain ⟨r0, s0, hmk0, hbd, hcap, hept, hcur, _, hepc⟩ := makeMove_castle s toRow 4 toCol
        promotionPiece piece rook hrf hp hk.1 hk.2 hrook htoE
      rw [hmk] at hmk0
      simp only [Except.ok.injEq, Prod.mk.injEq] at hmk0
      obtain ⟨rfl, rfl⟩ := hmk0
      rw [if_pos hk] at hcast
      have hcases : toCol = 6 ∨ toCol = 2 := by omega
      unfold undoMove
      rw [hhist, List.getLast?_concat]
      simp only
      rw [if_neg hrows, hepc, hcast]
      simp only [hfrom, hto, hpiece, hcapt, htoE]
      rcases hcases with rfl | rfl
      · have hrook' : s.board toRow 7 = some rook := by simpa using hrook
        have hcross' : s.board toRow 5 = none := by simpa using hcross
        simp only [show (6 : Int) > 4 from by decide, if_true] at hbd
        have hcell : setCell (setCell s'.board toRow 4
            (some (if r.promotion.isSome = true then { piece with type := .pawn } else piece)))
            toRow 6 none toRow 5 = some { rook with hasMoved := true } := by
          rw [hbd]
          simp [setCell]
        simp only [show (6 : Int) > 4 from by decide, if_true, hcell]
        refine ⟨_, rfl, ?_, hcap, hrept, ?_, ?_⟩
        · simp
        · simp only [hcur, hopp]
        · intro r' c'
          simp only [hbd]
          by_cases h5 : r' = toRow ∧ c' = 5
          · obtain ⟨rfl, rfl⟩ := h5
            simp [setCell, hcross', cellRel]
          · by_cases h7 : r' = toRow ∧ c' = 7
            · obtain ⟨rfl, rfl⟩ := h7
              simp [setCell, hrook', cellRel, hrun]
            · by_cases h6 : r' = toRow ∧ c' = 6
              · obtain ⟨rfl, rfl⟩ := h6
                simp [setCell, htoE, cellRel]
              · by_cases h4 : r' = toRow ∧ c' = 4
                · obtain ⟨rfl, rfl⟩ := h4
                  simp only [setCell]
                  simp only [show ¬ (r' = r' ∧ (4 : Int) = 5) from by simp,
                    show ¬ (r' = r' ∧ (4 : Int) = 7) from by simp,
                    show ¬ (r' = r' ∧ (4 : Int) = 6) from by simp, if_false, and_self,
                    if_true, hp]
                  exact cellRel_retype _ _
                · simp only [setCell, h5, h7, h6, h4, if_false]
                  exact cellRel_refl _
      · have hrook' : s.board toRow 0 = some rook := by simpa using hrook
        have hcross' : s.board toRow 3 = none := by simpa using hcross
        simp only [show ¬ ((2 : Int) > 4) from by decide, if_false] at hbd
        have hcell : setCell (setCell s'.board toRow 4
            (some (if r.promotion.isSome = true then { piece with type := .pawn } else piece)))
            toRow 2 none toRow 3 = some { rook with hasMoved := true } := by
          rw [hbd]
          simp [setCell]
        simp only [show ¬ ((2 : Int) > 4) from by decide, if_false, hcell]
        refine ⟨_, rfl, ?_, hcap, hrept, ?_, ?_⟩
        · simp
        · simp only [hcur, hopp]
        · intro r' c'
          simp only [hbd]
          by_cases h5 : r' = toRow ∧ c' = 3
          · obtain ⟨rfl, rfl⟩ := h5
            simp [setCell, hcross', cellRel]
          · by_cases h7 : r' = toRow ∧ c' = 0
            · obtain ⟨rfl, rfl⟩ := h7
              simp [setCell, hrook', cellRel, hrun]
            · by_cases h6 : r' = toRow ∧ c' = 2
              · obtain ⟨rfl, rfl⟩ := h6
                simp [setCell, htoE, cellRel]
              · by_cases h4 : r' = toRow ∧ c' = 4
                · obtain ⟨rfl, rfl⟩ := h4
                  simp only [setCell]
                  simp only [show ¬ (r' = r' ∧ (4 : Int) = 3) from by simp,
                    show ¬ (r' = r' ∧ (4 : Int) = 0) from by simp,
                    show ¬ (r' = r' ∧ (4 : Int) = 2) from by simp, if_false, and_self,
                    if_true, hp]
                  exact cellRel_retype _ _
                · simp only [setCell, h5, h7, h6, h4, if_false]
                  exact cellRel_refl _
    · obtain ⟨r0, s0, hmk0, hbd, hcap, hept, _, hcur, _, hepc, _⟩ := makeMove_plain s fromRow
        fromCol toRow toCol promotionPiece piece hrf hrt hp hty hk hne
      rw [hmk] at hmk0
      simp only [Except.ok.injEq, Prod.mk.injEq] at hmk0
      obtain ⟨rfl, rfl⟩ := hmk0
      rw [if_neg hk] at hcast
      unfold undoMove
      rw [hhist, List.getLast?_concat]
      simp only
      rw [if_neg hrows, hepc, hcast]
      simp only
      refine ⟨_, rfl, ?_, ?_, hrept, ?_, ?_⟩
      · simp
      · simp only [hcapt, hcap]
        cases s.board toRow toCol <;> simp [Captured.pop_push]
      · simp only [hcur, hopp]
      · intro r' c'
        simp only [hfrom, hto, hpiece, hcapt, hbd, setCell]
        by_cases h1 : r' = toRow ∧ c' = toCol
        · rw [if_pos h1, h1.1, h1.2]
          exact cellRel_refl _
        · rw [if_neg h1]
          by_cases h2 : r' = fromRow ∧ c' = fromCol
          · rw [if_pos h2, h2.1, h2.2, hp]
            exact cellRel_retype _ _
          · rw [if_neg h2, if_neg h2, if_neg h1]
            exact cellRel_refl _

theorem kingsHome_of_scan (b : Board)
    (h : ∀ r ∈ idx8, ∀ c ∈ idx8,
      (isUnmovedKingOf b .white r c || isUnmovedKingOf b .black r c) = true → c = 4) :
    kingsHome b := by
  intro r hr c hc p hp hking hunmoved
  apply h r hr c hc
  unfold isUnmovedKingOf
  rw [hp]
  cases hcol : p.color <;> simp [hking, hunmoved, hcol]

theorem Basic_newGame : Basic newGame := by
  refine ⟨?_, ?_, ?_⟩
  · intro color
    cases color
    · decide!
    · decide!
  · intro t ht
    cases ht
  · exact kingsHome_of_scan _ (by decide!)

theorem Sound_newGame : Sound newGame :=
  Sound.mk newGame Basic_newGame ⟨(false, newGame), rfl⟩ (fun s' h => by cases h)

/-- A state with the board, history, captured pieces, en-passant target and
side to move of a sound state is sound. -/
theorem Sound_of_core (s t : Game) (hs : Sound s) (h1 : t.board = s.board)
    (h2 : t.moveHistory = s.moveHistory) (h3 : t.capturedPieces = s.capturedPieces)
    (h4 : t.enPassantTarget = s.enPassantTarget) (h5 : t.currentPlayer = s.currentPlayer) :
    Sound t :=
  Sound_retyped s hs t (Retyped_refl_of_core s t h1 h2 h3 h4 h5)

theorem Sound_addPlayer (s : Game) (playerId playerName : String) (color : Option Color)
    (timerDuration : Int) (hs : Sound s) :
    Sound (addPlayer s playerId playerName color timerDuration).2 := by
  apply Sound_of_core s _ hs <;>
    (simp only [addPlayer, startGame, startTimer]; split <;> split_ifs <;> rfl)

theorem Sound_removePlayer (s : Game) (playerId : String) (hs : Sound s) :
    Sound (removePlayer s playerId).2 := by
  apply Sound_of_core s _ hs <;>
    (simp only [removePlayer, cancelDrawOffer, clearDrawOffer, pauseTimer]; split_ifs <;> rfl)

theorem Sound_tick (s : Game) (hs : Sound s) : Sound (tick s).2 := by
  apply Sound_of_core s _ hs <;>
    (simp only [tick, handleTimeout, stopTimer]; split_ifs <;> rfl)

theorem Sound_resumeTimer (s : Game) (hs : Sound s) : Sound (resumeTimer s) := by
  apply Sound_of_core s _ hs <;> (simp only [resumeTimer]; split_ifs <;> rfl)

theorem Sound_handleDrawOffer (s : Game) (playerId : IdValue) (hs : Sound s) :
    Sound (handleDrawOffer s playerId).2 := by
  apply Sound_of_core s _ hs <;>
    (simp only [handleDrawOffer]; split <;> (try split_ifs) <;> (try split) <;> rfl)

theorem Sound_handleDrawResponse (s : Game) (playerId : String) (accepted : Bool)
    (hs : Sound s) : Sound (handleDrawResponse s playerId accepted).2 := by
  apply Sound_of_core s _ hs <;>
    (simp only [handleDrawResponse, clearDrawOffer, stopTimer]; split_ifs <;> rfl)

theorem Sound_updateGameStatus (fuel : Nat) (s s' : Game) (st : Status)
    (h : updateGameStatus fuel s = .ok (st, s')) (hs : Sound s) : Sound s' := by
  have hcore : s'.board = s.board ∧ s'.moveHistory = s.moveHistory ∧
      s'.capturedPieces = s.capturedPieces ∧ s'.enPassantTarget = s.enPassantTarget ∧
      s'.currentPlayer = s.currentPlayer := by
    unfold updateGameStatus at h
    split_ifs at h
    · cases h
      exact ⟨rfl, rfl, rfl, rfl, rfl⟩
    · cases h
      exact ⟨rfl, rfl, rfl, rfl, rfl⟩
    · cases hk : isKingInCheck fuel s s.currentPlayer with
      | error e => rw [hk] at h; cases h
      | ok inCheck =>
        cases hv : hasValidMoves fuel s s.currentPlayer with
        | error e => rw [hk, hv] at h; cases inCheck <;> cases h
        | ok valid =>
          rw [hk, hv] at h
          cases inCheck <;> cases valid <;> simp only at h <;> cases h <;>
            exact ⟨rfl, rfl, rfl, rfl, rfl⟩
  exact Sound_of_core s s' hs hcore.1 hcore.2.1 hcore.2.2.1 hcore.2.2.2.1 hcore.2.2.2.2

theorem Sound_resetGame (s : Game) : Sound (resetGame s) := by
  apply Sound_of_core newGame _ Sound_newGame <;>
    (simp only [resetGame, startGame, startTimer, stopTimer, clearDrawOffer]; split_ifs <;> rfl)

/-- Every reachable state is sound. -/
theorem Sound_of_Reachable (s : Game) (h : Reachable s) : Sound s := by
  induction h with
  | init => exact Sound_newGame
  | join s playerId playerName color timerDuration _ ih =>
    exact Sound_addPlayer s playerId playerName color timerDuration ih
  | leave s playerId _ ih => exact Sound_removePlayer s playerId ih
  | move s s' fuel m r _ hfr hfc htr htc hv hmk ih =>
    cases ih with
    | mk _ hb hu hprev =>
      obtain ⟨r0, s0, hmk0, hb'⟩ := makeMove_basic fuel s m.fromRow m.fromCol m.toRow m.toCol
        m.playerId m.promotionPiece hfr hfc htr htc hv hb
      rw [hmk] at hmk0
      simp only [Except.ok.injEq, Prod.mk.injEq] at hmk0
      obtain ⟨rfl, rfl⟩ := hmk0
      obtain ⟨s'', hundo, hrel⟩ := undoMove_makeMove fuel s m.fromRow m.fromCol m.toRow m.toCol
        m.playerId m.promotionPiece hfr hfc htr htc hv hb r s' hmk
      refine Sound.mk s' hb' ⟨_, hundo⟩ ?_
      intro t ht
      rw [hundo] at ht
      simp only [Except.ok.injEq, Prod.mk.injEq, true_and] at ht
      subst ht
      exact Sound_retyped s (Sound.mk s hb hu hprev) s'' hrel
  | status s s' fuel st _ hst ih => exact Sound_updateGameStatus fuel s s' st hst ih
  | undo s s' _ hu ih =>
    cases ih with
    | mk _ _ _ hprev => exact hprev s' hu
  | reset s _ _ => exact Sound_resetGame s
  | clock s _ ih => exact Sound_tick s ih
  | pause s _ ih => exact Sound_of_core s _ ih rfl rfl rfl rfl rfl
  | resume s _ ih => exact Sound_resumeTimer s ih
  | offer s playerId _ ih => exact Sound_handleDrawOffer s playerId ih
  | respond s playerId accepted _ ih => exact Sound_handleDrawResponse s playerId accepted ih

/-- The states reached by a sequence of accepted in-bounds requests are
reachable. -/
theorem Reachable_applyAccepted (fuel : Nat) (moves : List MoveReq) :
    ∀ s s', Reachable s →
      (∀ m ∈ moves, m.fromRow ∈ idx8 ∧ m.fromCol ∈ idx8 ∧ m.toRow ∈ idx8 ∧ m.toCol ∈ idx8) →
      applyAccepted fuel s moves = .ok (some s') → Reachable s' := by
  induction moves with
  | nil =>
    intro s s' hs _ h
    simp only [applyAccepted, Except.ok.injEq, Option.some.injEq] at h
    subst h
    exact hs
  | cons m ms ih =>
    intro s s' hs hin h
    unfold applyAccepted at h
    cases hv : isValidMove fuel s m.fromRow m.fromCol m.toRow m.toCol m.playerId with
    | error e => rw [hv] at h; cases h
    | ok v =>
      rw [hv] at h
      cases v with
      | false => cases h
      | true =>
        simp only at h
        cases hmk : makeMove s m.fromRow m.fromCol m.toRow m.toCol m.promotionPiece with
        | error e => rw [hmk] at h; cases h
        | ok x =>
          obtain ⟨r, s1⟩ := x
          rw [hmk] at h
          simp only at h
          obtain ⟨h1, h2, h3, h4⟩ := hin m (List.mem_cons_self m ms)
          exact ih s1 s' (Reachable.move s s1 fuel m r hs h1 h2 h3 h4 hv hmk)
            (fun m' hm' => hin m' (List.mem_cons_of_mem m hm')) h

/-- C37: in every state reachable from a new game (players joining and leaving,
accepted in-bounds moves applied by `makeMove`, `undoMove`, `resetGame`, and the
operations that do not touch the board), for each colour the number of pieces
of that colour on the board plus the length of its captured list is 16. -/
theorem c37_material_conserved (s : Game) (h : Reachable s) (color : Color) :
    countPieces s.board color + (s.capturedPieces.get color).length = 16 := by
  cases Sound_of_Reachable s h with
  | mk _ hb _ _ => exact hb.1 color

/-- Witness for C37: after 1. e4 d5 2. exd5 from the initial position with
both players seated, fifteen black pieces are on the board and one is
captured. -/
theorem c37_material_conserved_witness :
    applyAccepted 2 startedGame [wMove 6 4 4 4, bMove 1 3 3 3, wMove 4 4 3 3] =
        .ok (some (reached 2 [wMove 6 4 4 4, bMove 1 3 3 3, wMove 4 4 3 3])) ∧
      ((reached 2 [wMove 6 4 4 4, bMove 1 3 3 3, wMove 4 4 3 3]).capturedPieces.get
        .black).length = 1 ∧
      countPieces (reached 2 [wMove 6 4 4 4, bMove 1 3 3 3, wMove 4 4 3 3]).board .black +
        ((reached 2 [wMove 6 4 4 4, bMove 1 3 3 3, wMove 4 4 3 3]).capturedPieces.get
          .black).length = 16 :=
  ⟨by rfl, by decide!,
    c37_material_conserved _
      (Reachable_applyAccepted 2 [wMove 6 4 4 4, bMove 1 3 3 3, wMove 4 4 3 3] startedGame _
        (Reachable.join _ "b" "Black" none 300
          (Reachable.join _ "w" "White" none 300 Reachable.init))
        (by decide) (by rfl)) .black⟩
/-! ## Failing inputs -/

/-- C1: in a position reached from the initial one, `isValidMove` accepts the
en-passant capture g5xf6 although, once `makeMove` has removed the black pawn
from f5, the white king on h5 is attacked by the black rook on b5 along the
row: the mover's king is in check after an accepted move. -/
theorem c1_en_passant_leaves_king_in_check :
    ∃ s, applyAccepted 2 startedGame enPassantPrelude = .ok (some s) ∧
      countKings s.board .white = 1 ∧ countKings s.board .black = 1 ∧
      s.currentPlayer = .white ∧ s.enPassantTarget = some ⟨2, 5⟩ ∧
      isValidMove 2 s 3 6 2 5 "w" = .ok true ∧
      ∃ r s', makeMove s 3 6 2 5 none = .ok (r, s') ∧
        r.enPassantCapture = some ⟨.pawn, .black, true⟩ ∧
        isKingInCheck 2 s' .white = .ok true := by
  refine ⟨reached 2 enPassantPrelude, by rfl, by decide!, by decide!, by decide!, by decide!,
    by decide!, ?_⟩
  exact ⟨_, afterMakeMove (reached 2 enPassantPrelude) 3 6 2 5 none, by rfl, by decide!,
    by decide!⟩

/-- C2: with a lone black king mated on the back rank by rook and king, black
is in check and `isValidMove` accepts no black move, yet `updateGameStatus`
returns `'check'` and leaves `gameOver` false, because `hasValidMoves` counts
the move of the king onto its own square. -/
theorem c2_back_rank_mate_reported_as_check :
    rookMateGame.gameOver = false ∧ rookMateGame.gameEndReason = none ∧
      rookMateGame.currentPlayer = .black ∧
      isKingInCheck 2 rookMateGame .black = .ok true ∧
      (∀ fr ∈ idx8, ∀ fc ∈ idx8, ∀ tr ∈ idx8, ∀ tc ∈ idx8,
        isValidMove 2 rookMateGame fr fc tr tc "b" = .ok false) ∧
      hasValidMoves 2 rookMateGame .black = .ok true ∧
      ∃ s', updateGameStatus 2 rookMateGame = .ok (.check, s') ∧ s'.gameOver = false := by
  refine ⟨by decide!, by decide!, by decide!, by decide!, by decide!, by decide!, ?_⟩
  exact ⟨rookMateGame, by rfl, by decide!⟩

/-- C3: with a lone black king stalemated on h8, black is not in check and
`isValidMove` accepts no black move, yet `updateGameStatus` returns `'normal'`
and leaves `gameOver` false. -/
theorem c3_stalemate_reported_as_normal :
    stalemateGame.gameOver = false ∧ stalemateGame.gameEndReason = none ∧
      stalemateGame.currentPlayer = .black ∧
      isKingInCheck 2 stalemateGame .black = .ok false ∧
      (∀ fr ∈ idx8, ∀ fc ∈ idx8, ∀ tr ∈ idx8, ∀ tc ∈ idx8,
        isValidMove 2 stalemateGame fr fc tr tc "b" = .ok false) ∧
      hasValidMoves 2 stalemateGame .black = .ok true ∧
      ∃ s', updateGameStatus 2 stalemateGame = .ok (.normal, s') ∧ s'.gameOver = false := by
  refine ⟨by decide!, by decide!, by decide!, by decide!, by decide!, by decide!, ?_⟩
  exact ⟨stalemateGame, by rfl, by decide!⟩

/-- C4: from the initial position the knight move g1-f3 is accepted; applied
with `promotionPiece = 'queen'` and undone at once, `undoMove` returns true but
leaves a white pawn on g1 where the knight stood. -/
theorem c4_undo_turns_knight_into_pawn :
    isValidMove 2 startedGame 7 6 5 5 "w" = .ok true ∧
      ∃ r s1 s2, makeMove startedGame 7 6 5 5 (some .queen) = .ok (r, s1) ∧
        undoMove s1 = .ok (true, s2) ∧
        startedGame.board 7 6 = some ⟨.knight, .white, false⟩ ∧
        s2.board 7 6 = some ⟨.pawn, .white, false⟩ := by
  refine ⟨by decide!, _, afterMakeMove startedGame 7 6 5 5 (some .queen),
    afterUndoMove (afterMakeMove startedGame 7 6 5 5 (some .queen)), by rfl, by rfl, by decide!,
    by decide!⟩

/-- C5: nine requests from the initial position, each accepted by
`isValidMove` and applied by `makeMove`, the last one a pawn capture on g8 with
`promotionPiece = 'king'`, reach a state with `gameOver` false and two white
kings. -/
theorem c5_promotion_creates_second_king :
    ∃ s, applyAccepted 2 startedGame promoteToKingMoves = .ok (some s) ∧
      s.gameOver = false ∧ countKings s.board .white = 2 ∧
      s.board 0 6 = some ⟨.king, .white, true⟩ ∧ s.board 7 4 = some ⟨.king, .white, false⟩ := by
  exact ⟨reached 2 promoteToKingMoves, by rfl, by decide!, by decide!, by decide!, by decide!⟩

/-- C6: in a position reached from the initial one with a black pawn on e2,
`isValidMove` accepts the castling move e1-g1 although the crossed square f1 is
attacked by that pawn: the engine itself rejects the king step e1-f1 because the
king would be in check there. -/
theorem c6_castling_across_pawn_attack :
    ∃ s, applyAccepted 2 startedGame pawnAttackPrelude = .ok (some s) ∧
      s.board 7 4 = some ⟨.king, .white, false⟩ ∧ s.board 6 4 = some ⟨.pawn, .black, true⟩ ∧
      isValidMove 2 s 7 4 7 6 "w" = .ok true ∧
      isPieceMovementValid 2 s ⟨.king, .white, false⟩ 7 4 7 5 = .ok true ∧
      wouldMoveResultInCheck 2 s 7 4 7 5 = .ok true ∧
      isValidMove 2 s 7 4 7 5 "w" = .ok false := by
  exact ⟨reached 2 pawnAttackPrelude, by rfl, by decide!, by decide!, by decide!, by decide!,
    by decide!, by decide!⟩

/-- C7: in a position reached from the initial one with c1 and d1 empty and the
white knight still on b1, between the king on e1 and the rook on a1,
`isValidMove` accepts the queenside castling move e1-c1, and `makeMove` puts
the rook on d1. -/
theorem c7_queenside_castling_over_b1 :
    ∃ s, applyAccepted 2 startedGame queensidePrelude = .ok (some s) ∧
      s.board 7 0 = some ⟨.rook, .white, false⟩ ∧ s.board 7 1 = some ⟨.knight, .white, false⟩ ∧
      s.board 7 4 = some ⟨.king, .white, false⟩ ∧
      isValidMove 2 s 7 4 7 2 "w" = .ok true ∧
      ∃ r s', makeMove s 7 4 7 2 none = .ok (r, s') ∧
        s'.board 7 1 = some ⟨.knight, .white, false⟩ ∧
        s'.board 7 2 = some ⟨.king, .white, true⟩ ∧ s'.board 7 3 = some ⟨.rook, .white, true⟩ := by
  refine ⟨reached 2 queensidePrelude, by rfl, by decide!, by decide!, by decide!, by decide!, ?_⟩
  exact ⟨_, afterMakeMove (reached 2 queensidePrelude) 7 4 7 2 none, by rfl, by decide!,
    by decide!, by decide!⟩

/-- C9: from the initial position `isValidMove` accepts the knight move from
g1 to row 6, column 8, and `makeMove` stores the knight in that column; with
`fromRow = 8` or `toRow = -1` the call throws a `TypeError`. -/
theorem c9_off_board_square_accepted_or_throws :
    isValidMove 2 startedGame 7 6 6 8 "w" = .ok true ∧
      (∃ r s', makeMove startedGame 7 6 6 8 none = .ok (r, s') ∧
        s'.board 6 8 = some ⟨.knight, .white, true⟩) ∧
      isValidMove 2 startedGame 8 6 6 5 "w" = .error .typeError ∧
      isValidMove 2 startedGame 6 0 (-1) 0 "w" = .error .typeError := by
  refine ⟨by decide!, ?_, by decide!, by decide!⟩
  exact ⟨_, afterMakeMove startedGame 7 6 6 8 none, by rfl, by decide!⟩

/-- C11 (as stated): `isValidMove` accepts the white request e2-e4 while only
the white seat is filled, while the clock of a started game is paused, and
after the black player was removed (which pauses the clock). -/
theorem c11_accepts_in_setup_and_paused :
    (setupGame.players.black = none ∧ setupGame.gameStarted = false ∧
        isValidMove 2 setupGame 6 4 4 4 "w" = .ok true) ∧
      ((pauseTimer startedGame).timerPaused = true ∧
        isValidMove 2 (pauseTimer startedGame) 6 4 4 4 "w" = .ok true) ∧
      ((removePlayer startedGame "b").1 = (some .black, false) ∧
        (removePlayer startedGame "b").2.players.black = none ∧
        (removePlayer startedGame "b").2.timerPaused = true ∧
        isValidMove 2 (removePlayer startedGame "b").2 6 4 4 4 "w" = .ok true) := by
  refine ⟨⟨by decide!, by decide!, by decide!⟩, ⟨by decide!, by decide!⟩,
    by decide!, by decide!, by decide!, by decide!⟩

/-- C13: from the initial position the accepted knight move g1-f3 applied with
`promotionPiece = 'queen'` keeps the knight a knight but stores `'queen'` in
the `promotion` field of the record, and the following `undoMove` puts a pawn
on g1. -/
theorem c13_promotion_recorded_without_promotion :
    isValidMove 2 startedGame 7 6 5 5 "w" = .ok true ∧
      isPromotionRank 5 .white = false ∧
      ∃ r s1 s2, makeMove startedGame 7 6 5 5 (some .queen) = .ok (r, s1) ∧
        s1.board 5 5 = some ⟨.knight, .white, true⟩ ∧
        r.promotion = some .queen ∧
        undoMove s1 = .ok (true, s2) ∧
        s2.board 7 6 = some ⟨.pawn, .white, false⟩ := by
  refine ⟨by decide!, by decide!, _, afterMakeMove startedGame 7 6 5 5 (some .queen),
    afterUndoMove (afterMakeMove startedGame 7 6 5 5 (some .queen)), by rfl, by decide!,
    by decide!, by rfl, by decide!⟩

/-- C17: in a position reached from the initial one the white bishop captures
the unmoved black rook on its home corner h8, and black's kingside castling
right is still set after `makeMove`. -/
theorem c17_rook_captured_on_corner_keeps_right :
    ∃ s, applyAccepted 2 startedGame rookCapturePrelude = .ok (some s) ∧
      s.board 6 1 = some ⟨.bishop, .white, true⟩ ∧ s.board 0 7 = some ⟨.rook, .black, false⟩ ∧
      isValidMove 2 s 6 1 0 7 "w" = .ok true ∧
      ∃ r s', makeMove s 6 1 0 7 none = .ok (r, s') ∧
        r.capturedPiece = some ⟨.rook, .black, false⟩ ∧
        s'.board 0 7 = some ⟨.bishop, .white, true⟩ ∧
        s'.castlingRights.black.kingside = true := by
  refine ⟨reached 2 rookCapturePrelude, by rfl, by decide!, by decide!, by decide!, ?_⟩
  exact ⟨_, afterMakeMove (reached 2 rookCapturePrelude) 6 1 0 7 none, by rfl, by decide!,
    by decide!, by decide!⟩

/-- C18: in a position reached from the initial one the white rook that came
from h1 moves from h3 to a3; the white king and the rook on a1 have not moved,
nothing is captured, and `makeMove` clears white's queenside castling right. -/
theorem c18_rook_arriving_on_a_file_clears_right :
    ∃ s, applyAccepted 2 startedGame rookSwingPrelude = .ok (some s) ∧
      s.board 5 7 = some ⟨.rook, .white, true⟩ ∧ s.board 5 0 = none ∧
      s.board 7 0 = some ⟨.rook, .white, false⟩ ∧ s.board 7 4 = some ⟨.king, .white, false⟩ ∧
      s.castlingRights.white.queenside = true ∧
      isValidMove 2 s 5 7 5 0 "w" = .ok true ∧
      ∃ r s', makeMove s 5 7 5 0 none = .ok (r, s') ∧
        s'.board 7 0 = some ⟨.rook, .white, false⟩ ∧
        s'.board 7 4 = some ⟨.king, .white, false⟩ ∧
        s'.castlingRights.white.queenside = false := by
  refine ⟨reached 2 rookSwingPrelude, by rfl, by decide!, by decide!, by decide!, by decide!,
    by decide!, by decide!, ?_⟩
  exact ⟨_, afterMakeMove (reached 2 rookSwingPrelude) 5 7 5 0 none, by rfl, by decide!,
    by decide!, by decide!⟩

/-- C26: after the first player was added with `timerDuration = 0`, the second
`addPlayer` (with the default 300) sets both clocks to 300 and a tick takes a
second from white; when the second player is added with 0 as well, the first
tick ends the game with `gameEndReason = 'timeout'`. -/
theorem c26_zero_duration_clock_not_inert :
    (addPlayer newGame "a" "A" none 0).2.timeLeft = ⟨0, 0⟩ ∧
      (addPlayer (addPlayer newGame "a" "A" none 0).2 "b" "B" none 300).2.timeLeft
        = ⟨300, 300⟩ ∧
      (tick (addPlayer (addPlayer newGame "a" "A" none 0).2 "b" "B" none 300).2).2.timeLeft
        = ⟨299, 300⟩ ∧
      (addPlayer (addPlayer newGame "a" "A" none 0).2 "b" "B" none 0).2.timeLeft = ⟨0, 0⟩ ∧
      (tick (addPlayer (addPlayer newGame "a" "A" none 0).2 "b" "B" none 0).2).2.gameOver
        = true ∧
      (tick (addPlayer (addPlayer newGame "a" "A" none 0).2 "b" "B" none 0).2).2.gameEndReason
        = some .timeout := by
  refine ⟨by decide!, by decide!, by decide!, by decide!, by decide!, by decide!⟩

/-- C28: `resetGame` on a started game with both seats filled restores the
initial position and the clocks but leaves `timerActive` false: `startGame`
does nothing because `gameStarted` is still true. -/
theorem c28_reset_does_not_restart_clock :
    (reached 2 kingsidePrelude).players.white.isSome = true ∧
      (reached 2 kingsidePrelude).players.black.isSome = true ∧
      (reached 2 kingsidePrelude).timerActive = true ∧
      (resetGame (reached 2 kingsidePrelude)).board = initializeBoard ∧
      (resetGame (reached 2 kingsidePrelude)).moveHistory = [] ∧
      (resetGame (reached 2 kingsidePrelude)).timeLeft = ⟨300, 300⟩ ∧
      (resetGame (reached 2 kingsidePrelude)).gameStarted = true ∧
      (resetGame (reached 2 kingsidePrelude)).timerActive = false := by
  refine ⟨by decide!, by decide!, by decide!, by rfl, by decide!, by decide!, by decide!,
    by decide!⟩
/-- C23: in a position reached from the initial one with the white king in
check, the server's `isValidMove` rejects the castling move e1-g1 of the white
player and the client's `isValidMove` (with `ignoreCheck = false`) accepts
it. -/
theorem c23_client_accepts_castling_out_of_check :
    ∃ s, applyAccepted 2 startedGame checkPrelude = .ok (some s) ∧
      s.currentPlayer = .white ∧ s.gameOver = false ∧
      s.board 7 4 = some ⟨.king, .white, false⟩ ∧
      isKingInCheck 2 s .white = .ok true ∧
      isValidMove 2 s 7 4 7 6 "w" = .ok false ∧
      clientIsValidMove s 7 4 7 6 false = .ok true := by
  exact ⟨reached 2 checkPrelude, by rfl, by decide!, by decide!, by decide!, by decide!,
    by decide!, by decide!⟩

/-- C24: with the white king on e1 checked by a knight that cannot be
captured and every king step unavailable, the client's `isCheckmate('white')`
returns true although the client's `isValidMove` returns true for the castling
move e1-c1. -/
theorem c24_client_checkmate_with_valid_move :
    countKings knightCheckGame.board .white = 1 ∧
      clientIsInCheck knightCheckGame .white = .ok true ∧
      clientIsCheckmate knightCheckGame .white = .ok true ∧
      clientIsValidMove knightCheckGame 7 4 7 2 false = .ok true := by
  refine ⟨by decide!, by decide!, by decide!, by decide!⟩

/-- C19: two accepted in-bounds moves after which the mover has one piece
fewer. With `enPassantTarget` on f6 and a white knight on f5, the pawn move
e5xf6 removes the knight; with the unmoved white king on f1, the castling move
f1-d1 puts the rook on d1 and then the king on top of it. -/
theorem c19_mover_loses_a_piece :
    (isValidMove 2 ownPieceBesideGame 3 4 2 5 "w" = .ok true ∧
      ownPieceBesideGame.currentPlayer = .white ∧
      countPieces ownPieceBesideGame.board .white = 3 ∧
      (makeMove ownPieceBesideGame 3 4 2 5 none).map
        (fun x => countPieces x.2.board .white) = .ok 2) ∧
    (isValidMove 2 kingOffHomeGame 7 5 7 3 "w" = .ok true ∧
      kingOffHomeGame.currentPlayer = .white ∧
      countPieces kingOffHomeGame.board .white = 2 ∧
      (makeMove kingOffHomeGame 7 5 7 3 none).map
        (fun x => countPieces x.2.board .white) = .ok 1) := by
  refine ⟨⟨by decide!, by decide!, by decide!, by decide!⟩,
    ⟨by decide!, by decide!, by decide!, by decide!⟩⟩

/-- C31: with both players seated and a clock of one second, White offers a
draw and the clock ticks once: the game is over by timeout and the draw offer
is still active. -/
theorem c31_draw_offer_survives_timeout :
    (handleDrawOffer shortClockGame "w").1 = true ∧
      (tick (handleDrawOffer shortClockGame "w").2).2.gameOver = true ∧
      (tick (handleDrawOffer shortClockGame "w").2).2.gameEndReason = some .timeout ∧
      (tick (handleDrawOffer shortClockGame "w").2).2.drawOffer.active = true := by
  refine ⟨by decide!, by decide!, by decide!, by decide!⟩

/-- C32: after the timeout of C31 `updateGameStatus` returns `'timeout'`; Black
then accepts the stale draw offer, `gameEndReason` becomes `'draw'` and
`updateGameStatus` returns `'draw'`. -/
theorem c32_timeout_rewritten_to_draw :
    (updateGameStatus 2 (tick (handleDrawOffer shortClockGame "w").2).2).map (·.1) =
        .ok .timeout ∧
      (handleDrawResponse (tick (handleDrawOffer shortClockGame "w").2).2 "b" true).1 = true ∧
      (handleDrawResponse (tick (handleDrawOffer shortClockGame "w").2).2 "b" true).2.gameEndReason
        = some .draw ∧
      (updateGameStatus 2
        (handleDrawResponse (tick (handleDrawOffer shortClockGame "w").2).2 "b" true).2).map
          (·.1) = .ok .draw := by
  refine ⟨by decide!, by decide!, by decide!, by decide!⟩

/-- C35: in a state that is not over but still carries `gameEndReason =
'timeout'`, with no move for the side to move, the first call of
`updateGameStatus` returns `'stalemate'` and the second one `'timeout'`. -/
theorem c35_second_call_differs :
    ∃ s1, updateGameStatus 2 staleReasonGame = .ok (.stalemate, s1) ∧
      (updateGameStatus 2 s1).map (·.1) = .ok .timeout := by
  refine ⟨stopTimer { staleReasonGame with gameOver := true }, by rfl, by decide!⟩

/-- C38: for the record that `makeMove` produces for the white kingside castle
e1-g1 (after 1. e4 e5 2. Nf3 Nc6 3. Bc4 Bc5) `formatMoveNotation` returns the
king symbol followed by `g1`, and for the queenside castle e1-c1 of
`knightCheckGame` the king symbol followed by `c1`. -/
theorem c38_castling_record_formats_as_king_move :
    ((recordOfMakeMove (reached 2 kingsidePrelude) 7 4 7 6 none).map
        fun r => (r.castling.map (·.isKingside), formatMoveNotation r.toClient)) =
      some (some true, "♔g1") ∧
    ((recordOfMakeMove knightCheckGame 7 4 7 2 none).map
        fun r => (r.castling.map (·.isKingside), formatMoveNotation r.toClient)) =
      some (some false, "♔c1") := by
  refine ⟨by decide!, by decide!⟩

/-- C39: with two stored moves and the view on the first one,
`getNavigationInfo().canGoBack` is true and `goBackOneMove()` returns false and
leaves the navigation state unchanged. -/
theorem c39_canGoBack_at_first_move :
    (getNavigationInfo ⟨2, 0, true⟩).canGoBack = true ∧
      goBackOneMove ⟨2, 0, true⟩ = (false, ⟨2, 0, true⟩) ∧
      (goBackOneMove (goBackOneMove ⟨2, -1, false⟩).2).2 = ⟨2, 0, true⟩ := by
  refine ⟨by decide, by decide, by decide⟩

/-- C36: with an unmoved white king on e1 and an unmoved black king on g1,
unmoved rooks on a1 and h1 and the castling rights set, the castling test of
each king starts the check detection of its own colour, which tests the other
king's castling: `isKingInCheck('white')` does not return, whatever the
budget. -/
theorem c36_facing_kings_recursion_is_unbounded :
    facingKingsGame.board 7 4 = some ⟨.king, .white, false⟩ ∧
      facingKingsGame.board 7 6 = some ⟨.king, .black, false⟩ ∧
      ∀ fuel, isKingInCheck fuel facingKingsGame .white = .error .diverge := by
  refine ⟨by decide!, by decide!, ?_⟩
  have hcells : ∀ r ∈ idx8, ∀ c ∈ idx8,
      facingKingsGame.board r c = none ∨
        (r = 7 ∧ c = 0 ∧ facingKingsGame.board r c = some ⟨.rook, .white, false⟩) ∨
        (r = 7 ∧ c = 7 ∧ facingKingsGame.board r c = some ⟨.rook, .white, false⟩) ∨
        (r = 7 ∧ c = 4 ∧ facingKingsGame.board r c = some ⟨.king, .white, false⟩) ∨
        (r = 7 ∧ c = 6 ∧ facingKingsGame.board r c = some ⟨.king, .black, false⟩) := by
    decide!
  have hw : findKing facingKingsGame.board .white = some ⟨7, 4⟩ := by decide!
  have hb : findKing facingKingsGame.board .black = some ⟨7, 6⟩ := by decide!
  have key : ∀ fuel, isKingInCheck fuel facingKingsGame .white = .error .diverge ∧
      isKingInCheck fuel facingKingsGame .black = .error .diverge := by
    intro fuel
    induction fuel with
    | zero => exact ⟨by decide!, by decide!⟩
    | succ n ih =>
      have kw : isPieceMovementValid (n + 1) facingKingsGame ⟨.king, .white, false⟩ 7 4 7 6 =
          .error .diverge := by
        have h' : isKingInCheckWith (isPieceMovementValid n facingKingsGame)
            facingKingsGame.board .white = .error .diverge := ih.1
        have hrook : getCell facingKingsGame.board 7 7 = .ok (some ⟨.rook, .white, false⟩) := by
          decide!
        have hright : (facingKingsGame.castlingRights.get .white).kingside = true := by decide!
        simp [isPieceMovementValid, isKingMoveValidWith, isCastlingValidWith, hrook, hright, h']
      have kb : isPieceMovementValid (n + 1) facingKingsGame ⟨.king, .black, false⟩ 7 6 7 4 =
          .error .diverge := by
        have h' : isKingInCheckWith (isPieceMovementValid n facingKingsGame)
            facingKingsGame.board .black = .error .diverge := ih.2
        have hrook : getCell facingKingsGame.board 7 0 = .ok (some ⟨.rook, .white, false⟩) := by
          decide!
        have hright : (facingKingsGame.castlingRights.get .black).queenside = true := by decide!
        simp [isPieceMovementValid, isKingMoveValidWith, isCastlingValidWith, hrook, hright, h']
      constructor
      · unfold isKingInCheck isKingInCheckWith
        rw [hw]
        simp only
        rw [wouldKingBeInCheckWith_congr _ (fun _ _ _ _ _ => .error .diverge)]
        · decide!
        · intro r hr c hc piece hcell hcolor
          rcases hcells r hr c hc with h0 | ⟨_, _, h0⟩ | ⟨_, _, h0⟩ | ⟨_, _, h0⟩ | ⟨rfl, rfl, h0⟩
          all_goals rw [h0] at hcell
          · cases hcell
          · cases hcell; cases hcolor
          · cases hcell; cases hcolor
          · cases hcell; cases hcolor
          · cases hcell
            exact kb
      · unfold isKingInCheck isKingInCheckWith
        rw [hb]
        simp only
        rw [wouldKingBeInCheckWith_congr _ (fun piece r c row col =>
          if piece.type = .king then .error .diverge
          else isPieceMovementValid 1 facingKingsGame piece r c row col)]
        · decide!
        · intro r hr c hc piece hcell hcolor
          rcases hcells r hr c hc with h0 | ⟨_, _, h0⟩ | ⟨_, _, h0⟩ | ⟨rfl, rfl, h0⟩ | ⟨_, _, h0⟩
          all_goals rw [h0] at hcell
          · cases hcell
          · cases hcell
            simp [isPieceMovementValid]
          · cases hcell
            simp [isPieceMovementValid]
          · cases hcell
            simp only [if_true]
            exact kw
          · cases hcell; cases hcolor
  exact fun fuel => (key fuel).1

/-- With the unmoved white king on e2 and the unmoved black king on g1 no row
holds two unmoved kings, but `isValidMove` for the king step e2-e1 does not
return for any budget: the simulation of the step puts the white king on e1,
where the two kings test each other for castling. -/
theorem adjacent_kings_isValidMove_diverges :
    noFacingUnmovedKings adjacentKingsGame.board ∧
      ∀ fuel, isValidMove fuel adjacentKingsGame 6 4 7 4 "w" = .error .diverge := by
  refine ⟨by unfold noFacingUnmovedKings; decide!, ?_⟩
  have hcells : ∀ r ∈ idx8, ∀ c ∈ idx8,
      adjacentKingsStepped.board r c = none ∨
        (r = 7 ∧ c = 0 ∧ adjacentKingsStepped.board r c = some ⟨.rook, .white, false⟩) ∨
        (r = 7 ∧ c = 7 ∧ adjacentKingsStepped.board r c = some ⟨.rook, .white, false⟩) ∨
        (r = 7 ∧ c = 4 ∧ adjacentKingsStepped.board r c = some ⟨.king, .white, false⟩) ∨
        (r = 7 ∧ c = 6 ∧ adjacentKingsStepped.board r c = some ⟨.king, .black, false⟩) := by
    decide!
  have hw : findKing adjacentKingsStepped.board .white = some ⟨7, 4⟩ := by decide!
  have hb : findKing adjacentKingsStepped.board .black = some ⟨7, 6⟩ := by decide!
  have key : ∀ fuel, isKingInCheck fuel adjacentKingsStepped .white = .error .diverge ∧
      isKingInCheck fuel adjacentKingsStepped .black = .error .diverge := by
    intro fuel
    induction fuel with
    | zero => exact ⟨by decide!, by decide!⟩
    | succ n ih =>
      have kw : isPieceMovementValid (n + 1) adjacentKingsStepped ⟨.king, .white, false⟩ 7 4 7 6 =
          .error .diverge := by
        have h' : isKingInCheckWith (isPieceMovementValid n adjacentKingsStepped)
            adjacentKingsStepped.board .white = .error .diverge := ih.1
        have hrook : getCell adjacentKingsStepped.board 7 7 = .ok (some ⟨.rook, .white, false⟩) := by
          decide!
        have hright : (adjacentKingsStepped.castlingRights.get .white).kingside = true := by decide!
        simp [isPieceMovementValid, isKingMoveValidWith, isCastlingValidWith, hrook, hright, h']
      have kb : isPieceMovementValid (n + 1) adjacentKingsStepped ⟨.king, .black, false⟩ 7 6 7 4 =
          .error .diverge := by
        have h' : isKingInCheckWith (isPieceMovementValid n adjacentKingsStepped)
            adjacentKingsStepped.board .black = .error .diverge := ih.2
        have hrook : getCell adjacentKingsStepped.board 7 0 = .ok (some ⟨.rook, .white, false⟩) := by
          decide!
        have hright : (adjacentKingsStepped.castlingRights.get .black).queenside = true := by decide!
        simp [isPieceMovementValid, isKingMoveValidWith, isCastlingValidWith, hrook, hright, h']
      constructor
      · unfold isKingInCheck isKingInCheckWith
        rw [hw]
        simp only
        rw [wouldKingBeInCheckWith_congr _ (fun _ _ _ _ _ => .error .diverge)]
        · decide!
        · intro r hr c hc piece hcell hcolor
          rcases hcells r hr c hc with h0 | ⟨_, _, h0⟩ | ⟨_, _, h0⟩ | ⟨_, _, h0⟩ | ⟨rfl, rfl, h0⟩
          all_goals rw [h0] at hcell
          · cases hcell
          · cases hcell; cases hcolor
          · cases hcell; cases hcolor
          · cases hcell; cases hcolor
          · cases hcell
            exact kb
      · unfold isKingInCheck isKingInCheckWith
        rw [hb]
        simp only
        rw [wouldKingBeInCheckWith_congr _ (fun piece r c row col =>
          if piece.type = .king then .error .diverge
          else isPieceMovementValid 1 adjacentKingsStepped piece r c row col)]
        · decide!
        · intro r hr c hc piece hcell hcolor
          rcases hcells r hr c hc with h0 | ⟨_, _, h0⟩ | ⟨_, _, h0⟩ | ⟨rfl, rfl, h0⟩ | ⟨_, _, h0⟩
          all_goals rw [h0] at hcell
          · cases hcell
          · cases hcell
            simp [isPieceMovementValid]
          · cases hcell
            simp [isPieceMovementValid]
          · cases hcell
            simp only [if_true]
            exact kw
          · cases hcell; cases hcolor
  intro fuel
  have hcolor : getPlayerColor adjacentKingsGame "w" = some .white := by decide!
  have hcur : adjacentKingsGame.currentPlayer = .white := by decide!
  have hover : adjacentKingsGame.gameOver = false := by decide!
  have hfrom : getCell adjacentKingsGame.board 6 4 = .ok (some ⟨.king, .white, false⟩) := by
    decide!
  have hto : getCell adjacentKingsGame.board 7 4 = .ok none := by decide!
  cases fuel with
  | zero => simp [isValidMove, hcolor, hcur, hover, hfrom, hto, isPieceMovementValid]
  | succ n =>
    have hsim : wouldMoveResultInCheck (n + 1) adjacentKingsGame 6 4 7 4 = .error .diverge := by
      unfold wouldMoveResultInCheck
      rw [hfrom, hto]
      exact (key (n + 1)).1
    simp [isValidMove, hcolor, hcur, hover, hfrom, hto, isPieceMovementValid,
      isKingMoveValidWith, hsim]

/-- C25: with a duration of ten to the power 16 seconds and the clock running,
a tick leaves the state as it is, since the decrement of the Number 1e16 is
1e16: after one tick the side to move does not have `d - 1` seconds, and after
any number of ticks the game is not over. -/
theorem c25_long_clock_never_runs_out :
    longClockGame.timeLeft = ⟨10000000000000000, 10000000000000000⟩ ∧
      longClockGame.timerActive = true ∧ longClockGame.timerPaused = false ∧
      longClockGame.gameOver = false ∧ longClockGame.currentPlayer = .white ∧
      decrement 10000000000000000 = 10000000000000000 ∧
      (ticks 1 longClockGame).timeLeft.get .white = 10000000000000000 ∧
      ∀ n, (ticks n longClockGame).timeLeft.get .white = 10000000000000000 ∧
        (ticks n longClockGame).gameOver = false := by
  have ht : (tick longClockGame).2 = longClockGame := by rfl
  have hn : ∀ n, ticks n longClockGame = longClockGame := by
    intro n
    induction n with
    | zero => rfl
    | succ n ih =>
      show ticks n (tick longClockGame).2 = longClockGame
      rw [ht, ih]
  refine ⟨by decide!, by decide!, by decide!, by decide!, by decide!, by decide!, ?_, ?_⟩
  · rw [hn 1]
    decide!
  · intro n
    rw [hn n]
    exact ⟨by decide!, by decide!⟩

end Chess
